import Mathlib

/-!
# usbasp-uart: ring buffer, UART channel and USB stream dispatcher

A shallow embedding of `firmware/uart.c` and `firmware/main.c`.

Conventions of the embedding.

* Pointers are `Nat` addresses; the SRAM holding `tx_buff` and `rx_buff` is a
  function `Mem` from addresses to bytes.
* The target is an ATmega8 built with avr-gcc: `int` and `unsigned int` are 16 bits wide,
  `unsigned long` is 32 bits wide, `uchar`/`uint8_t` are 8 bits wide.  Every store to a
  variable of one of those types reduces modulo `2^16`, `2^32`, `2^8`.
* In `(data[3] << 8) | data[2]` the operands are promoted to the 16-bit `int`.  The result
  is kept as its 16-bit two's complement pattern, as the compiler produces it; stored in an
  `unsigned int` the pattern is the value, stored in an `unsigned long` a pattern with bit 15
  set is a negative `int` and is sign-extended.
* Functions of the programming transports and the board (`isp.h`, `tpi.h`, `clock.h`, LED
  macros) are outside the core: their calls are recorded in a trace and their answers are
  taken from an environment.
* `ATOMIC_BLOCK` only masks interrupts around a load or a store; the embedding is
  sequential at the granularity of whole function calls, so the blocks are plain
  loads and stores.
-/

set_option linter.unusedVariables false

namespace UsbaspUart

/-! ## uart.c : the ring buffer -/

/-- Byte-addressed SRAM. -/
abbrev Mem := Nat → Nat

/-- The C struct `ringBuffer`: four pointers (`end` is a Lean keyword, hence `end_`). -/
structure ringBuffer where
  write : Nat
  read : Nat
  start : Nat
  end_ : Nat
deriving DecidableEq, Repr

/-- Embeds `ringBufferFull`: `next = write+1`, wrapped to `start` at `end`; result `next==read`. -/
def ringBufferFull (rb : ringBuffer) : Nat :=
  let next := rb.write + 1
  let next := if next = rb.end_ then rb.start else next
  let read := rb.read
  if next = read then 1 else 0

/-- Embeds `ringBufferEmpty`: result `read==write`. -/
def ringBufferEmpty (rb : ringBuffer) : Nat :=
  let read := rb.read
  let write := rb.write
  if read = write then 1 else 0

/-- Embeds `ringBufferWrite`: `*write++ = c`, wrap to `start` at `end`, store the cursor.
The parameter `c` is a `uint8_t`, so the stored value is `c % 256`. -/
def ringBufferWrite (rb : ringBuffer) (mem : Mem) (c : Nat) : ringBuffer × Mem :=
  let write := rb.write
  let mem := Function.update mem write (c % 256)
  let write := write + 1
  let write := if write = rb.end_ then rb.start else write
  ({ rb with write := write }, mem)

/-- Embeds `ringBufferRead`: `c = *read++`, wrap to `start` at `end`, store the cursor. -/
def ringBufferRead (rb : ringBuffer) (mem : Mem) : Nat × ringBuffer :=
  let read := rb.read
  let c := mem read
  let read := read + 1
  let read := if read = rb.end_ then rb.start else read
  (c, { rb with read := read })

/-! ### Abstract view of a ring -/

/-- Both cursors lie inside the backing array `[start, end)`. -/
def ringBuffer.Valid (rb : ringBuffer) : Prop :=
  rb.start ≤ rb.read ∧ rb.read < rb.end_ ∧ rb.start ≤ rb.write ∧ rb.write < rb.end_

instance (rb : ringBuffer) : Decidable rb.Valid := by
  unfold ringBuffer.Valid; infer_instance

/-- Number of slots of the backing array. -/
def ringBuffer.capacity (rb : ringBuffer) : Nat := rb.end_ - rb.start

/-- The bytes stored at addresses `a, a+1, .., b-1`. -/
def seg (mem : Mem) (a b : Nat) : List Nat :=
  (List.range (b - a)).map (fun i => mem (a + i))

/-- The queued bytes, oldest first: from the read cursor up to the write cursor,
going round the end of the array when the write cursor is behind the read cursor. -/
def queued (rb : ringBuffer) (mem : Mem) : List Nat :=
  if rb.read ≤ rb.write then seg mem rb.read rb.write
  else seg mem rb.read rb.end_ ++ seg mem rb.start rb.write

/-- The queued count as the spec writes it: `(write - read) mod capacity`. -/
def queuedCount (rb : ringBuffer) : Int :=
  ((rb.write : Int) - (rb.read : Int)) % ((rb.end_ : Int) - (rb.start : Int))

/-- One step of an interleaving of the two ring operations. -/
inductive RbOp where
  | write (c : Nat)
  | read
deriving DecidableEq, Repr

/-- The bytes handed to `ringBufferWrite` along an interleaving, as `uint8_t` values. -/
def writesOf : List RbOp → List Nat
  | [] => []
  | RbOp.write c :: ops => (c % 256) :: writesOf ops
  | RbOp.read :: ops => writesOf ops

/-- Runs an interleaving.  A write is done only when `ringBufferFull` is false and a read only
when `ringBufferEmpty` is false; the run is `none` when an operation's precondition fails.
The result carries the final ring, the final memory and the bytes returned by the reads. -/
def rbRun : List RbOp → ringBuffer → Mem → Option (ringBuffer × Mem × List Nat)
  | [], rb, mem => some (rb, mem, [])
  | RbOp.write c :: ops, rb, mem =>
    if ringBufferFull rb = 0 then
      rbRun ops (ringBufferWrite rb mem c).1 (ringBufferWrite rb mem c).2
    else none
  | RbOp.read :: ops, rb, mem =>
    if ringBufferEmpty rb = 0 then
      match rbRun ops (ringBufferRead rb mem).2 mem with
      | some (rb', mem', out) => some (rb', mem', (ringBufferRead rb mem).1 :: out)
      | none => none
    else none

/-! ## Constants of headers that are not among the sources -/

/-- The macros the firmware takes from headers outside the source tree: `usbasp.h`
(opcodes, stream states, block flags, SCK options, capabilities, UART flags), `usbdrv.h`
(`USB_NO_MSG`), `isp.h` (pin numbers), `tpi_defs.h` (the `SSTCS` opcode) and the device header
`avr/io.h` (bit numbers).  They are taken as parameters; no value is assumed. -/
structure Consts where
  USBASP_FUNC_CONNECT : Nat
  USBASP_FUNC_DISCONNECT : Nat
  USBASP_FUNC_TRANSMIT : Nat
  USBASP_FUNC_READFLASH : Nat
  USBASP_FUNC_ENABLEPROG : Nat
  USBASP_FUNC_WRITEFLASH : Nat
  USBASP_FUNC_READEEPROM : Nat
  USBASP_FUNC_WRITEEEPROM : Nat
  USBASP_FUNC_SETLONGADDRESS : Nat
  USBASP_FUNC_SETISPSCK : Nat
  USBASP_FUNC_TPI_CONNECT : Nat
  USBASP_FUNC_TPI_DISCONNECT : Nat
  USBASP_FUNC_TPI_RAWREAD : Nat
  USBASP_FUNC_TPI_RAWWRITE : Nat
  USBASP_FUNC_TPI_READBLOCK : Nat
  USBASP_FUNC_TPI_WRITEBLOCK : Nat
  USBASP_FUNC_UART_CONFIG : Nat
  USBASP_FUNC_UART_FLUSHTX : Nat
  USBASP_FUNC_UART_FLUSHRX : Nat
  USBASP_FUNC_UART_DISABLE : Nat
  USBASP_FUNC_UART_TX : Nat
  USBASP_FUNC_UART_RX : Nat
  USBASP_FUNC_UART_TX_FREE : Nat
  USBASP_FUNC_GETCAPABILITIES : Nat
  PROG_STATE_IDLE : Nat
  PROG_STATE_WRITEFLASH : Nat
  PROG_STATE_READFLASH : Nat
  PROG_STATE_READEEPROM : Nat
  PROG_STATE_WRITEEEPROM : Nat
  PROG_STATE_TPI_READ : Nat
  PROG_STATE_TPI_WRITE : Nat
  PROG_STATE_UART_RX : Nat
  PROG_STATE_UART_TX : Nat
  PROG_BLOCKFLAG_FIRST : Nat
  PROG_BLOCKFLAG_LAST : Nat
  USBASP_ISP_SCK_AUTO : Nat
  USBASP_ISP_SCK_8 : Nat
  USBASP_CAP_0_TPI : Nat
  USBASP_CAP_6_UART : Nat
  USBASP_UART_PARITY_MASK : Nat
  USBASP_UART_PARITY_EVEN : Nat
  USBASP_UART_PARITY_ODD : Nat
  USBASP_UART_STOP_MASK : Nat
  USBASP_UART_STOP_2BIT : Nat
  USBASP_UART_BYTES_MASK : Nat
  USBASP_UART_BYTES_6B : Nat
  USBASP_UART_BYTES_7B : Nat
  USBASP_UART_BYTES_8B : Nat
  USBASP_UART_BYTES_9B : Nat
  USB_NO_MSG : Nat
  ISP_RST : Nat
  ISP_SCK : Nat
  ISP_MOSI : Nat
  TPI_OP_SSTCS_TPISR : Nat
  RXCIE : Nat
  RXEN : Nat
  TXEN : Nat
  UDRIE : Nat
  U2X : Nat
  UPM0 : Nat
  UPM1 : Nat
  USBS : Nat
  UCSZ0 : Nat
  UCSZ1 : Nat
  UCSZ2 : Nat
  PC2 : Nat
deriving DecidableEq, Repr

/-- The opcodes tested by `usbFunctionSetup`, in the order of its `if`/`else if` chain. -/
def Consts.opcodes (k : Consts) : List Nat :=
  [k.USBASP_FUNC_CONNECT, k.USBASP_FUNC_DISCONNECT, k.USBASP_FUNC_TRANSMIT,
   k.USBASP_FUNC_READFLASH, k.USBASP_FUNC_READEEPROM, k.USBASP_FUNC_ENABLEPROG,
   k.USBASP_FUNC_WRITEFLASH, k.USBASP_FUNC_WRITEEEPROM, k.USBASP_FUNC_SETLONGADDRESS,
   k.USBASP_FUNC_SETISPSCK, k.USBASP_FUNC_TPI_CONNECT, k.USBASP_FUNC_TPI_DISCONNECT,
   k.USBASP_FUNC_TPI_RAWREAD, k.USBASP_FUNC_TPI_RAWWRITE, k.USBASP_FUNC_TPI_READBLOCK,
   k.USBASP_FUNC_TPI_WRITEBLOCK, k.USBASP_FUNC_UART_CONFIG, k.USBASP_FUNC_UART_FLUSHTX,
   k.USBASP_FUNC_UART_FLUSHRX, k.USBASP_FUNC_UART_DISABLE, k.USBASP_FUNC_UART_TX,
   k.USBASP_FUNC_UART_RX, k.USBASP_FUNC_UART_TX_FREE, k.USBASP_FUNC_GETCAPABILITIES]

/-- The nine values of `prog_state`. -/
def Consts.states (k : Consts) : List Nat :=
  [k.PROG_STATE_IDLE, k.PROG_STATE_WRITEFLASH, k.PROG_STATE_READFLASH,
   k.PROG_STATE_READEEPROM, k.PROG_STATE_WRITEEEPROM, k.PROG_STATE_TPI_READ,
   k.PROG_STATE_TPI_WRITE, k.PROG_STATE_UART_RX, k.PROG_STATE_UART_TX]

/-- What every usable set of headers satisfies: the opcodes are pairwise different and the
stream states are pairwise different. -/
def Consts.WellFormed (k : Consts) : Prop :=
  k.opcodes.Nodup ∧ k.states.Nodup

instance (k : Consts) : Decidable k.WellFormed := by
  unfold Consts.WellFormed; infer_instance

/-- One admissible choice of the constants: the values of the USBasp headers with the UART
extension and of the ATmega8 device header.  Used for concrete instances only. -/
def usbasp_h : Consts where
  USBASP_FUNC_CONNECT := 1
  USBASP_FUNC_DISCONNECT := 2
  USBASP_FUNC_TRANSMIT := 3
  USBASP_FUNC_READFLASH := 4
  USBASP_FUNC_ENABLEPROG := 5
  USBASP_FUNC_WRITEFLASH := 6
  USBASP_FUNC_READEEPROM := 7
  USBASP_FUNC_WRITEEEPROM := 8
  USBASP_FUNC_SETLONGADDRESS := 9
  USBASP_FUNC_SETISPSCK := 10
  USBASP_FUNC_TPI_CONNECT := 11
  USBASP_FUNC_TPI_DISCONNECT := 12
  USBASP_FUNC_TPI_RAWREAD := 13
  USBASP_FUNC_TPI_RAWWRITE := 14
  USBASP_FUNC_TPI_READBLOCK := 15
  USBASP_FUNC_TPI_WRITEBLOCK := 16
  USBASP_FUNC_UART_CONFIG := 60
  USBASP_FUNC_UART_FLUSHTX := 61
  USBASP_FUNC_UART_FLUSHRX := 62
  USBASP_FUNC_UART_DISABLE := 63
  USBASP_FUNC_UART_TX := 64
  USBASP_FUNC_UART_RX := 65
  USBASP_FUNC_UART_TX_FREE := 66
  USBASP_FUNC_GETCAPABILITIES := 127
  PROG_STATE_IDLE := 0
  PROG_STATE_WRITEFLASH := 1
  PROG_STATE_READFLASH := 2
  PROG_STATE_READEEPROM := 3
  PROG_STATE_WRITEEEPROM := 4
  PROG_STATE_TPI_READ := 5
  PROG_STATE_TPI_WRITE := 6
  PROG_STATE_UART_RX := 7
  PROG_STATE_UART_TX := 8
  PROG_BLOCKFLAG_FIRST := 1
  PROG_BLOCKFLAG_LAST := 2
  USBASP_ISP_SCK_AUTO := 0
  USBASP_ISP_SCK_8 := 5
  USBASP_CAP_0_TPI := 1
  USBASP_CAP_6_UART := 64
  USBASP_UART_PARITY_MASK := 3
  USBASP_UART_PARITY_EVEN := 1
  USBASP_UART_PARITY_ODD := 2
  USBASP_UART_STOP_MASK := 4
  USBASP_UART_STOP_2BIT := 4
  USBASP_UART_BYTES_MASK := 56
  USBASP_UART_BYTES_6B := 8
  USBASP_UART_BYTES_7B := 16
  USBASP_UART_BYTES_8B := 24
  USBASP_UART_BYTES_9B := 32
  USB_NO_MSG := 255
  ISP_RST := 2
  ISP_SCK := 5
  ISP_MOSI := 3
  TPI_OP_SSTCS_TPISR := 192
  RXCIE := 7
  RXEN := 4
  TXEN := 3
  UDRIE := 5
  U2X := 1
  UPM0 := 4
  UPM1 := 5
  USBS := 3
  UCSZ0 := 1
  UCSZ1 := 2
  UCSZ2 := 2
  PC2 := 2

/-! ## uart.c : the UART channel -/

/-- `RINGBUFFER_TX_SIZE` of `uart.h`. -/
def RINGBUFFER_TX_SIZE : Nat := 256

/-- `RINGBUFFER_RX_SIZE` of `uart.h`. -/
def RINGBUFFER_RX_SIZE : Nat := 256

/-- The state owned by `uart.c`: the SRAM that holds `tx_buff` and `rx_buff`, the two
rings `tx` and `rx`, and the I/O registers the file touches (all 8 bits wide). -/
structure Uart where
  mem : Mem
  tx : ringBuffer
  rx : ringBuffer
  UDR : Nat
  UCSRA : Nat
  UCSRB : Nat
  UCSRC : Nat
  UBRRL : Nat
  UBRRH : Nat
  PORTD : Nat
  DDRD : Nat

/-- The static initialisers of `tx` and `rx`: all of `write`, `read`, `start` point at the
first byte of the array and `end` points one past its last byte. -/
def Uart.IsInitial (u : Uart) (tx_buff rx_buff : Nat) : Prop :=
  u.tx = { write := tx_buff, read := tx_buff, start := tx_buff,
           end_ := tx_buff + RINGBUFFER_TX_SIZE } ∧
  u.rx = { write := rx_buff, read := rx_buff, start := rx_buff,
           end_ := rx_buff + RINGBUFFER_RX_SIZE }

/-- Embeds `__vector_usart_rxc_wrapped`; `udr` is the byte read from `UDR`. -/
def vector_usart_rxc_wrapped (k : Consts) (u : Uart) (udr : Nat) : Uart :=
  let c := udr % 256
  let u := if ringBufferFull u.rx = 0 then
      { u with rx := (ringBufferWrite u.rx u.mem c).1, mem := (ringBufferWrite u.rx u.mem c).2 }
    else u
  { u with UCSRB := (u.UCSRB ||| (1 <<< k.RXCIE)) % 256 }

/-- Embeds `__vector_usart_udre_wrapped`. -/
def vector_usart_udre_wrapped (k : Consts) (u : Uart) : Uart :=
  if ringBufferEmpty u.tx = 0 then
    let u := { u with UDR := (ringBufferRead u.tx u.mem).1, tx := (ringBufferRead u.tx u.mem).2 }
    { u with UCSRB := (u.UCSRB ||| (1 <<< k.UDRIE)) % 256 }
  else u

/-- Embeds `uart_tx_freeplaces`: `int16_t res = read - write; if (res <= 0) res += 256;`
and the result `res - 1` converted to `uint16_t`. -/
def uart_tx_freeplaces (u : Uart) : Nat :=
  let write := u.tx.write
  let read := u.tx.read
  let res : Int := (read : Int) - (write : Int)
  let res : Int := if res ≤ 0 then res + (RINGBUFFER_RX_SIZE : Int) else res
  ((res - 1) % 65536).toNat

/-- Embeds `uart_putc`; the first component is the returned value. -/
def uart_putc (k : Consts) (u : Uart) (c : Nat) : Nat × Uart :=
  if ringBufferFull u.tx ≠ 0 then (0, u)
  else
    let u := { u with tx := (ringBufferWrite u.tx u.mem c).1,
                      mem := (ringBufferWrite u.tx u.mem c).2 }
    let u := { u with UCSRB := (u.UCSRB ||| (1 <<< k.UDRIE)) % 256 }
    (1, u)

/-- Embeds `uart_getc`.  The argument `c` is the value held by `*c` before the call; the
result is the returned value, the value held by `*c` after the call, and the new state. -/
def uart_getc (u : Uart) (c : Nat) : Nat × Nat × Uart :=
  if ringBufferEmpty u.rx ≠ 0 then (0, c, u)
  else (1, (ringBufferRead u.rx u.mem).1, { u with rx := (ringBufferRead u.rx u.mem).2 })

/-- Modelled from the spec: `uart_putsn` is declared in `uart.h` and called by
`usbFunctionWrite`, but no source file defines it.  The spec says of a UART-TX packet write
that it "attempts to enqueue all provided bytes; if the ring buffer cannot accept them the
excess is a protocol-level truncation", and of a full TX ring that the bytes are "not
accepted".  The model offers `data[0..len-1]` in order to `uart_putc`.  The spec does not say
what the function returns and the caller drops the result, so the model has no result. -/
def uart_putsn (k : Consts) (u : Uart) (data : Nat → Nat) (len : Nat) : Uart :=
  (List.range len).foldl (fun u i => (uart_putc k u (data i)).2) u

/-- Embeds `uart_disable`. -/
def uart_disable (u : Uart) : Uart :=
  { u with UCSRB := 0 }

/-- Embeds `uart_flush_rx`: `rx.read = rx.write`. -/
def uart_flush_rx (u : Uart) : Uart :=
  let write := u.rx.write
  { u with rx := { u.rx with read := write } }

/-- Embeds `uart_flush_tx`: `tx.write = tx.read`. -/
def uart_flush_tx (u : Uart) : Uart :=
  let read := u.tx.read
  { u with tx := { u.tx with write := read } }

/-- Embeds `uart_config`.  `byte` is a `uint8_t`; the two `switch` statements are chains
of comparisons in the order of their `case` labels. -/
def uart_config (k : Consts) (u : Uart) (baud par stop bytes : Nat) : Uart :=
  let u := uart_disable u
  let u := { u with PORTD := (u.PORTD ||| (1 <<< 1)) % 256 }
  let u := { u with DDRD := (u.DDRD ||| (1 <<< 1)) % 256 }
  let u := uart_flush_tx u
  let u := uart_flush_rx u
  let u := { u with UCSRA := (1 <<< k.U2X) % 256 }
  let byte := 0
  let byte :=
    if par = k.USBASP_UART_PARITY_EVEN then (byte ||| (1 <<< k.UPM1)) % 256
    else if par = k.USBASP_UART_PARITY_ODD then
      (byte ||| ((1 <<< k.UPM1) ||| (1 <<< k.UPM0))) % 256
    else byte
  let byte :=
    if stop = k.USBASP_UART_STOP_2BIT then (byte ||| (1 <<< k.USBS)) % 256 else byte
  let byte :=
    if bytes = k.USBASP_UART_BYTES_6B then (byte ||| (1 <<< k.UCSZ0)) % 256
    else if bytes = k.USBASP_UART_BYTES_7B then (byte ||| (1 <<< k.UCSZ1)) % 256
    else if bytes = k.USBASP_UART_BYTES_8B then
      (byte ||| ((1 <<< k.UCSZ1) ||| (1 <<< k.UCSZ0))) % 256
    else if bytes = k.USBASP_UART_BYTES_9B then
      (byte ||| ((1 <<< k.UCSZ2) ||| (1 <<< k.UCSZ1) ||| (1 <<< k.UCSZ0))) % 256
    else byte
  let u := { u with UCSRC := byte }
  let u := { u with UBRRL := (baud &&& 0xFF) % 256 }
  let u := { u with UBRRH := (baud >>> 8) % 256 }
  { u with UCSRB := ((1 <<< k.RXCIE) ||| (1 <<< k.RXEN) ||| (1 <<< k.TXEN)) % 256 }

/-- The UART states reachable from the initial state by writes and reads that respect the
not-full / not-empty preconditions and by the two flushes, on either ring. -/
inductive Uart.Reachable (tx_buff rx_buff : Nat) : Uart → Prop where
  | init (u : Uart) (h : u.IsInitial tx_buff rx_buff) : Uart.Reachable tx_buff rx_buff u
  | txWrite (u : Uart) (c : Nat) (h : Uart.Reachable tx_buff rx_buff u)
      (hf : ringBufferFull u.tx = 0) :
      Uart.Reachable tx_buff rx_buff
        { u with tx := (ringBufferWrite u.tx u.mem c).1, mem := (ringBufferWrite u.tx u.mem c).2 }
  | txRead (u : Uart) (h : Uart.Reachable tx_buff rx_buff u) (he : ringBufferEmpty u.tx = 0) :
      Uart.Reachable tx_buff rx_buff { u with tx := (ringBufferRead u.tx u.mem).2 }
  | rxWrite (u : Uart) (c : Nat) (h : Uart.Reachable tx_buff rx_buff u)
      (hf : ringBufferFull u.rx = 0) :
      Uart.Reachable tx_buff rx_buff
        { u with rx := (ringBufferWrite u.rx u.mem c).1, mem := (ringBufferWrite u.rx u.mem c).2 }
  | rxRead (u : Uart) (h : Uart.Reachable tx_buff rx_buff u) (he : ringBufferEmpty u.rx = 0) :
      Uart.Reachable tx_buff rx_buff { u with rx := (ringBufferRead u.rx u.mem).2 }
  | flush_rx (u : Uart) (h : Uart.Reachable tx_buff rx_buff u) :
      Uart.Reachable tx_buff rx_buff (uart_flush_rx u)
  | flush_tx (u : Uart) (h : Uart.Reachable tx_buff rx_buff u) :
      Uart.Reachable tx_buff rx_buff (uart_flush_tx u)

/-! ## main.c : the command dispatcher and the per-packet callbacks -/

/-- A call of a function of the programming transports or of the board support code
(`isp.c`, `tpi.S`, `clock.c`, the LED macros), none of which is part of the core.  The
dispatcher state keeps the calls in the order in which they are made. -/
inductive Call where
  | ispSetSCKOption (option : Nat)
  | ledRedOn
  | ledRedOff
  | ispConnect
  | ispDisconnect
  | ispTransmit (send_byte : Nat)
  | ispReadFlash (address : Nat)
  | ispReadEEPROM (address : Nat)
  | ispEnterProgrammingMode
  | ispWriteFlash (address data pollmode : Nat)
  | ispFlushPage (address pollvalue : Nat)
  | ispWriteEEPROM (address data : Nat)
  | clockWait (time : Nat)
  | tpi_init
  | tpi_send_byte (b : Nat)
  | tpi_recv_byte
  | tpi_read_block (addr len : Nat)
  | tpi_write_block (addr : Nat) (sptr : List Nat) (len : Nat)
deriving DecidableEq, Repr

/-- What the outside world answers: the level of the pins of port C and the values returned
by the transport functions. -/
structure Env where
  PINC : Nat
  ispTransmit : Nat → Nat
  ispReadFlash : Nat → Nat
  ispReadEEPROM : Nat → Nat
  ispEnterProgrammingMode : Nat
  tpi_recv_byte : Nat
  tpi_read_block : Nat → Nat → Nat

/-- The file-scope variables of `main.c`, the UART state it drives, the variable
`tpi_dly_cnt` and the port registers it writes, and the transport calls made so far. -/
structure Prog where
  uart : Uart
  replyBuffer : Nat → Nat
  prog_state : Nat
  prog_sck : Nat
  prog_address_newmode : Nat
  prog_address : Nat
  prog_nbytes : Nat
  prog_pagesize : Nat
  prog_blockflags : Nat
  prog_pagecounter : Nat
  tpi_dly_cnt : Nat
  ISP_OUT : Nat
  ISP_DDR : Nat
  calls : List Call

/-- Appends a transport call to the trace. -/
def Prog.call (s : Prog) (c : Call) : Prog :=
  { s with calls := s.calls ++ [c] }

/-- The bit pattern of the `int` expression `(hi << 8) | lo` for two `uchar` operands.
`int` has 16 bits on the AVR. -/
def word16 (hi lo : Nat) : Nat :=
  ((hi <<< 8) ||| lo) % 65536

/-- Conversion of a 16-bit `int`, given by its bit pattern, to `unsigned long`: the value
is sign-extended, so a pattern with bit 15 set gets the upper 16 bits set. -/
def intToULong (w : Nat) : Nat :=
  if w < 32768 then w else w + 0xFFFF0000

/-- The load `*((unsigned long*) &data[2])`: four bytes, least significant first. -/
def loadULong (data : Nat → Nat) (i : Nat) : Nat :=
  (data i + 256 * data (i + 1) + 65536 * data (i + 2) + 16777216 * data (i + 3)) % 4294967296

/-- Clears in an 8-bit register the bits of `mask`: the statement `reg &= ~mask`. -/
def clearBits (reg mask : Nat) : Nat :=
  reg &&& (0xFF ^^^ (mask % 256))

/-- The branch `data[1] == USBASP_FUNC_CONNECT` of `usbFunctionSetup` (main.c lines 46-61);
`len` starts at 0. -/
def setup_CONNECT (k : Consts) (env : Env) (s : Prog) (data : Nat → Nat) : Nat × Prog :=
  let s := { s with uart := uart_disable s.uart }
  let s := if (env.PINC &&& (1 <<< k.PC2)) = 0 then
      s.call (Call.ispSetSCKOption k.USBASP_ISP_SCK_8)
    else s.call (Call.ispSetSCKOption s.prog_sck)
  let s := { s with prog_address_newmode := 0 }
  let s := s.call Call.ledRedOn
  let s := s.call Call.ispConnect
  (0, s)

/-- The branch `data[1] == USBASP_FUNC_DISCONNECT` of `usbFunctionSetup` (main.c lines 62-65);
`len` starts at 0. -/
def setup_DISCONNECT (k : Consts) (env : Env) (s : Prog) (data : Nat → Nat) : Nat × Prog :=
  let s := s.call Call.ispDisconnect
  let s := s.call Call.ledRedOff
  (0, s)

/-- The branch `data[1] == USBASP_FUNC_TRANSMIT` of `usbFunctionSetup` (main.c lines 66-72);
`len` starts at 0. -/
def setup_TRANSMIT (k : Consts) (env : Env) (s : Prog) (data : Nat → Nat) : Nat × Prog :=
  let s := { (s.call (Call.ispTransmit (data 2))) with
              replyBuffer := Function.update s.replyBuffer 0 (env.ispTransmit (data 2)) }
  let s := { (s.call (Call.ispTransmit (data 3))) with
              replyBuffer := Function.update s.replyBuffer 1 (env.ispTransmit (data 3)) }
  let s := { (s.call (Call.ispTransmit (data 4))) with
              replyBuffer := Function.update s.replyBuffer 2 (env.ispTransmit (data 4)) }
  let s := { (s.call (Call.ispTransmit (data 5))) with
              replyBuffer := Function.update s.replyBuffer 3 (env.ispTransmit (data 5)) }
  (4, s)

/-- The branch `data[1] == USBASP_FUNC_READFLASH` of `usbFunctionSetup` (main.c lines 73-81);
`len` starts at 0. -/
def setup_READFLASH (k : Consts) (env : Env) (s : Prog) (data : Nat → Nat) : Nat × Prog :=
  let s := if s.prog_address_newmode = 0 then
      { s with prog_address := intToULong (word16 (data 3) (data 2)) }
    else s
  let s := { s with prog_nbytes := word16 (data 7) (data 6) }
  let s := { s with prog_state := k.PROG_STATE_READFLASH }
  (k.USB_NO_MSG, s)

/-- The branch `data[1] == USBASP_FUNC_READEEPROM` of `usbFunctionSetup` (main.c lines 82-90);
`len` starts at 0. -/
def setup_READEEPROM (k : Consts) (env : Env) (s : Prog) (data : Nat → Nat) : Nat × Prog :=
  let s := if s.prog_address_newmode = 0 then
      { s with prog_address := intToULong (word16 (data 3) (data 2)) }
    else s
  let s := { s with prog_nbytes := word16 (data 7) (data 6) }
  let s := { s with prog_state := k.PROG_STATE_READEEPROM }
  (k.USB_NO_MSG, s)

/-- The branch `data[1] == USBASP_FUNC_ENABLEPROG` of `usbFunctionSetup` (main.c lines 91-94);
`len` starts at 0. -/
def setup_ENABLEPROG (k : Consts) (env : Env) (s : Prog) (data : Nat → Nat) : Nat × Prog :=
  let s := { (s.call Call.ispEnterProgrammingMode) with
              replyBuffer := Function.update s.replyBuffer 0 env.ispEnterProgrammingMode }
  (1, s)

/-- The branch `data[1] == USBASP_FUNC_WRITEFLASH` of `usbFunctionSetup` (main.c lines 95-109);
`len` starts at 0. -/
def setup_WRITEFLASH (k : Consts) (env : Env) (s : Prog) (data : Nat → Nat) : Nat × Prog :=
  let s := if s.prog_address_newmode = 0 then
      { s with prog_address := intToULong (word16 (data 3) (data 2)) }
    else s
  let s := { s with prog_pagesize := data 4 }
  let s := { s with prog_blockflags := data 5 &&& 0x0F }
  let s := { s with prog_pagesize := (s.prog_pagesize + ((data 5 &&& 0xF0) <<< 4) % 65536) % 65536 }
  let s := if (s.prog_blockflags &&& k.PROG_BLOCKFLAG_FIRST) ≠ 0 then
      { s with prog_pagecounter := s.prog_pagesize % 256 }
    else s
  let s := { s with prog_nbytes := word16 (data 7) (data 6) }
  let s := { s with prog_state := k.PROG_STATE_WRITEFLASH }
  (k.USB_NO_MSG, s)

/-- The branch `data[1] == USBASP_FUNC_WRITEEEPROM` of `usbFunctionSetup` (main.c lines 110-120);
`len` starts at 0. -/
def setup_WRITEEEPROM (k : Consts) (env : Env) (s : Prog) (data : Nat → Nat) : Nat × Prog :=
  let s := if s.prog_address_newmode = 0 then
      { s with prog_address := intToULong (word16 (data 3) (data 2)) }
    else s
  let s := { s with prog_pagesize := 0 }
  let s := { s with prog_blockflags := 0 }
  let s := { s with prog_nbytes := word16 (data 7) (data 6) }
  let s := { s with prog_state := k.PROG_STATE_WRITEEEPROM }
  (k.USB_NO_MSG, s)

/-- The branch `data[1] == USBASP_FUNC_SETLONGADDRESS` of `usbFunctionSetup` (main.c lines 121-127);
`len` starts at 0. -/
def setup_SETLONGADDRESS (k : Consts) (env : Env) (s : Prog) (data : Nat → Nat) : Nat × Prog :=
  let s := { s with prog_address_newmode := 1 }
  let s := { s with prog_address := loadULong data 2 }
  (0, s)

/-- The branch `data[1] == USBASP_FUNC_SETISPSCK` of `usbFunctionSetup` (main.c lines 128-134);
`len` starts at 0. -/
def setup_SETISPSCK (k : Consts) (env : Env) (s : Prog) (data : Nat → Nat) : Nat × Prog :=
  let s := { s with prog_sck := data 2 }
  let s := { s with replyBuffer := Function.update s.replyBuffer 0 0 }
  (1, s)

/-- The branch `data[1] == USBASP_FUNC_TPI_CONNECT` of `usbFunctionSetup` (main.c lines 135-151);
`len` starts at 0. -/
def setup_TPI_CONNECT (k : Consts) (env : Env) (s : Prog) (data : Nat → Nat) : Nat × Prog :=
  let s := { s with uart := uart_disable s.uart }
  let s := { s with tpi_dly_cnt := (data 2 ||| (data 3 <<< 8)) % 65536 }
  let s := { s with ISP_OUT := (s.ISP_OUT ||| (1 <<< k.ISP_RST)) % 256 }
  let s := { s with ISP_DDR := (s.ISP_DDR ||| (1 <<< k.ISP_RST)) % 256 }
  let s := s.call (Call.clockWait 3)
  let s := { s with ISP_OUT := clearBits s.ISP_OUT (1 <<< k.ISP_RST) }
  let s := s.call Call.ledRedOn
  let s := s.call (Call.clockWait 16)
  let s := s.call Call.tpi_init
  (0, s)

/-- The branch `data[1] == USBASP_FUNC_TPI_DISCONNECT` of `usbFunctionSetup` (main.c lines 152-171);
`len` starts at 0. -/
def setup_TPI_DISCONNECT (k : Consts) (env : Env) (s : Prog) (data : Nat → Nat) : Nat × Prog :=
  let s := s.call (Call.tpi_send_byte k.TPI_OP_SSTCS_TPISR)
  let s := s.call (Call.tpi_send_byte 0)
  let s := s.call (Call.clockWait 10)
  let s := { s with ISP_OUT := (s.ISP_OUT ||| (1 <<< k.ISP_RST)) % 256 }
  let s := s.call (Call.clockWait 5)
  let s := { s with ISP_OUT := clearBits s.ISP_OUT (1 <<< k.ISP_RST) }
  let s := s.call (Call.clockWait 5)
  let pins := (1 <<< k.ISP_RST) ||| (1 <<< k.ISP_SCK) ||| (1 <<< k.ISP_MOSI)
  let s := { s with ISP_DDR := clearBits s.ISP_DDR pins }
  let s := { s with ISP_OUT := clearBits s.ISP_OUT pins }
  let s := s.call Call.ledRedOff
  (0, s)

/-- The branch `data[1] == USBASP_FUNC_TPI_RAWREAD` of `usbFunctionSetup` (main.c lines 172-175);
`len` starts at 0. -/
def setup_TPI_RAWREAD (k : Consts) (env : Env) (s : Prog) (data : Nat → Nat) : Nat × Prog :=
  let s := { (s.call Call.tpi_recv_byte) with
              replyBuffer := Function.update s.replyBuffer 0 env.tpi_recv_byte }
  (1, s)

/-- The branch `data[1] == USBASP_FUNC_TPI_RAWWRITE` of `usbFunctionSetup` (main.c lines 176-178);
`len` starts at 0. -/
def setup_TPI_RAWWRITE (k : Consts) (env : Env) (s : Prog) (data : Nat → Nat) : Nat × Prog :=
  let s := s.call (Call.tpi_send_byte (data 2))
  (0, s)

/-- The branch `data[1] == USBASP_FUNC_TPI_READBLOCK` of `usbFunctionSetup` (main.c lines 179-184);
`len` starts at 0. -/
def setup_TPI_READBLOCK (k : Consts) (env : Env) (s : Prog) (data : Nat → Nat) : Nat × Prog :=
  let s := { s with prog_address := intToULong (word16 (data 3) (data 2)) }
  let s := { s with prog_nbytes := word16 (data 7) (data 6) }
  let s := { s with prog_state := k.PROG_STATE_TPI_READ }
  (k.USB_NO_MSG, s)

/-- The branch `data[1] == USBASP_FUNC_TPI_WRITEBLOCK` of `usbFunctionSetup` (main.c lines 185-190);
`len` starts at 0. -/
def setup_TPI_WRITEBLOCK (k : Consts) (env : Env) (s : Prog) (data : Nat → Nat) : Nat × Prog :=
  let s := { s with prog_address := intToULong (word16 (data 3) (data 2)) }
  let s := { s with prog_nbytes := word16 (data 7) (data 6) }
  let s := { s with prog_state := k.PROG_STATE_TPI_WRITE }
  (k.USB_NO_MSG, s)

/-- The branch `data[1] == USBASP_FUNC_UART_CONFIG` of `usbFunctionSetup` (main.c lines 193-199);
`len` starts at 0. -/
def setup_UART_CONFIG (k : Consts) (env : Env) (s : Prog) (data : Nat → Nat) : Nat × Prog :=
  let baud := word16 (data 3) (data 2)
  let par := data 4 &&& k.USBASP_UART_PARITY_MASK
  let stop := data 4 &&& k.USBASP_UART_STOP_MASK
  let bytes := data 4 &&& k.USBASP_UART_BYTES_MASK
  let s := { s with uart := uart_config k s.uart baud par stop bytes }
  (0, s)

/-- The branch `data[1] == USBASP_FUNC_UART_FLUSHTX` of `usbFunctionSetup` (main.c lines 200-202);
`len` starts at 0. -/
def setup_UART_FLUSHTX (k : Consts) (env : Env) (s : Prog) (data : Nat → Nat) : Nat × Prog :=
  (0, { s with uart := uart_flush_tx s.uart })

/-- The branch `data[1] == USBASP_FUNC_UART_FLUSHRX` of `usbFunctionSetup` (main.c lines 203-205);
`len` starts at 0. -/
def setup_UART_FLUSHRX (k : Consts) (env : Env) (s : Prog) (data : Nat → Nat) : Nat × Prog :=
  (0, { s with uart := uart_flush_rx s.uart })

/-- The branch `data[1] == USBASP_FUNC_UART_DISABLE` of `usbFunctionSetup` (main.c lines 206-208);
`len` starts at 0. -/
def setup_UART_DISABLE (k : Consts) (env : Env) (s : Prog) (data : Nat → Nat) : Nat × Prog :=
  (0, { s with uart := uart_disable s.uart })

/-- The branch `data[1] == USBASP_FUNC_UART_TX` of `usbFunctionSetup` (main.c lines 209-213);
`len` starts at 0. -/
def setup_UART_TX (k : Consts) (env : Env) (s : Prog) (data : Nat → Nat) : Nat × Prog :=
  let s := { s with prog_nbytes := word16 (data 7) (data 6) }
  let s := { s with prog_state := k.PROG_STATE_UART_TX }
  (k.USB_NO_MSG, s)

/-- The branch `data[1] == USBASP_FUNC_UART_RX` of `usbFunctionSetup` (main.c lines 214-218);
`len` starts at 0. -/
def setup_UART_RX (k : Consts) (env : Env) (s : Prog) (data : Nat → Nat) : Nat × Prog :=
  let s := { s with prog_nbytes := word16 (data 7) (data 6) }
  let s := { s with prog_state := k.PROG_STATE_UART_RX }
  (k.USB_NO_MSG, s)

/-- The branch `data[1] == USBASP_FUNC_UART_TX_FREE` of `usbFunctionSetup` (main.c lines 219-224);
`len` starts at 0. -/
def setup_UART_TX_FREE (k : Consts) (env : Env) (s : Prog) (data : Nat → Nat) : Nat × Prog :=
  let places := uart_tx_freeplaces s.uart
  let s := { s with replyBuffer := Function.update s.replyBuffer 0 ((places >>> 8) % 256) }
  let s := { s with replyBuffer := Function.update s.replyBuffer 1 ((places &&& 0xFF) % 256) }
  (2, s)

/-- The branch `data[1] == USBASP_FUNC_GETCAPABILITIES` of `usbFunctionSetup` (main.c lines 225-231);
`len` starts at 0. -/
def setup_GETCAPABILITIES (k : Consts) (env : Env) (s : Prog) (data : Nat → Nat) : Nat × Prog :=
  let caps := (k.USBASP_CAP_0_TPI ||| k.USBASP_CAP_6_UART) % 256
  let s := { s with replyBuffer := Function.update s.replyBuffer 0 caps }
  let s := { s with replyBuffer := Function.update s.replyBuffer 1 0 }
  let s := { s with replyBuffer := Function.update s.replyBuffer 2 0 }
  let s := { s with replyBuffer := Function.update s.replyBuffer 3 0 }
  (4, s)

/-- Embeds `usbFunctionSetup`: the chain of comparisons of `data[1]` with the opcodes, in
the order of the source; each branch is the function `setup_..` above, and a packet with no
known opcode leaves `len = 0`.  The result is the returned length and the new state;
`usbMsgPtr` always ends up pointing at `replyBuffer`. -/
def usbFunctionSetup (k : Consts) (env : Env) (s : Prog) (data : Nat → Nat) : Nat × Prog :=
  if data 1 = k.USBASP_FUNC_CONNECT then setup_CONNECT k env s data
  else if data 1 = k.USBASP_FUNC_DISCONNECT then setup_DISCONNECT k env s data
  else if data 1 = k.USBASP_FUNC_TRANSMIT then setup_TRANSMIT k env s data
  else if data 1 = k.USBASP_FUNC_READFLASH then setup_READFLASH k env s data
  else if data 1 = k.USBASP_FUNC_READEEPROM then setup_READEEPROM k env s data
  else if data 1 = k.USBASP_FUNC_ENABLEPROG then setup_ENABLEPROG k env s data
  else if data 1 = k.USBASP_FUNC_WRITEFLASH then setup_WRITEFLASH k env s data
  else if data 1 = k.USBASP_FUNC_WRITEEEPROM then setup_WRITEEEPROM k env s data
  else if data 1 = k.USBASP_FUNC_SETLONGADDRESS then setup_SETLONGADDRESS k env s data
  else if data 1 = k.USBASP_FUNC_SETISPSCK then setup_SETISPSCK k env s data
  else if data 1 = k.USBASP_FUNC_TPI_CONNECT then setup_TPI_CONNECT k env s data
  else if data 1 = k.USBASP_FUNC_TPI_DISCONNECT then setup_TPI_DISCONNECT k env s data
  else if data 1 = k.USBASP_FUNC_TPI_RAWREAD then setup_TPI_RAWREAD k env s data
  else if data 1 = k.USBASP_FUNC_TPI_RAWWRITE then setup_TPI_RAWWRITE k env s data
  else if data 1 = k.USBASP_FUNC_TPI_READBLOCK then setup_TPI_READBLOCK k env s data
  else if data 1 = k.USBASP_FUNC_TPI_WRITEBLOCK then setup_TPI_WRITEBLOCK k env s data
  else if data 1 = k.USBASP_FUNC_UART_CONFIG then setup_UART_CONFIG k env s data
  else if data 1 = k.USBASP_FUNC_UART_FLUSHTX then setup_UART_FLUSHTX k env s data
  else if data 1 = k.USBASP_FUNC_UART_FLUSHRX then setup_UART_FLUSHRX k env s data
  else if data 1 = k.USBASP_FUNC_UART_DISABLE then setup_UART_DISABLE k env s data
  else if data 1 = k.USBASP_FUNC_UART_TX then setup_UART_TX k env s data
  else if data 1 = k.USBASP_FUNC_UART_RX then setup_UART_RX k env s data
  else if data 1 = k.USBASP_FUNC_UART_TX_FREE then setup_UART_TX_FREE k env s data
  else if data 1 = k.USBASP_FUNC_GETCAPABILITIES then setup_GETCAPABILITIES k env s data
  else (0, s)

/-- The loop of the UART-RX branch of `usbFunctionRead`:
`for (rd = 0; rd < len; rd++) if (!uart_getc(data+rd)) { len = rd; break; }`,
entered at index `rd` with `n` iterations left at most.  The result is the final value of
`len`, the UART state and the packet buffer. -/
def uartRxLoop : Nat → Nat → Nat → Uart → (Nat → Nat) → Nat × Uart × (Nat → Nat)
  | 0, _, len, u, data => (len, u, data)
  | n + 1, rd, len, u, data =>
    if rd < len then
      if (uart_getc u (data rd)).1 = 0 then
        (rd, (uart_getc u (data rd)).2.2, Function.update data rd (uart_getc u (data rd)).2.1)
      else
        uartRxLoop n (rd + 1) len (uart_getc u (data rd)).2.2
          (Function.update data rd (uart_getc u (data rd)).2.1)
    else (len, u, data)

/-- The body of the ISP loop of `usbFunctionRead` for index `i`. -/
def readByte (k : Consts) (env : Env) (sd : Prog × (Nat → Nat)) (i : Nat) :
    Prog × (Nat → Nat) :=
  let s := sd.1
  let data := sd.2
  let sd : Prog × (Nat → Nat) :=
    if s.prog_state = k.PROG_STATE_READFLASH then
      (s.call (Call.ispReadFlash s.prog_address),
        Function.update data i (env.ispReadFlash s.prog_address))
    else
      (s.call (Call.ispReadEEPROM s.prog_address),
        Function.update data i (env.ispReadEEPROM s.prog_address))
  ({ sd.1 with prog_address := (sd.1.prog_address + 1) % 4294967296 }, sd.2)

/-- Embeds `usbFunctionRead`.  The result is the returned value, the new state and the
packet buffer `data` after the call. -/
def usbFunctionRead (k : Consts) (env : Env) (s : Prog) (data : Nat → Nat) (len : Nat) :
    Nat × Prog × (Nat → Nat) :=
  if s.prog_state ≠ k.PROG_STATE_READFLASH ∧ s.prog_state ≠ k.PROG_STATE_READEEPROM ∧
      s.prog_state ≠ k.PROG_STATE_TPI_READ ∧ s.prog_state ≠ k.PROG_STATE_UART_RX then
    (0xff, s, data)
  else if s.prog_state = k.PROG_STATE_UART_RX then
    let r := uartRxLoop len 0 len s.uart data
    let len := r.1
    let s := { s with uart := r.2.1 }
    let s := if len < 8 then { s with prog_state := k.PROG_STATE_IDLE } else s
    (len, s, r.2.2)
  else if s.prog_state = k.PROG_STATE_TPI_READ then
    let data := fun i => if i < len then env.tpi_read_block s.prog_address i else data i
    let s := s.call (Call.tpi_read_block s.prog_address len)
    let s := { s with prog_address := (s.prog_address + len) % 4294967296 }
    (len, s, data)
  else
    let sd := (List.range len).foldl (readByte k env) (s, data)
    let s := sd.1
    let s := if len < 8 then { s with prog_state := k.PROG_STATE_IDLE } else s
    (len, s, sd.2)

/-- The statement `n--` on a `uchar`. -/
def dec8 (n : Nat) : Nat :=
  (n + 255) % 256

/-- The statement `n--` on a 16-bit `unsigned int`. -/
def dec16 (n : Nat) : Nat :=
  (n + 65535) % 65536

/-- First half of the body of the loop of `usbFunctionWrite`: the byte `b = data[i]` goes
to the flash (unpaged, or paged with the page counter and the flush of a full page) or to
the EEPROM.  `prog_pagecounter` is a `uchar`, `prog_pagesize` a 16-bit `unsigned int`. -/
def storeByte (k : Consts) (s : Prog) (b : Nat) : Prog :=
  if s.prog_state = k.PROG_STATE_WRITEFLASH then
    if s.prog_pagesize = 0 then
      s.call (Call.ispWriteFlash s.prog_address b 1)
    else
      let s := s.call (Call.ispWriteFlash s.prog_address b 0)
      let s := { s with prog_pagecounter := dec8 s.prog_pagecounter }
      if s.prog_pagecounter = 0 then
        let s := s.call (Call.ispFlushPage s.prog_address b)
        { s with prog_pagecounter := s.prog_pagesize % 256 }
      else s
  else
    s.call (Call.ispWriteEEPROM s.prog_address b)

/-- Second half of the body of the loop of `usbFunctionWrite`: `prog_nbytes--`, and at 0
the return to idle, the forced flush of a pending page and `retVal = 1`.  The second
component is `retVal`. -/
def countByte (k : Consts) (s : Prog) (b retVal : Nat) : Prog × Nat :=
  let s := { s with prog_nbytes := dec16 s.prog_nbytes }
  if s.prog_nbytes = 0 then
    let s := { s with prog_state := k.PROG_STATE_IDLE }
    let s :=
      if (s.prog_blockflags &&& k.PROG_BLOCKFLAG_LAST) ≠ 0 ∧
          s.prog_pagecounter ≠ s.prog_pagesize then
        s.call (Call.ispFlushPage s.prog_address b)
      else s
    (s, 1)
  else (s, retVal)

/-- The body of the loop of `usbFunctionWrite` for index `i`: `storeByte`, `countByte`,
then `prog_address++` on a 32-bit `unsigned long`.  The second component is `retVal`. -/
def writeByte (k : Consts) (data : Nat → Nat) (sr : Prog × Nat) (i : Nat) : Prog × Nat :=
  let r := countByte k (storeByte k sr.1 (data i)) (data i) sr.2
  ({ r.1 with prog_address := (r.1.prog_address + 1) % 4294967296 }, r.2)

/-- Subtraction of a `uchar` from a 16-bit `unsigned int`: the statement `n -= len`. -/
def sub16 (n len : Nat) : Nat :=
  (n + (65536 - len % 65536)) % 65536

/-- Embeds `usbFunctionWrite`.  The result is the returned value and the new state. On an
`unsigned int` the test `prog_nbytes <= 0` is kept as it is written. -/
def usbFunctionWrite (k : Consts) (s : Prog) (data : Nat → Nat) (len : Nat) : Nat × Prog :=
  if s.prog_state = k.PROG_STATE_UART_TX then
    let s := if len ≠ 0 then { s with uart := uart_putsn k s.uart data len } else s
    let s := { s with prog_nbytes := sub16 s.prog_nbytes len }
    if s.prog_nbytes ≤ 0 then
      (1, { s with prog_state := k.PROG_STATE_IDLE })
    else (0, s)
  else if s.prog_state ≠ k.PROG_STATE_WRITEFLASH ∧ s.prog_state ≠ k.PROG_STATE_WRITEEEPROM ∧
      s.prog_state ≠ k.PROG_STATE_TPI_WRITE then
    (0xff, s)
  else if s.prog_state = k.PROG_STATE_TPI_WRITE then
    let s := s.call (Call.tpi_write_block s.prog_address ((List.range len).map data) len)
    let s := { s with prog_address := (s.prog_address + len) % 4294967296 }
    let s := { s with prog_nbytes := sub16 s.prog_nbytes len }
    if s.prog_nbytes ≤ 0 then
      (1, { s with prog_state := k.PROG_STATE_IDLE })
    else (0, s)
  else
    let sr := (List.range len).foldl (writeByte k data) (s, 0)
    (sr.2, sr.1)

/-- Number of `ispFlushPage` calls in a trace. -/
def flushCount : List Call → Nat
  | [] => 0
  | Call.ispFlushPage _ _ :: cs => flushCount cs + 1
  | _ :: cs => flushCount cs

/-- Hands a sequence of packets, each a buffer with its length, to `usbFunctionWrite`
one after the other. -/
def writePackets (k : Consts) (s : Prog) : List ((Nat → Nat) × Nat) → Prog
  | [] => s
  | p :: ps => writePackets k (usbFunctionWrite k s p.1 p.2).2 ps

/-! ## Concrete instances -/

/-- A start state of `uart.c`: the two rings as their static initialisers leave them, for
arrays at the addresses `tx_buff` and `rx_buff`, zeroed SRAM and zeroed registers. -/
def Uart.boot (tx_buff rx_buff : Nat) : Uart where
  mem := fun _ => 0
  tx := { write := tx_buff, read := tx_buff, start := tx_buff,
          end_ := tx_buff + RINGBUFFER_TX_SIZE }
  rx := { write := rx_buff, read := rx_buff, start := rx_buff,
          end_ := rx_buff + RINGBUFFER_RX_SIZE }
  UDR := 0
  UCSRA := 0
  UCSRB := 0
  UCSRC := 0
  UBRRL := 0
  UBRRH := 0
  PORTD := 0
  DDRD := 0

/-- An empty 256-byte ring whose two cursors sit on the last slot of the array, so that the
next write and the next read wrap around the end. -/
def ringAtEnd : ringBuffer :=
  { write := 255, read := 255, start := 0, end_ := 256 }

/-- An interleaving of three writes and two reads. -/
def sampleOps : List RbOp :=
  [RbOp.write 7, RbOp.write 9, RbOp.read, RbOp.write 11, RbOp.read]

/-- The UART start state after one byte was written into the TX ring. -/
def Uart.afterOneWrite : Uart :=
  { Uart.boot 96 352 with
    tx := (ringBufferWrite (Uart.boot 96 352).tx (Uart.boot 96 352).mem 65).1,
    mem := (ringBufferWrite (Uart.boot 96 352).tx (Uart.boot 96 352).mem 65).2 }

/-- The dispatcher state after reset: the static initialisers of `main.c`
(`prog_state = PROG_STATE_IDLE`, `prog_sck = USBASP_ISP_SCK_AUTO`, short-address mode,
`prog_nbytes = 0`), zeroed storage elsewhere, the UART start state and no transport call. -/
def Prog.boot (k : Consts) (tx_buff rx_buff : Nat) : Prog where
  uart := Uart.boot tx_buff rx_buff
  replyBuffer := fun _ => 0
  prog_state := k.PROG_STATE_IDLE
  prog_sck := k.USBASP_ISP_SCK_AUTO
  prog_address_newmode := 0
  prog_address := 0
  prog_nbytes := 0
  prog_pagesize := 0
  prog_blockflags := 0
  prog_pagecounter := 0
  tpi_dly_cnt := 0
  ISP_OUT := 0
  ISP_DDR := 0
  calls := []

/-- A target whose flash holds at each address the low byte of the address and whose EEPROM
holds its complement; the other answers are fixed bytes. -/
def Env.sample : Env where
  PINC := 0xFF
  ispTransmit := fun b => b % 256
  ispReadFlash := fun a => a % 256
  ispReadEEPROM := fun a => 255 - a % 256
  ispEnterProgrammingMode := 0
  tpi_recv_byte := 0
  tpi_read_block := fun a i => (a + i) % 256

/-- A packet buffer holding the listed bytes, zero beyond them. -/
def packet (l : List Nat) : Nat → Nat :=
  fun i => l.getD i 0

/-- Splits `n` bytes, all equal to `b`, into packets of 8 bytes and a shorter last one. -/
def packetsOf (b : Nat) : Nat → Nat → List ((Nat → Nat) × Nat)
  | 0, _ => []
  | fuel + 1, n =>
    if n = 0 then []
    else if n ≤ 8 then [(fun _ => b, n)]
    else (fun _ => b, 8) :: packetsOf b fuel (n - 8)

/-- A UART state in use: two bytes queued for transmission, one received byte waiting, the
channel enabled with some earlier settings.  The SRAM holds at each address its low byte. -/
def Uart.busy : Uart where
  mem := fun a => a % 256
  tx := { write := 100, read := 98, start := 96, end_ := 352 }
  rx := { write := 357, read := 356, start := 352, end_ := 608 }
  UDR := 97
  UCSRA := 2
  UCSRB := 184
  UCSRC := 6
  UBRRL := 12
  UBRRH := 0
  PORTD := 3
  DDRD := 2

/-- A dispatcher state in the middle of a UART-TX transfer: 8 bytes are still expected
and the TX ring holds 253 bytes, so that 2 slots are free. -/
def Prog.txNearlyFull : Prog :=
  { Prog.boot usbasp_h 96 352 with
    prog_state := usbasp_h.PROG_STATE_UART_TX
    prog_nbytes := 8
    uart := { Uart.boot 96 352 with
              tx := { write := 349, read := 96, start := 96, end_ := 352 } } }

/-- A dispatcher state in the middle of a UART-RX transfer with three received bytes
waiting in the RX ring, the last of them stored after the wrap-around. -/
def Prog.rxThree : Prog :=
  { Prog.boot usbasp_h 96 352 with
    prog_state := usbasp_h.PROG_STATE_UART_RX
    prog_nbytes := 8
    uart := { Uart.boot 96 352 with
              mem := fun a => a % 256
              rx := { write := 353, read := 606, start := 352, end_ := 608 } } }

/-- Bookkeeping of a paged write-flash transfer of `n` bytes with page size `P` after `j`
bytes, `j < n`: the operation is still WriteFlash, `prog_nbytes` counts the bytes to come,
and for the number `q` of page flushes issued since the trace held `base` of them, the page
counter tells how far the current page is filled: `q * P + (P - prog_pagecounter) = j`. -/
def FlashInv (k : Consts) (P n base j : Nat) (s : Prog) : Prop :=
  s.prog_state = k.PROG_STATE_WRITEFLASH ∧ s.prog_pagesize = P ∧
  (s.prog_blockflags &&& k.PROG_BLOCKFLAG_LAST) ≠ 0 ∧
  s.prog_nbytes = n - j ∧ j < n ∧
  ∃ q, flushCount s.calls = base + q ∧ q * P + (P - s.prog_pagecounter) = j ∧
    1 ≤ s.prog_pagecounter ∧ s.prog_pagecounter ≤ P

/-- The end of a paged write-flash transfer of `n = q * P + r` bytes, `r < P`: the operation
is Idle and `q` flushes were issued, plus one if `r > 0`. -/
def FlashDone (k : Consts) (P n base : Nat) (s : Prog) : Prop :=
  s.prog_state = k.PROG_STATE_IDLE ∧
  ∃ q r, n = q * P + r ∧ r < P ∧ flushCount s.calls = base + q + (if 0 < r then 1 else 0)

/-! ## uart.c : the interrupt entry points; the host side decoding -/

/-- Embeds `ISR(USART_RXC_vect, ISR_NAKED)`: the instruction `cbi UCSRB, RXCIE` clears the
receive-interrupt enable bit, `sei` enables interrupts, and the code jumps to
`__vector_usart_rxc_wrapped`.  `udr` is the byte waiting in `UDR`. -/
def ISR_USART_RXC_vect (k : Consts) (u : Uart) (udr : Nat) : Uart :=
  let u := { u with UCSRB := clearBits u.UCSRB (1 <<< k.RXCIE) }
  vector_usart_rxc_wrapped k u udr

/-- Embeds `ISR(USART_UDRE_vect, ISR_NAKED)`: the instruction `cbi UCSRB, UDRIE` clears the
transmit-ready interrupt enable bit, `sei` enables interrupts, and the code jumps to
`__vector_usart_udre_wrapped`. -/
def ISR_USART_UDRE_vect (k : Consts) (u : Uart) : Uart :=
  let u := { u with UCSRB := clearBits u.UCSRB (1 <<< k.UDRIE) }
  vector_usart_udre_wrapped k u

/-- Calls `uart_getc` until it fails, `n` times at most, and collects the bytes it stored;
the cell handed to `uart_getc` holds 0 before each call. -/
def rxDrain : Nat → Uart → List Nat × Uart
  | 0, u => ([], u)
  | n + 1, u =>
    if (uart_getc u 0).1 = 0 then ([], u)
    else ((uart_getc u 0).2.1 :: (rxDrain n (uart_getc u 0).2.2).1,
          (rxDrain n (uart_getc u 0).2.2).2)

/-- The decoding in `usbasp_uart_write` of terminal/usbasp_uart.c:
`size_t avail = (tmp[0] << 8) | tmp[1]`, for the two reply bytes `tmp` (host `int` has at
least 32 bits, so nothing is lost in the shift). -/
def usbasp_uart_write_avail (tmp : Nat → Nat) : Nat :=
  (tmp 0 <<< 8) ||| tmp 1

/-- Embeds `usbasp_uart_write` of terminal/usbasp_uart.c.  The first control transfer
(`USBASP_FUNC_UART_TX_FREE`) leaves the reply bytes in `tmp`; `transmit_tx len` is the value
returned by the second control transfer (`USBASP_FUNC_UART_TX` with `len` bytes). -/
def usbasp_uart_write (tmp : Nat → Nat) (transmit_tx : Nat → Int) (len : Nat) : Int :=
  let avail := usbasp_uart_write_avail tmp
  let len := if len > avail then avail else len
  if len = 0 then 0 else transmit_tx len

/-- The eight streaming opcodes, each with the stream state its branch of
`usbFunctionSetup` stores in `prog_state`. -/
def Consts.streaming (k : Consts) : List (Nat × Nat) :=
  [(k.USBASP_FUNC_READFLASH, k.PROG_STATE_READFLASH),
   (k.USBASP_FUNC_READEEPROM, k.PROG_STATE_READEEPROM),
   (k.USBASP_FUNC_WRITEFLASH, k.PROG_STATE_WRITEFLASH),
   (k.USBASP_FUNC_WRITEEEPROM, k.PROG_STATE_WRITEEEPROM),
   (k.USBASP_FUNC_TPI_READBLOCK, k.PROG_STATE_TPI_READ),
   (k.USBASP_FUNC_TPI_WRITEBLOCK, k.PROG_STATE_TPI_WRITE),
   (k.USBASP_FUNC_UART_TX, k.PROG_STATE_UART_TX),
   (k.USBASP_FUNC_UART_RX, k.PROG_STATE_UART_RX)]

/-- A UART state whose RX ring is full: 255 bytes are queued, from the second slot of the
array round to its first slot.  The SRAM holds at each address its low byte. -/
def Uart.rxFull : Uart :=
  { Uart.boot 96 352 with
    mem := fun a => a % 256
    rx := { write := 352, read := 353, start := 352, end_ := 608 }
    UCSRB := 152 }

/-! ## Traces of the write callback; transfers split over several commands -/

/-- The values `usbFunctionWrite` returns when a sequence of packets is handed to it one
after the other, in order. -/
def writePacketsRets (k : Consts) (s : Prog) : List ((Nat → Nat) × Nat) → List Nat
  | [] => []
  | p :: ps =>
      (usbFunctionWrite k s p.1 p.2).1 :: writePacketsRets k (usbFunctionWrite k s p.1 p.2).2 ps

/-- The bytes a sequence of packets carries, in order: `data[0..len-1]` of each packet. -/
def packetBytes : List ((Nat → Nat) × Nat) → List Nat
  | [] => []
  | p :: ps => (List.range p.2).map p.1 ++ packetBytes ps

/-- The `(address, data)` arguments of the `ispWriteFlash` calls of a trace, in order. -/
def flashWrites (cs : List Call) : List (Nat × Nat) :=
  cs.filterMap fun c =>
    match c with
    | Call.ispWriteFlash a d _ => some (a, d)
    | _ => none

/-- The `(address, data)` arguments of the `ispWriteEEPROM` calls of a trace, in order. -/
def eepromWrites (cs : List Call) : List (Nat × Nat) :=
  cs.filterMap fun c =>
    match c with
    | Call.ispWriteEEPROM a d => some (a, d)
    | _ => none

/-- The calls `ispWriteEEPROM(a, b0)`, `ispWriteEEPROM(a + 1, b1)`, ... for the bytes of a
list, the address counted on the 32-bit `unsigned long` cursor. -/
def eepromCalls (a : Nat) : List Nat → List Call
  | [] => []
  | b :: bs => Call.ispWriteEEPROM a b :: eepromCalls ((a + 1) % 4294967296) bs

/-- The `(address, data)` pairs `(a, b0)`, `(a + 1, b1)`, ... for the bytes of a list, the
address counted on the 32-bit `unsigned long` cursor. -/
def byteWrites (a : Nat) : List Nat → List (Nat × Nat)
  | [] => []
  | b :: bs => (a, b) :: byteWrites ((a + 1) % 4294967296) bs

/-- The length a write command announces: `(data[7] << 8) | data[6]` for bytes. -/
def cmdLen (cmd : Nat → Nat) : Nat :=
  cmd 6 + 256 * cmd 7

/-- Hands a sequence of commands to `usbFunctionSetup`, each followed by its packets to
`usbFunctionWrite`. -/
def writeCommands (k : Consts) (env : Env) (s : Prog) :
    List ((Nat → Nat) × List ((Nat → Nat) × Nat)) → Prog
  | [] => s
  | c :: cs => writeCommands k env (writePackets k (usbFunctionSetup k env s c.1).2 c.2) cs

/-- Number of bytes the commands of a list announce together. -/
def totalLen : List ((Nat → Nat) × List ((Nat → Nat) × Nat)) → Nat
  | [] => 0
  | c :: cs => cmdLen c.1 + totalLen cs

/-- A write-flash command of a paged transfer with page size `P` below 256: its opcode, its
page size bytes, and packets that sum to the length it announces. -/
abbrev IsFlashBlock (k : Consts) (P : Nat) (c : (Nat → Nat) × List ((Nat → Nat) × Nat)) : Prop :=
  c.1 1 = k.USBASP_FUNC_WRITEFLASH ∧ c.1 4 = P ∧ c.1 5 < 16 ∧ c.1 6 < 256 ∧ c.1 7 < 256 ∧
  (c.2.map fun p => p.2).sum = cmdLen c.1

/-- The block flags a write-flash command carries: the low nibble of `data[5]`. -/
def blockFlags (cmd : Nat → Nat) : Nat :=
  cmd 5 &&& 0x0F

/-- Between the bytes and between the commands of a paged flash transfer with page size `P`:
`j` bytes were written since the first command, `j / P` pages were flushed, and the page
counter holds what is left of the current page. -/
def PageInv (P base j : Nat) (s : Prog) : Prop :=
  s.prog_pagesize = P ∧
  ∃ q, flushCount s.calls = base + q ∧ q * P + (P - s.prog_pagecounter) = j ∧
    1 ≤ s.prog_pagecounter ∧ s.prog_pagecounter ≤ P

/-- The ring belongs to the 256-byte array at `buff` and both cursors lie inside it. -/
abbrev ringBuffer.Within (rb : ringBuffer) (buff : Nat) : Prop :=
  rb.start = buff ∧ rb.end_ = buff + 256 ∧
  buff ≤ rb.read ∧ rb.read < buff + 256 ∧ buff ≤ rb.write ∧ rb.write < buff + 256

/-- The UART states reachable from the initial state by the ring operations under their
not-full / not-empty preconditions, by the functions of `uart.c` and by the interrupt
handlers, in any order. -/
inductive Uart.Run (k : Consts) (tx_buff rx_buff : Nat) : Uart → Prop where
  | init (u : Uart) (h : u.IsInitial tx_buff rx_buff) : Uart.Run k tx_buff rx_buff u
  | txWrite (u : Uart) (c : Nat) (h : Uart.Run k tx_buff rx_buff u)
      (hf : ringBufferFull u.tx = 0) :
      Uart.Run k tx_buff rx_buff
        { u with tx := (ringBufferWrite u.tx u.mem c).1, mem := (ringBufferWrite u.tx u.mem c).2 }
  | txRead (u : Uart) (h : Uart.Run k tx_buff rx_buff u) (he : ringBufferEmpty u.tx = 0) :
      Uart.Run k tx_buff rx_buff { u with tx := (ringBufferRead u.tx u.mem).2 }
  | rxWrite (u : Uart) (c : Nat) (h : Uart.Run k tx_buff rx_buff u)
      (hf : ringBufferFull u.rx = 0) :
      Uart.Run k tx_buff rx_buff
        { u with rx := (ringBufferWrite u.rx u.mem c).1, mem := (ringBufferWrite u.rx u.mem c).2 }
  | rxRead (u : Uart) (h : Uart.Run k tx_buff rx_buff u) (he : ringBufferEmpty u.rx = 0) :
      Uart.Run k tx_buff rx_buff { u with rx := (ringBufferRead u.rx u.mem).2 }
  | putc (u : Uart) (c : Nat) (h : Uart.Run k tx_buff rx_buff u) :
      Uart.Run k tx_buff rx_buff (uart_putc k u c).2
  | getc (u : Uart) (c : Nat) (h : Uart.Run k tx_buff rx_buff u) :
      Uart.Run k tx_buff rx_buff (uart_getc u c).2.2
  | flush_rx (u : Uart) (h : Uart.Run k tx_buff rx_buff u) :
      Uart.Run k tx_buff rx_buff (uart_flush_rx u)
  | flush_tx (u : Uart) (h : Uart.Run k tx_buff rx_buff u) :
      Uart.Run k tx_buff rx_buff (uart_flush_tx u)
  | config (u : Uart) (baud par stop bytes : Nat) (h : Uart.Run k tx_buff rx_buff u) :
      Uart.Run k tx_buff rx_buff (uart_config k u baud par stop bytes)
  | disable (u : Uart) (h : Uart.Run k tx_buff rx_buff u) :
      Uart.Run k tx_buff rx_buff (uart_disable u)
  | rxc (u : Uart) (udr : Nat) (h : Uart.Run k tx_buff rx_buff u) :
      Uart.Run k tx_buff rx_buff (ISR_USART_RXC_vect k u udr)
  | udre (u : Uart) (h : Uart.Run k tx_buff rx_buff u) :
      Uart.Run k tx_buff rx_buff (ISR_USART_UDRE_vect k u)
  | rxcWrapped (u : Uart) (udr : Nat) (h : Uart.Run k tx_buff rx_buff u) :
      Uart.Run k tx_buff rx_buff (vector_usart_rxc_wrapped k u udr)
  | udreWrapped (u : Uart) (h : Uart.Run k tx_buff rx_buff u) :
      Uart.Run k tx_buff rx_buff (vector_usart_udre_wrapped k u)

/-! ## Lemmas on segments and the abstract view -/

theorem seg_self (mem : Mem) (a : Nat) : seg mem a a = [] := by
  simp [seg]

theorem seg_of_le (mem : Mem) (a b : Nat) (h : b ≤ a) : seg mem a b = [] := by
  have : b - a = 0 := by omega
  simp [seg, this]

theorem seg_length (mem : Mem) (a b : Nat) : (seg mem a b).length = b - a := by
  simp [seg]

theorem seg_cons (mem : Mem) (a b : Nat) (h : a < b) :
    seg mem a b = mem a :: seg mem (a + 1) b := by
  have e : b - a = (b - (a + 1)) + 1 := by omega
  unfold seg
  rw [e, List.range_succ_eq_map]
  simp only [List.map_cons, List.map_map, Nat.add_zero]
  congr 1
  apply List.map_congr_left
  intro i _
  simp only [Function.comp, Nat.succ_eq_add_one]
  congr 1
  omega

theorem seg_snoc (mem : Mem) (a b : Nat) (h : a ≤ b) :
    seg mem a (b + 1) = seg mem a b ++ [mem b] := by
  have e : b + 1 - a = (b - a) + 1 := by omega
  unfold seg
  rw [e, List.range_succ, List.map_append]
  simp only [List.map_cons, List.map_nil]
  congr 3
  omega

theorem seg_update_of_lt (mem : Mem) (a b p v : Nat) (h : p < a ∨ b ≤ p) :
    seg (Function.update mem p v) a b = seg mem a b := by
  unfold seg
  apply List.map_congr_left
  intro i hi
  have hi' : i < b - a := List.mem_range.mp hi
  have : a + i ≠ p := by omega
  simp [Function.update, this]

theorem ringBufferWrite_valid (rb : ringBuffer) (mem : Mem) (c : Nat) (hv : rb.Valid) :
    (ringBufferWrite rb mem c).1.Valid := by
  obtain ⟨h1, h2, h3, h4⟩ := hv
  unfold ringBufferWrite ringBuffer.Valid
  dsimp only
  split <;> omega

theorem ringBufferRead_valid (rb : ringBuffer) (mem : Mem) (hv : rb.Valid) :
    (ringBufferRead rb mem).2.Valid := by
  obtain ⟨h1, h2, h3, h4⟩ := hv
  unfold ringBufferRead ringBuffer.Valid
  dsimp only
  split <;> omega

theorem ringBufferFull_eq_zero_iff (rb : ringBuffer) :
    ringBufferFull rb = 0 ↔
      (if rb.write + 1 = rb.end_ then rb.start else rb.write + 1) ≠ rb.read := by
  unfold ringBufferFull
  dsimp only
  split <;> simp_all

theorem ringBufferEmpty_eq_zero_iff (rb : ringBuffer) :
    ringBufferEmpty rb = 0 ↔ rb.read ≠ rb.write := by
  unfold ringBufferEmpty
  dsimp only
  split <;> simp_all

/-- A write into a ring that is not full appends the byte to the queued bytes. -/
theorem queued_ringBufferWrite (rb : ringBuffer) (mem : Mem) (c : Nat) (hv : rb.Valid)
    (hf : ringBufferFull rb = 0) :
    queued (ringBufferWrite rb mem c).1 (ringBufferWrite rb mem c).2
      = queued rb mem ++ [c % 256] := by
  obtain ⟨h1, h2, h3, h4⟩ := hv
  rw [ringBufferFull_eq_zero_iff] at hf
  unfold ringBufferWrite queued
  dsimp only
  by_cases hw : rb.write + 1 = rb.end_
  · rw [if_pos hw] at hf ⊢
    have hlt : ¬ rb.read ≤ rb.start := by omega
    have hle : rb.read ≤ rb.write := by omega
    rw [if_neg hlt, if_pos hle, seg_self, List.append_nil, ← hw, seg_snoc _ _ _ hle,
      seg_update_of_lt _ _ _ _ _ (Or.inr (Nat.le_refl _))]
    simp [Function.update]
  · rw [if_neg hw] at hf ⊢
    by_cases hle : rb.read ≤ rb.write
    · have hle' : rb.read ≤ rb.write + 1 := by omega
      rw [if_pos hle', if_pos hle, seg_snoc _ _ _ hle,
        seg_update_of_lt _ _ _ _ _ (Or.inr (Nat.le_refl _))]
      simp [Function.update]
    · have hle' : ¬ rb.read ≤ rb.write + 1 := by omega
      rw [if_neg hle', if_neg hle, seg_snoc _ _ _ h3,
        seg_update_of_lt _ _ _ _ _ (Or.inr (Nat.le_refl _)),
        seg_update_of_lt _ _ _ _ _ (Or.inl (by omega))]
      simp [Function.update]

/-- A read from a ring that is not empty returns the oldest queued byte and removes it. -/
theorem queued_ringBufferRead (rb : ringBuffer) (mem : Mem) (hv : rb.Valid)
    (he : ringBufferEmpty rb = 0) :
    queued rb mem = (ringBufferRead rb mem).1 :: queued (ringBufferRead rb mem).2 mem := by
  obtain ⟨h1, h2, h3, h4⟩ := hv
  rw [ringBufferEmpty_eq_zero_iff] at he
  unfold ringBufferRead queued
  dsimp only
  by_cases hle : rb.read ≤ rb.write
  · have hne : ¬ rb.read + 1 = rb.end_ := by omega
    have hle' : rb.read + 1 ≤ rb.write := by omega
    rw [if_pos hle, if_neg hne, if_pos hle', seg_cons _ _ _ (by omega)]
  · rw [if_neg hle, seg_cons _ _ _ h2]
    by_cases hr : rb.read + 1 = rb.end_
    · rw [if_pos hr, if_pos h3, hr, seg_self]
      rfl
    · have hle' : ¬ rb.read + 1 ≤ rb.write := by omega
      rw [if_neg hr, if_neg hle']
      rfl

/-- The number of queued bytes, without modular arithmetic. -/
theorem queued_length (rb : ringBuffer) (mem : Mem) :
    (queued rb mem).length =
      if rb.read ≤ rb.write then rb.write - rb.read
      else (rb.end_ - rb.read) + (rb.write - rb.start) := by
  unfold queued
  split <;> simp [seg_length]

/-- On a valid ring the spec's `(write - read) mod capacity` is the number of queued bytes. -/
theorem queuedCount_eq_length (rb : ringBuffer) (mem : Mem) (hv : rb.Valid) :
    queuedCount rb = ((queued rb mem).length : Int) := by
  obtain ⟨h1, h2, h3, h4⟩ := hv
  rw [queued_length]
  unfold queuedCount
  by_cases hle : rb.read ≤ rb.write
  · rw [if_pos hle]
    rw [Int.emod_eq_of_lt (by omega) (by omega)]
    omega
  · rw [if_neg hle]
    have e : ((rb.write : Int) - rb.read) % ((rb.end_ : Int) - rb.start)
        = ((rb.write : Int) - rb.read + ((rb.end_ : Int) - rb.start))
            % ((rb.end_ : Int) - rb.start) := by
      rw [Int.add_emod_self]
    rw [e, Int.emod_eq_of_lt (by omega) (by omega)]
    omega

theorem ringBufferFull_iff_length (rb : ringBuffer) (mem : Mem) (hv : rb.Valid) :
    ringBufferFull rb ≠ 0 ↔ (queued rb mem).length = rb.capacity - 1 := by
  obtain ⟨h1, h2, h3, h4⟩ := hv
  rw [Ne, ringBufferFull_eq_zero_iff, queued_length]
  unfold ringBuffer.capacity
  split <;> split <;> omega

theorem ringBufferEmpty_iff_length (rb : ringBuffer) (mem : Mem) (hv : rb.Valid) :
    ringBufferEmpty rb ≠ 0 ↔ (queued rb mem).length = 0 := by
  obtain ⟨h1, h2, h3, h4⟩ := hv
  rw [Ne, ringBufferEmpty_eq_zero_iff, queued_length]
  split <;> omega

theorem queued_length_lt (rb : ringBuffer) (mem : Mem) (hv : rb.Valid) :
    (queued rb mem).length < rb.capacity := by
  obtain ⟨h1, h2, h3, h4⟩ := hv
  rw [queued_length]
  unfold ringBuffer.capacity
  split <;> omega

theorem queued_of_empty (rb : ringBuffer) (mem : Mem) (he : ringBufferEmpty rb ≠ 0) :
    queued rb mem = [] := by
  have h : rb.read = rb.write := by
    by_contra hne
    exact he ((ringBufferEmpty_eq_zero_iff rb).mpr hne)
  unfold queued
  rw [if_pos (Nat.le_of_eq h), h, seg_self]

theorem ringBufferWrite_bounds (rb : ringBuffer) (mem : Mem) (c : Nat) :
    (ringBufferWrite rb mem c).1.start = rb.start ∧
    (ringBufferWrite rb mem c).1.end_ = rb.end_ ∧
    (ringBufferWrite rb mem c).1.read = rb.read := by
  simp [ringBufferWrite]

theorem ringBufferRead_bounds (rb : ringBuffer) (mem : Mem) :
    (ringBufferRead rb mem).2.start = rb.start ∧
    (ringBufferRead rb mem).2.end_ = rb.end_ ∧
    (ringBufferRead rb mem).2.write = rb.write := by
  simp [ringBufferRead]

/-- FIFO law of a run: the bytes read, followed by what is still queued, are the bytes
queued at the start followed by the bytes written. -/
theorem rbRun_fifo (ops : List RbOp) :
    ∀ (rb : ringBuffer) (mem : Mem) (r : ringBuffer × Mem × List Nat), rb.Valid →
      rbRun ops rb mem = some r →
      r.2.2 ++ queued r.1 r.2.1 = queued rb mem ++ writesOf ops ∧ r.1.Valid := by
  induction ops with
  | nil =>
    intro rb mem r hv h
    simp only [rbRun, Option.some.injEq] at h
    subst h
    simp [writesOf, hv]
  | cons op ops ih =>
    intro rb mem r hv h
    cases op with
    | write c =>
      simp only [rbRun] at h
      by_cases hf : ringBufferFull rb = 0
      · rw [if_pos hf] at h
        have := ih _ _ r (ringBufferWrite_valid rb mem c hv) h
        rw [queued_ringBufferWrite rb mem c hv hf] at this
        simpa [writesOf] using this
      · rw [if_neg hf] at h
        exact absurd h (by simp)
    | read =>
      simp only [rbRun] at h
      by_cases he : ringBufferEmpty rb = 0
      · rw [if_pos he] at h
        cases hr : rbRun ops (ringBufferRead rb mem).2 mem with
        | none => rw [hr] at h; exact absurd h (by simp)
        | some r1 =>
          rw [hr] at h
          obtain ⟨rb1, mem1, out1⟩ := r1
          simp only [Option.some.injEq] at h
          subst h
          have := ih _ _ _ (ringBufferRead_valid rb mem hv) hr
          rw [queued_ringBufferRead rb mem hv he]
          simpa [writesOf] using this
      · rw [if_neg he] at h
        exact absurd h (by simp)

/-- Writing `bs` into a ring with room for them: every write finds the ring not full. -/
theorem rbRun_writes (bs : List Nat) :
    ∀ (rest : List RbOp) (rb : ringBuffer) (mem : Mem), rb.Valid →
      (queued rb mem).length + bs.length + 1 ≤ rb.capacity →
      ∃ rb1 mem1, rbRun (bs.map RbOp.write ++ rest) rb mem = rbRun rest rb1 mem1 ∧
        rb1.Valid ∧ queued rb1 mem1 = queued rb mem ++ bs.map (fun b => b % 256) := by
  induction bs with
  | nil =>
    intro rest rb mem hv _
    exact ⟨rb, mem, by simp, hv, by simp⟩
  | cons b bs ih =>
    intro rest rb mem hv hlen
    have hf : ringBufferFull rb = 0 := by
      by_contra hne
      have := (ringBufferFull_iff_length rb mem hv).mp hne
      simp only [List.length_cons] at hlen
      omega
    have hq := queued_ringBufferWrite rb mem b hv hf
    have hb := ringBufferWrite_bounds rb mem b
    have hlen1 : (queued (ringBufferWrite rb mem b).1 (ringBufferWrite rb mem b).2).length
        + bs.length + 1 ≤ (ringBufferWrite rb mem b).1.capacity := by
      rw [hq]
      unfold ringBuffer.capacity at hlen ⊢
      rw [hb.1, hb.2.1]
      simp only [List.length_append, List.length_cons, List.length_nil] at hlen ⊢
      omega
    obtain ⟨rb1, mem1, h1, h2, h3⟩ :=
      ih rest _ _ (ringBufferWrite_valid rb mem b hv) hlen1
    refine ⟨rb1, mem1, ?_, h2, ?_⟩
    · simp only [List.map_cons, List.cons_append, rbRun, if_pos hf]
      exact h1
    · rw [h3, hq]
      simp

/-- Reading as many times as bytes are queued returns the queued bytes and empties the ring. -/
theorem rbRun_reads (n : Nat) :
    ∀ (rb : ringBuffer) (mem : Mem), rb.Valid → (queued rb mem).length = n →
      ∃ rb1, rbRun (List.replicate n RbOp.read) rb mem = some (rb1, mem, queued rb mem) ∧
        ringBufferEmpty rb1 ≠ 0 := by
  induction n with
  | zero =>
    intro rb mem hv hlen
    refine ⟨rb, ?_, ?_⟩
    · rw [List.length_eq_zero.mp hlen]
      rfl
    · exact (ringBufferEmpty_iff_length rb mem hv).mpr hlen
  | succ n ih =>
    intro rb mem hv hlen
    have he : ringBufferEmpty rb = 0 := by
      by_contra hne
      have := (ringBufferEmpty_iff_length rb mem hv).mp hne
      omega
    have hq := queued_ringBufferRead rb mem hv he
    have hlen1 : (queued (ringBufferRead rb mem).2 mem).length = n := by
      rw [hq] at hlen
      simpa using hlen
    obtain ⟨rb1, h1, h2⟩ := ih _ _ (ringBufferRead_valid rb mem hv) hlen1
    refine ⟨rb1, ?_, h2⟩
    simp only [List.replicate_succ, rbRun, if_pos he, h1]
    rw [← hq]

/-! ## C1: FIFO order of the ring buffer -/

/-- C1. For every ring whose two cursors lie inside the backing array, wherever they are,
and every interleaving of `ringBufferWrite` and `ringBufferRead` that does a write only when
`ringBufferFull` is false and a read only when `ringBufferEmpty` is false: the bytes
returned by the reads, followed by the bytes left in the ring, are the bytes that were
queued at the start followed by the bytes written, in the same order; so the bytes read are
a prefix of that sequence, and a prefix of the bytes written when the ring starts empty.
In particular, writing `bs` with `bs.length + 1 ≤ capacity` (at most 255 bytes for a 256-byte
ring) into an empty ring and then reading `bs.length` times respects every precondition,
returns `bs` and leaves the ring empty. -/
theorem ringBuffer_fifo_order (rb : ringBuffer) (mem : Mem) (hv : rb.Valid) :
    (∀ (ops : List RbOp) (r : ringBuffer × Mem × List Nat), rbRun ops rb mem = some r →
        r.2.2 ++ queued r.1 r.2.1 = queued rb mem ++ writesOf ops ∧
        r.2.2 <+: queued rb mem ++ writesOf ops ∧
        (ringBufferEmpty rb ≠ 0 → r.2.2 <+: writesOf ops)) ∧
    (∀ bs : List Nat, bs.length + 1 ≤ rb.capacity → ringBufferEmpty rb ≠ 0 →
        ∃ rb1 mem1,
          rbRun (bs.map RbOp.write ++ List.replicate bs.length RbOp.read) rb mem
            = some (rb1, mem1, bs.map (fun b => b % 256)) ∧
          ringBufferEmpty rb1 ≠ 0) := by
  constructor
  · intro ops r hrun
    have h := (rbRun_fifo ops rb mem r hv hrun).1
    refine ⟨h, ⟨queued r.1 r.2.1, h⟩, ?_⟩
    intro he
    rw [queued_of_empty rb mem he, List.nil_append] at h
    exact ⟨queued r.1 r.2.1, h⟩
  · intro bs hlen he
    have hq := queued_of_empty rb mem he
    obtain ⟨rb1, mem1, h1, hv1, hq1⟩ :=
      rbRun_writes bs (List.replicate bs.length RbOp.read) rb mem hv
        (by rw [hq]; simpa using hlen)
    rw [hq, List.nil_append] at hq1
    obtain ⟨rb2, h2, he2⟩ := rbRun_reads bs.length rb1 mem1 hv1 (by rw [hq1]; simp)
    refine ⟨rb2, mem1, ?_, he2⟩
    rw [h1, h2, hq1]

/-- C1 at a ring whose cursors are about to wrap around the end of the array. -/
theorem ringBuffer_fifo_order_witness :
    ringAtEnd.Valid ∧
    rbRun sampleOps ringAtEnd (fun _ => 0)
      = some ({ write := 2, read := 1, start := 0, end_ := 256 },
          Function.update (Function.update (Function.update (fun _ => 0) 255 7) 0 9) 1 11,
          [7, 9]) ∧
    [7, 9] <+: writesOf sampleOps ∧
    (∃ rb1 mem1,
      rbRun ([7, 9, 11].map RbOp.write ++ List.replicate 3 RbOp.read) ringAtEnd (fun _ => 0)
        = some (rb1, mem1, [7, 9, 11]) ∧ ringBufferEmpty rb1 ≠ 0) :=
  ⟨by decide, rfl,
    ((ringBuffer_fifo_order ringAtEnd (fun _ => 0) (by decide)).1 sampleOps _ rfl).2.2
      (by decide),
    (ringBuffer_fifo_order ringAtEnd (fun _ => 0) (by decide)).2 [7, 9, 11]
      (by decide) (by decide)⟩

/-! ## C2: full and empty tests against the queued count -/

theorem Uart.Reachable.valid {tx_buff rx_buff : Nat} {u : Uart}
    (h : Uart.Reachable tx_buff rx_buff u) :
    (u.tx.Valid ∧ u.tx.end_ = u.tx.start + 256) ∧ (u.rx.Valid ∧ u.rx.end_ = u.rx.start + 256) := by
  induction h with
  | init u h =>
    obtain ⟨h1, h2⟩ := h
    rw [h1, h2]
    simp [ringBuffer.Valid, RINGBUFFER_TX_SIZE, RINGBUFFER_RX_SIZE]
  | txWrite u c _ _ ih =>
    obtain ⟨⟨h1, h2⟩, h3⟩ := ih
    have hb := ringBufferWrite_bounds u.tx u.mem c
    exact ⟨⟨ringBufferWrite_valid u.tx u.mem c h1, by rw [hb.1, hb.2.1]; exact h2⟩, h3⟩
  | txRead u _ _ ih =>
    obtain ⟨⟨h1, h2⟩, h3⟩ := ih
    have hb := ringBufferRead_bounds u.tx u.mem
    exact ⟨⟨ringBufferRead_valid u.tx u.mem h1, by rw [hb.1, hb.2.1]; exact h2⟩, h3⟩
  | rxWrite u c _ _ ih =>
    obtain ⟨h3, ⟨h1, h2⟩⟩ := ih
    have hb := ringBufferWrite_bounds u.rx u.mem c
    exact ⟨h3, ⟨ringBufferWrite_valid u.rx u.mem c h1, by rw [hb.1, hb.2.1]; exact h2⟩⟩
  | rxRead u _ _ ih =>
    obtain ⟨h3, ⟨h1, h2⟩⟩ := ih
    have hb := ringBufferRead_bounds u.rx u.mem
    exact ⟨h3, ⟨ringBufferRead_valid u.rx u.mem h1, by rw [hb.1, hb.2.1]; exact h2⟩⟩
  | flush_rx u _ ih =>
    obtain ⟨h3, ⟨⟨a, b, c, d⟩, h2⟩⟩ := ih
    exact ⟨h3, ⟨⟨c, d, c, d⟩, h2⟩⟩
  | flush_tx u _ ih =>
    obtain ⟨⟨⟨a, b, c, d⟩, h2⟩, h3⟩ := ih
    exact ⟨⟨⟨a, b, a, b⟩, h2⟩, h3⟩

/-- On a ring with cursors in bounds: full iff `capacity - 1` bytes are queued, empty iff
none is, the count being `(write - read) mod capacity`. -/
theorem ringBuffer_full_empty_of_valid (rb : ringBuffer) (mem : Mem) (hv : rb.Valid) :
    queuedCount rb = ((queued rb mem).length : Int) ∧
    (ringBufferFull rb ≠ 0 ↔ queuedCount rb = (rb.capacity : Int) - 1) ∧
    (ringBufferEmpty rb ≠ 0 ↔ queuedCount rb = 0) := by
  have hc := queuedCount_eq_length rb mem hv
  have hlt := queued_length_lt rb mem hv
  refine ⟨hc, ?_, ?_⟩
  · rw [ringBufferFull_iff_length rb mem hv, hc]
    omega
  · rw [ringBufferEmpty_iff_length rb mem hv, hc]
    omega

/-- C2. In every state reachable from the empty initial state by writes and reads that
respect the not-full / not-empty preconditions and by flushes, for the TX ring and for the RX
ring alike: the capacity is 256, the count `(write - read) mod capacity` is the number of
queued bytes, `ringBufferFull` returns true exactly when that count is `capacity - 1 = 255`,
and `ringBufferEmpty` returns true exactly when it is 0. -/
theorem ringBuffer_full_empty_reachable (tx_buff rx_buff : Nat) (u : Uart)
    (h : Uart.Reachable tx_buff rx_buff u) :
    (u.tx.capacity = 256 ∧
      queuedCount u.tx = ((queued u.tx u.mem).length : Int) ∧
      (ringBufferFull u.tx ≠ 0 ↔ queuedCount u.tx = (u.tx.capacity : Int) - 1) ∧
      (ringBufferFull u.tx ≠ 0 ↔ queuedCount u.tx = 255) ∧
      (ringBufferEmpty u.tx ≠ 0 ↔ queuedCount u.tx = 0)) ∧
    (u.rx.capacity = 256 ∧
      queuedCount u.rx = ((queued u.rx u.mem).length : Int) ∧
      (ringBufferFull u.rx ≠ 0 ↔ queuedCount u.rx = (u.rx.capacity : Int) - 1) ∧
      (ringBufferFull u.rx ≠ 0 ↔ queuedCount u.rx = 255) ∧
      (ringBufferEmpty u.rx ≠ 0 ↔ queuedCount u.rx = 0)) := by
  obtain ⟨⟨hvt, het⟩, ⟨hvr, her⟩⟩ := h.valid
  have hct : u.tx.capacity = 256 := by unfold ringBuffer.capacity; omega
  have hcr : u.rx.capacity = 256 := by unfold ringBuffer.capacity; omega
  obtain ⟨t1, t2, t3⟩ := ringBuffer_full_empty_of_valid u.tx u.mem hvt
  obtain ⟨r1, r2, r3⟩ := ringBuffer_full_empty_of_valid u.rx u.mem hvr
  refine ⟨⟨hct, t1, t2, ?_, t3⟩, ⟨hcr, r1, r2, ?_, r3⟩⟩
  · rw [t2, hct]; norm_num
  · rw [r2, hcr]; norm_num

/-- C2 at the state reached from the start state by one write into the TX ring. -/
theorem ringBuffer_full_empty_reachable_witness :
    Uart.Reachable 96 352 Uart.afterOneWrite ∧
    queuedCount Uart.afterOneWrite.tx = 1 ∧
    (ringBufferFull Uart.afterOneWrite.tx ≠ 0 ↔ queuedCount Uart.afterOneWrite.tx = 255) ∧
    (ringBufferEmpty Uart.afterOneWrite.tx ≠ 0 ↔ queuedCount Uart.afterOneWrite.tx = 0) :=
  have hr : Uart.Reachable 96 352 Uart.afterOneWrite :=
    Uart.Reachable.txWrite (Uart.boot 96 352) 65
      (Uart.Reachable.init (Uart.boot 96 352) ⟨rfl, rfl⟩) (by decide)
  ⟨hr, by decide,
    (ringBuffer_full_empty_reachable 96 352 Uart.afterOneWrite hr).1.2.2.2.1,
    (ringBuffer_full_empty_reachable 96 352 Uart.afterOneWrite hr).1.2.2.2.2⟩

/-! ## The dispatcher picks the branch of the opcode -/

/-- Two different positions of the opcode list hold different opcodes. -/
theorem Consts.opcode_ne (k : Consts) (hk : k.WellFormed) (i j : Fin 24) (hij : i ≠ j) :
    k.opcodes.getD i 0 ≠ k.opcodes.getD j 0 := by
  have hl : k.opcodes.length = 24 := rfl
  intro h
  apply hij
  have hi : i.val < k.opcodes.length := by rw [hl]; exact i.isLt
  have hj : j.val < k.opcodes.length := by rw [hl]; exact j.isLt
  rw [List.getD_eq_getElem _ _ hi, List.getD_eq_getElem _ _ hj] at h
  exact Fin.ext ((List.Nodup.getElem_inj_iff hk.1).mp h)

/-- Two different positions of the state list hold different states. -/
theorem Consts.state_ne (k : Consts) (hk : k.WellFormed) (i j : Fin 9) (hij : i ≠ j) :
    k.states.getD i 0 ≠ k.states.getD j 0 := by
  have hl : k.states.length = 9 := rfl
  intro h
  apply hij
  have hi : i.val < k.states.length := by rw [hl]; exact i.isLt
  have hj : j.val < k.states.length := by rw [hl]; exact j.isLt
  rw [List.getD_eq_getElem _ _ hi, List.getD_eq_getElem _ _ hj] at h
  exact Fin.ext ((List.Nodup.getElem_inj_iff hk.2).mp h)

theorem usbFunctionSetup_CONNECT (k : Consts) (env : Env) (s : Prog) (data : Nat → Nat)
    (hk : k.WellFormed) (h : data 1 = k.USBASP_FUNC_CONNECT) :
    usbFunctionSetup k env s data = setup_CONNECT k env s data := by
  unfold usbFunctionSetup
  rw [h]
  rw [if_pos rfl]

theorem usbFunctionSetup_DISCONNECT (k : Consts) (env : Env) (s : Prog) (data : Nat → Nat)
    (hk : k.WellFormed) (h : data 1 = k.USBASP_FUNC_DISCONNECT) :
    usbFunctionSetup k env s data = setup_DISCONNECT k env s data := by
  unfold usbFunctionSetup
  rw [h]
  rw [if_neg (show k.USBASP_FUNC_DISCONNECT ≠ k.USBASP_FUNC_CONNECT from
    k.opcode_ne hk 1 0 (by decide))]
  rw [if_pos rfl]

theorem usbFunctionSetup_TRANSMIT (k : Consts) (env : Env) (s : Prog) (data : Nat → Nat)
    (hk : k.WellFormed) (h : data 1 = k.USBASP_FUNC_TRANSMIT) :
    usbFunctionSetup k env s data = setup_TRANSMIT k env s data := by
  unfold usbFunctionSetup
  rw [h]
  rw [if_neg (show k.USBASP_FUNC_TRANSMIT ≠ k.USBASP_FUNC_CONNECT from
    k.opcode_ne hk 2 0 (by decide))]
  rw [if_neg (show k.USBASP_FUNC_TRANSMIT ≠ k.USBASP_FUNC_DISCONNECT from
    k.opcode_ne hk 2 1 (by decide))]
  rw [if_pos rfl]

theorem usbFunctionSetup_READFLASH (k : Consts) (env : Env) (s : Prog) (data : Nat → Nat)
    (hk : k.WellFormed) (h : data 1 = k.USBASP_FUNC_READFLASH) :
    usbFunctionSetup k env s data = setup_READFLASH k env s data := by
  unfold usbFunctionSetup
  rw [h]
  rw [if_neg (show k.USBASP_FUNC_READFLASH ≠ k.USBASP_FUNC_CONNECT from
    k.opcode_ne hk 3 0 (by decide))]
  rw [if_neg (show k.USBASP_FUNC_READFLASH ≠ k.USBASP_FUNC_DISCONNECT from
    k.opcode_ne hk 3 1 (by decide))]
  rw [if_neg (show k.USBASP_FUNC_READFLASH ≠ k.USBASP_FUNC_TRANSMIT from
    k.opcode_ne hk 3 2 (by decide))]
  rw [if_pos rfl]

theorem usbFunctionSetup_READEEPROM (k : Consts) (env : Env) (s : Prog) (data : Nat → Nat)
    (hk : k.WellFormed) (h : data 1 = k.USBASP_FUNC_READEEPROM) :
    usbFunctionSetup k env s data = setup_READEEPROM k env s data := by
  unfold usbFunctionSetup
  rw [h]
  rw [if_neg (show k.USBASP_FUNC_READEEPROM ≠ k.USBASP_FUNC_CONNECT from
    k.opcode_ne hk 4 0 (by decide))]
  rw [if_neg (show k.USBASP_FUNC_READEEPROM ≠ k.USBASP_FUNC_DISCONNECT from
    k.opcode_ne hk 4 1 (by decide))]
  rw [if_neg (show k.USBASP_FUNC_READEEPROM ≠ k.USBASP_FUNC_TRANSMIT from
    k.opcode_ne hk 4 2 (by decide))]
  rw [if_neg (show k.USBASP_FUNC_READEEPROM ≠ k.USBASP_FUNC_READFLASH from
    k.opcode_ne hk 4 3 (by decide))]
  rw [if_pos rfl]

theorem usbFunctionSetup_ENABLEPROG (k : Consts) (env : Env) (s : Prog) (data : Nat → Nat)
    (hk : k.WellFormed) (h : data 1 = k.USBASP_FUNC_ENABLEPROG) :
    usbFunctionSetup k env s data = setup_ENABLEPROG k env s data := by
  unfold usbFunctionSetup
  rw [h]
  rw [if_neg (show k.USBASP_FUNC_ENABLEPROG ≠ k.USBASP_FUNC_CONNECT from
    k.opcode_ne hk 5 0 (by decide))]
  rw [if_neg (show k.USBASP_FUNC_ENABLEPROG ≠ k.USBASP_FUNC_DISCONNECT from
    k.opcode_ne hk 5 1 (by decide))]
  rw [if_neg (show k.USBASP_FUNC_ENABLEPROG ≠ k.USBASP_FUNC_TRANSMIT from
    k.opcode_ne hk 5 2 (by decide))]
  rw [if_neg (show k.USBASP_FUNC_ENABLEPROG ≠ k.USBASP_FUNC_READFLASH from
    k.opcode_ne hk 5 3 (by decide))]
  rw [if_neg (show k.USBASP_FUNC_ENABLEPROG ≠ k.USBASP_FUNC_READEEPROM from
    k.opcode_ne hk 5 4 (by decide))]
  rw [if_pos rfl]

theorem usbFunctionSetup_WRITEFLASH (k : Consts) (env : Env) (s : Prog) (data : Nat → Nat)
    (hk : k.WellFormed) (h : data 1 = k.USBASP_FUNC_WRITEFLASH) :
    usbFunctionSetup k env s data = setup_WRITEFLASH k env s data := by
  unfold usbFunctionSetup
  rw [h]
  rw [if_neg (show k.USBASP_FUNC_WRITEFLASH ≠ k.USBASP_FUNC_CONNECT from
    k.opcode_ne hk 6 0 (by decide))]
  rw [if_neg (show k.USBASP_FUNC_WRITEFLASH ≠ k.USBASP_FUNC_DISCONNECT from
    k.opcode_ne hk 6 1 (by decide))]
  rw [if_neg (show k.USBASP_FUNC_WRITEFLASH ≠ k.USBASP_FUNC_TRANSMIT from
    k.opcode_ne hk 6 2 (by decide))]
  rw [if_neg (show k.USBASP_FUNC_WRITEFLASH ≠ k.USBASP_FUNC_READFLASH from
    k.opcode_ne hk 6 3 (by decide))]
  rw [if_neg (show k.USBASP_FUNC_WRITEFLASH ≠ k.USBASP_FUNC_READEEPROM from
    k.opcode_ne hk 6 4 (by decide))]
  rw [if_neg (show k.USBASP_FUNC_WRITEFLASH ≠ k.USBASP_FUNC_ENABLEPROG from
    k.opcode_ne hk 6 5 (by decide))]
  rw [if_pos rfl]

theorem usbFunctionSetup_WRITEEEPROM (k : Consts) (env : Env) (s : Prog) (data : Nat → Nat)
    (hk : k.WellFormed) (h : data 1 = k.USBASP_FUNC_WRITEEEPROM) :
    usbFunctionSetup k env s data = setup_WRITEEEPROM k env s data := by
  unfold usbFunctionSetup
  rw [h]
  rw [if_neg (show k.USBASP_FUNC_WRITEEEPROM ≠ k.USBASP_FUNC_CONNECT from
    k.opcode_ne hk 7 0 (by decide))]
  rw [if_neg (show k.USBASP_FUNC_WRITEEEPROM ≠ k.USBASP_FUNC_DISCONNECT from
    k.opcode_ne hk 7 1 (by decide))]
  rw [if_neg (show k.USBASP_FUNC_WRITEEEPROM ≠ k.USBASP_FUNC_TRANSMIT from
    k.opcode_ne hk 7 2 (by decide))]
  rw [if_neg (show k.USBASP_FUNC_WRITEEEPROM ≠ k.USBASP_FUNC_READFLASH from
    k.opcode_ne hk 7 3 (by decide))]
  rw [if_neg (show k.USBASP_FUNC_WRITEEEPROM ≠ k.USBASP_FUNC_READEEPROM from
    k.opcode_ne hk 7 4 (by decide))]
  rw [if_neg (show k.USBASP_FUNC_WRITEEEPROM ≠ k.USBASP_FUNC_ENABLEPROG from
    k.opcode_ne hk 7 5 (by decide))]
  rw [if_neg (show k.USBASP_FUNC_WRITEEEPROM ≠ k.USBASP_FUNC_WRITEFLASH from
    k.opcode_ne hk 7 6 (by decide))]
  rw [if_pos rfl]

theorem usbFunctionSetup_SETLONGADDRESS (k : Consts) (env : Env) (s : Prog) (data : Nat → Nat)
    (hk : k.WellFormed) (h : data 1 = k.USBASP_FUNC_SETLONGADDRESS) :
    usbFunctionSetup k env s data = setup_SETLONGADDRESS k env s data := by
  unfold usbFunctionSetup
  rw [h]
  rw [if_neg (show k.USBASP_FUNC_SETLONGADDRESS ≠ k.USBASP_FUNC_CONNECT from
    k.opcode_ne hk 8 0 (by decide))]
  rw [if_neg (show k.USBASP_FUNC_SETLONGADDRESS ≠ k.USBASP_FUNC_DISCONNECT from
    k.opcode_ne hk 8 1 (by decide))]
  rw [if_neg (show k.USBASP_FUNC_SETLONGADDRESS ≠ k.USBASP_FUNC_TRANSMIT from
    k.opcode_ne hk 8 2 (by decide))]
  rw [if_neg (show k.USBASP_FUNC_SETLONGADDRESS ≠ k.USBASP_FUNC_READFLASH from
    k.opcode_ne hk 8 3 (by decide))]
  rw [if_neg (show k.USBASP_FUNC_SETLONGADDRESS ≠ k.USBASP_FUNC_READEEPROM from
    k.opcode_ne hk 8 4 (by decide))]
  rw [if_neg (show k.USBASP_FUNC_SETLONGADDRESS ≠ k.USBASP_FUNC_ENABLEPROG from
    k.opcode_ne hk 8 5 (by decide))]
  rw [if_neg (show k.USBASP_FUNC_SETLONGADDRESS ≠ k.USBASP_FUNC_WRITEFLASH from
    k.opcode_ne hk 8 6 (by decide))]
  rw [if_neg (show k.USBASP_FUNC_SETLONGADDRESS ≠ k.USBASP_FUNC_WRITEEEPROM from
    k.opcode_ne hk 8 7 (by decide))]
  rw [if_pos rfl]

theorem usbFunctionSetup_SETISPSCK (k : Consts) (env : Env) (s : Prog) (data : Nat → Nat)
    (hk : k.WellFormed) (h : data 1 = k.USBASP_FUNC_SETISPSCK) :
    usbFunctionSetup k env s data = setup_SETISPSCK k env s data := by
  unfold usbFunctionSetup
  rw [h]
  rw [if_neg (show k.USBASP_FUNC_SETISPSCK ≠ k.USBASP_FUNC_CONNECT from
    k.opcode_ne hk 9 0 (by decide))]
  rw [if_neg (show k.USBASP_FUNC_SETISPSCK ≠ k.USBASP_FUNC_DISCONNECT from
    k.opcode_ne hk 9 1 (by decide))]
  rw [if_neg (show k.USBASP_FUNC_SETISPSCK ≠ k.USBASP_FUNC_TRANSMIT from
    k.opcode_ne hk 9 2 (by decide))]
  rw [if_neg (show k.USBASP_FUNC_SETISPSCK ≠ k.USBASP_FUNC_READFLASH from
    k.opcode_ne hk 9 3 (by decide))]
  rw [if_neg (show k.USBASP_FUNC_SETISPSCK ≠ k.USBASP_FUNC_READEEPROM from
    k.opcode_ne hk 9 4 (by decide))]
  rw [if_neg (show k.USBASP_FUNC_SETISPSCK ≠ k.USBASP_FUNC_ENABLEPROG from
    k.opcode_ne hk 9 5 (by decide))]
  rw [if_neg (show k.USBASP_FUNC_SETISPSCK ≠ k.USBASP_FUNC_WRITEFLASH from
    k.opcode_ne hk 9 6 (by decide))]
  rw [if_neg (show k.USBASP_FUNC_SETISPSCK ≠ k.USBASP_FUNC_WRITEEEPROM from
    k.opcode_ne hk 9 7 (by decide))]
  rw [if_neg (show k.USBASP_FUNC_SETISPSCK ≠ k.USBASP_FUNC_SETLONGADDRESS from
    k.opcode_ne hk 9 8 (by decide))]
  rw [if_pos rfl]

theorem usbFunctionSetup_TPI_CONNECT (k : Consts) (env : Env) (s : Prog) (data : Nat → Nat)
    (hk : k.WellFormed) (h : data 1 = k.USBASP_FUNC_TPI_CONNECT) :
    usbFunctionSetup k env s data = setup_TPI_CONNECT k env s data := by
  unfold usbFunctionSetup
  rw [h]
  rw [if_neg (show k.USBASP_FUNC_TPI_CONNECT ≠ k.USBASP_FUNC_CONNECT from
    k.opcode_ne hk 10 0 (by decide))]
  rw [if_neg (show k.USBASP_FUNC_TPI_CONNECT ≠ k.USBASP_FUNC_DISCONNECT from
    k.opcode_ne hk 10 1 (by decide))]
  rw [if_neg (show k.USBASP_FUNC_TPI_CONNECT ≠ k.USBASP_FUNC_TRANSMIT from
    k.opcode_ne hk 10 2 (by decide))]
  rw [if_neg (show k.USBASP_FUNC_TPI_CONNECT ≠ k.USBASP_FUNC_READFLASH from
    k.opcode_ne hk 10 3 (by decide))]
  rw [if_neg (show k.USBASP_FUNC_TPI_CONNECT ≠ k.USBASP_FUNC_READEEPROM from
    k.opcode_ne hk 10 4 (by decide))]
  rw [if_neg (show k.USBASP_FUNC_TPI_CONNECT ≠ k.USBASP_FUNC_ENABLEPROG from
    k.opcode_ne hk 10 5 (by decide))]
  rw [if_neg (show k.USBASP_FUNC_TPI_CONNECT ≠ k.USBASP_FUNC_WRITEFLASH from
    k.opcode_ne hk 10 6 (by decide))]
  rw [if_neg (show k.USBASP_FUNC_TPI_CONNECT ≠ k.USBASP_FUNC_WRITEEEPROM from
    k.opcode_ne hk 10 7 (by decide))]
  rw [if_neg (show k.USBASP_FUNC_TPI_CONNECT ≠ k.USBASP_FUNC_SETLONGADDRESS from
    k.opcode_ne hk 10 8 (by decide))]
  rw [if_neg (show k.USBASP_FUNC_TPI_CONNECT ≠ k.USBASP_FUNC_SETISPSCK from
    k.opcode_ne hk 10 9 (by decide))]
  rw [if_pos rfl]

theorem usbFunctionSetup_TPI_DISCONNECT (k : Consts) (env : Env) (s : Prog) (data : Nat → Nat)
    (hk : k.WellFormed) (h : data 1 = k.USBASP_FUNC_TPI_DISCONNECT) :
    usbFunctionSetup k env s data = setup_TPI_DISCONNECT k env s data := by
  unfold usbFunctionSetup
  rw [h]
  rw [if_neg (show k.USBASP_FUNC_TPI_DISCONNECT ≠ k.USBASP_FUNC_CONNECT from
    k.opcode_ne hk 11 0 (by decide))]
  rw [if_neg (show k.USBASP_FUNC_TPI_DISCONNECT ≠ k.USBASP_FUNC_DISCONNECT from
    k.opcode_ne hk 11 1 (by decide))]
  rw [if_neg (show k.USBASP_FUNC_TPI_DISCONNECT ≠ k.USBASP_FUNC_TRANSMIT from
    k.opcode_ne hk 11 2 (by decide))]
  rw [if_neg (show k.USBASP_FUNC_TPI_DISCONNECT ≠ k.USBASP_FUNC_READFLASH from
    k.opcode_ne hk 11 3 (by decide))]
  rw [if_neg (show k.USBASP_FUNC_TPI_DISCONNECT ≠ k.USBASP_FUNC_READEEPROM from
    k.opcode_ne hk 11 4 (by decide))]
  rw [if_neg (show k.USBASP_FUNC_TPI_DISCONNECT ≠ k.USBASP_FUNC_ENABLEPROG from
    k.opcode_ne hk 11 5 (by decide))]
  rw [if_neg (show k.USBASP_FUNC_TPI_DISCONNECT ≠ k.USBASP_FUNC_WRITEFLASH from
    k.opcode_ne hk 11 6 (by decide))]
  rw [if_neg (show k.USBASP_FUNC_TPI_DISCONNECT ≠ k.USBASP_FUNC_WRITEEEPROM from
    k.opcode_ne hk 11 7 (by decide))]
  rw [if_neg (show k.USBASP_FUNC_TPI_DISCONNECT ≠ k.USBASP_FUNC_SETLONGADDRESS from
    k.opcode_ne hk 11 8 (by decide))]
  rw [if_neg (show k.USBASP_FUNC_TPI_DISCONNECT ≠ k.USBASP_FUNC_SETISPSCK from
    k.opcode_ne hk 11 9 (by decide))]
  rw [if_neg (show k.USBASP_FUNC_TPI_DISCONNECT ≠ k.USBASP_FUNC_TPI_CONNECT from
    k.opcode_ne hk 11 10 (by decide))]
  rw [if_pos rfl]

theorem usbFunctionSetup_TPI_RAWREAD (k : Consts) (env : Env) (s : Prog) (data : Nat → Nat)
    (hk : k.WellFormed) (h : data 1 = k.USBASP_FUNC_TPI_RAWREAD) :
    usbFunctionSetup k env s data = setup_TPI_RAWREAD k env s data := by
  unfold usbFunctionSetup
  rw [h]
  rw [if_neg (show k.USBASP_FUNC_TPI_RAWREAD ≠ k.USBASP_FUNC_CONNECT from
    k.opcode_ne hk 12 0 (by decide))]
  rw [if_neg (show k.USBASP_FUNC_TPI_RAWREAD ≠ k.USBASP_FUNC_DISCONNECT from
    k.opcode_ne hk 12 1 (by decide))]
  rw [if_neg (show k.USBASP_FUNC_TPI_RAWREAD ≠ k.USBASP_FUNC_TRANSMIT from
    k.opcode_ne hk 12 2 (by decide))]
  rw [if_neg (show k.USBASP_FUNC_TPI_RAWREAD ≠ k.USBASP_FUNC_READFLASH from
    k.opcode_ne hk 12 3 (by decide))]
  rw [if_neg (show k.USBASP_FUNC_TPI_RAWREAD ≠ k.USBASP_FUNC_READEEPROM from
    k.opcode_ne hk 12 4 (by decide))]
  rw [if_neg (show k.USBASP_FUNC_TPI_RAWREAD ≠ k.USBASP_FUNC_ENABLEPROG from
    k.opcode_ne hk 12 5 (by decide))]
  rw [if_neg (show k.USBASP_FUNC_TPI_RAWREAD ≠ k.USBASP_FUNC_WRITEFLASH from
    k.opcode_ne hk 12 6 (by decide))]
  rw [if_neg (show k.USBASP_FUNC_TPI_RAWREAD ≠ k.USBASP_FUNC_WRITEEEPROM from
    k.opcode_ne hk 12 7 (by decide))]
  rw [if_neg (show k.USBASP_FUNC_TPI_RAWREAD ≠ k.USBASP_FUNC_SETLONGADDRESS from
    k.opcode_ne hk 12 8 (by decide))]
  rw [if_neg (show k.USBASP_FUNC_TPI_RAWREAD ≠ k.USBASP_FUNC_SETISPSCK from
    k.opcode_ne hk 12 9 (by decide))]
  rw [if_neg (show k.USBASP_FUNC_TPI_RAWREAD ≠ k.USBASP_FUNC_TPI_CONNECT from
    k.opcode_ne hk 12 10 (by decide))]
  rw [if_neg (show k.USBASP_FUNC_TPI_RAWREAD ≠ k.USBASP_FUNC_TPI_DISCONNECT from
    k.opcode_ne hk 12 11 (by decide))]
  rw [if_pos rfl]

theorem usbFunctionSetup_TPI_RAWWRITE (k : Consts) (env : Env) (s : Prog) (data : Nat → Nat)
    (hk : k.WellFormed) (h : data 1 = k.USBASP_FUNC_TPI_RAWWRITE) :
    usbFunctionSetup k env s data = setup_TPI_RAWWRITE k env s data := by
  unfold usbFunctionSetup
  rw [h]
  rw [if_neg (show k.USBASP_FUNC_TPI_RAWWRITE ≠ k.USBASP_FUNC_CONNECT from
    k.opcode_ne hk 13 0 (by decide))]
  rw [if_neg (show k.USBASP_FUNC_TPI_RAWWRITE ≠ k.USBASP_FUNC_DISCONNECT from
    k.opcode_ne hk 13 1 (by decide))]
  rw [if_neg (show k.USBASP_FUNC_TPI_RAWWRITE ≠ k.USBASP_FUNC_TRANSMIT from
    k.opcode_ne hk 13 2 (by decide))]
  rw [if_neg (show k.USBASP_FUNC_TPI_RAWWRITE ≠ k.USBASP_FUNC_READFLASH from
    k.opcode_ne hk 13 3 (by decide))]
  rw [if_neg (show k.USBASP_FUNC_TPI_RAWWRITE ≠ k.USBASP_FUNC_READEEPROM from
    k.opcode_ne hk 13 4 (by decide))]
  rw [if_neg (show k.USBASP_FUNC_TPI_RAWWRITE ≠ k.USBASP_FUNC_ENABLEPROG from
    k.opcode_ne hk 13 5 (by decide))]
  rw [if_neg (show k.USBASP_FUNC_TPI_RAWWRITE ≠ k.USBASP_FUNC_WRITEFLASH from
    k.opcode_ne hk 13 6 (by decide))]
  rw [if_neg (show k.USBASP_FUNC_TPI_RAWWRITE ≠ k.USBASP_FUNC_WRITEEEPROM from
    k.opcode_ne hk 13 7 (by decide))]
  rw [if_neg (show k.USBASP_FUNC_TPI_RAWWRITE ≠ k.USBASP_FUNC_SETLONGADDRESS from
    k.opcode_ne hk 13 8 (by decide))]
  rw [if_neg (show k.USBASP_FUNC_TPI_RAWWRITE ≠ k.USBASP_FUNC_SETISPSCK from
    k.opcode_ne hk 13 9 (by decide))]
  rw [if_neg (show k.USBASP_FUNC_TPI_RAWWRITE ≠ k.USBASP_FUNC_TPI_CONNECT from
    k.opcode_ne hk 13 10 (by decide))]
  rw [if_neg (show k.USBASP_FUNC_TPI_RAWWRITE ≠ k.USBASP_FUNC_TPI_DISCONNECT from
    k.opcode_ne hk 13 11 (by decide))]
  rw [if_neg (show k.USBASP_FUNC_TPI_RAWWRITE ≠ k.USBASP_FUNC_TPI_RAWREAD from
    k.opcode_ne hk 13 12 (by decide))]
  rw [if_pos rfl]

theorem usbFunctionSetup_TPI_READBLOCK (k : Consts) (env : Env) (s : Prog) (data : Nat → Nat)
    (hk : k.WellFormed) (h : data 1 = k.USBASP_FUNC_TPI_READBLOCK) :
    usbFunctionSetup k env s data = setup_TPI_READBLOCK k env s data := by
  unfold usbFunctionSetup
  rw [h]
  rw [if_neg (show k.USBASP_FUNC_TPI_READBLOCK ≠ k.USBASP_FUNC_CONNECT from
    k.opcode_ne hk 14 0 (by decide))]
  rw [if_neg (show k.USBASP_FUNC_TPI_READBLOCK ≠ k.USBASP_FUNC_DISCONNECT from
    k.opcode_ne hk 14 1 (by decide))]
  rw [if_neg (show k.USBASP_FUNC_TPI_READBLOCK ≠ k.USBASP_FUNC_TRANSMIT from
    k.opcode_ne hk 14 2 (by decide))]
  rw [if_neg (show k.USBASP_FUNC_TPI_READBLOCK ≠ k.USBASP_FUNC_READFLASH from
    k.opcode_ne hk 14 3 (by decide))]
  rw [if_neg (show k.USBASP_FUNC_TPI_READBLOCK ≠ k.USBASP_FUNC_READEEPROM from
    k.opcode_ne hk 14 4 (by decide))]
  rw [if_neg (show k.USBASP_FUNC_TPI_READBLOCK ≠ k.USBASP_FUNC_ENABLEPROG from
    k.opcode_ne hk 14 5 (by decide))]
  rw [if_neg (show k.USBASP_FUNC_TPI_READBLOCK ≠ k.USBASP_FUNC_WRITEFLASH from
    k.opcode_ne hk 14 6 (by decide))]
  rw [if_neg (show k.USBASP_FUNC_TPI_READBLOCK ≠ k.USBASP_FUNC_WRITEEEPROM from
    k.opcode_ne hk 14 7 (by decide))]
  rw [if_neg (show k.USBASP_FUNC_TPI_READBLOCK ≠ k.USBASP_FUNC_SETLONGADDRESS from
    k.opcode_ne hk 14 8 (by decide))]
  rw [if_neg (show k.USBASP_FUNC_TPI_READBLOCK ≠ k.USBASP_FUNC_SETISPSCK from
    k.opcode_ne hk 14 9 (by decide))]
  rw [if_neg (show k.USBASP_FUNC_TPI_READBLOCK ≠ k.USBASP_FUNC_TPI_CONNECT from
    k.opcode_ne hk 14 10 (by decide))]
  rw [if_neg (show k.USBASP_FUNC_TPI_READBLOCK ≠ k.USBASP_FUNC_TPI_DISCONNECT from
    k.opcode_ne hk 14 11 (by decide))]
  rw [if_neg (show k.USBASP_FUNC_TPI_READBLOCK ≠ k.USBASP_FUNC_TPI_RAWREAD from
    k.opcode_ne hk 14 12 (by decide))]
  rw [if_neg (show k.USBASP_FUNC_TPI_READBLOCK ≠ k.USBASP_FUNC_TPI_RAWWRITE from
    k.opcode_ne hk 14 13 (by decide))]
  rw [if_pos rfl]

theorem usbFunctionSetup_TPI_WRITEBLOCK (k : Consts) (env : Env) (s : Prog) (data : Nat → Nat)
    (hk : k.WellFormed) (h : data 1 = k.USBASP_FUNC_TPI_WRITEBLOCK) :
    usbFunctionSetup k env s data = setup_TPI_WRITEBLOCK k env s data := by
  unfold usbFunctionSetup
  rw [h]
  rw [if_neg (show k.USBASP_FUNC_TPI_WRITEBLOCK ≠ k.USBASP_FUNC_CONNECT from
    k.opcode_ne hk 15 0 (by decide))]
  rw [if_neg (show k.USBASP_FUNC_TPI_WRITEBLOCK ≠ k.USBASP_FUNC_DISCONNECT from
    k.opcode_ne hk 15 1 (by decide))]
  rw [if_neg (show k.USBASP_FUNC_TPI_WRITEBLOCK ≠ k.USBASP_FUNC_TRANSMIT from
    k.opcode_ne hk 15 2 (by decide))]
  rw [if_neg (show k.USBASP_FUNC_TPI_WRITEBLOCK ≠ k.USBASP_FUNC_READFLASH from
    k.opcode_ne hk 15 3 (by decide))]
  rw [if_neg (show k.USBASP_FUNC_TPI_WRITEBLOCK ≠ k.USBASP_FUNC_READEEPROM from
    k.opcode_ne hk 15 4 (by decide))]
  rw [if_neg (show k.USBASP_FUNC_TPI_WRITEBLOCK ≠ k.USBASP_FUNC_ENABLEPROG from
    k.opcode_ne hk 15 5 (by decide))]
  rw [if_neg (show k.USBASP_FUNC_TPI_WRITEBLOCK ≠ k.USBASP_FUNC_WRITEFLASH from
    k.opcode_ne hk 15 6 (by decide))]
  rw [if_neg (show k.USBASP_FUNC_TPI_WRITEBLOCK ≠ k.USBASP_FUNC_WRITEEEPROM from
    k.opcode_ne hk 15 7 (by decide))]
  rw [if_neg (show k.USBASP_FUNC_TPI_WRITEBLOCK ≠ k.USBASP_FUNC_SETLONGADDRESS from
    k.opcode_ne hk 15 8 (by decide))]
  rw [if_neg (show k.USBASP_FUNC_TPI_WRITEBLOCK ≠ k.USBASP_FUNC_SETISPSCK from
    k.opcode_ne hk 15 9 (by decide))]
  rw [if_neg (show k.USBASP_FUNC_TPI_WRITEBLOCK ≠ k.USBASP_FUNC_TPI_CONNECT from
    k.opcode_ne hk 15 10 (by decide))]
  rw [if_neg (show k.USBASP_FUNC_TPI_WRITEBLOCK ≠ k.USBASP_FUNC_TPI_DISCONNECT from
    k.opcode_ne hk 15 11 (by decide))]
  rw [if_neg (show k.USBASP_FUNC_TPI_WRITEBLOCK ≠ k.USBASP_FUNC_TPI_RAWREAD from
    k.opcode_ne hk 15 12 (by decide))]
  rw [if_neg (show k.USBASP_FUNC_TPI_WRITEBLOCK ≠ k.USBASP_FUNC_TPI_RAWWRITE from
    k.opcode_ne hk 15 13 (by decide))]
  rw [if_neg (show k.USBASP_FUNC_TPI_WRITEBLOCK ≠ k.USBASP_FUNC_TPI_READBLOCK from
    k.opcode_ne hk 15 14 (by decide))]
  rw [if_pos rfl]

theorem usbFunctionSetup_UART_CONFIG (k : Consts) (env : Env) (s : Prog) (data : Nat → Nat)
    (hk : k.WellFormed) (h : data 1 = k.USBASP_FUNC_UART_CONFIG) :
    usbFunctionSetup k env s data = setup_UART_CONFIG k env s data := by
  unfold usbFunctionSetup
  rw [h]
  rw [if_neg (show k.USBASP_FUNC_UART_CONFIG ≠ k.USBASP_FUNC_CONNECT from
    k.opcode_ne hk 16 0 (by decide))]
  rw [if_neg (show k.USBASP_FUNC_UART_CONFIG ≠ k.USBASP_FUNC_DISCONNECT from
    k.opcode_ne hk 16 1 (by decide))]
  rw [if_neg (show k.USBASP_FUNC_UART_CONFIG ≠ k.USBASP_FUNC_TRANSMIT from
    k.opcode_ne hk 16 2 (by decide))]
  rw [if_neg (show k.USBASP_FUNC_UART_CONFIG ≠ k.USBASP_FUNC_READFLASH from
    k.opcode_ne hk 16 3 (by decide))]
  rw [if_neg (show k.USBASP_FUNC_UART_CONFIG ≠ k.USBASP_FUNC_READEEPROM from
    k.opcode_ne hk 16 4 (by decide))]
  rw [if_neg (show k.USBASP_FUNC_UART_CONFIG ≠ k.USBASP_FUNC_ENABLEPROG from
    k.opcode_ne hk 16 5 (by decide))]
  rw [if_neg (show k.USBASP_FUNC_UART_CONFIG ≠ k.USBASP_FUNC_WRITEFLASH from
    k.opcode_ne hk 16 6 (by decide))]
  rw [if_neg (show k.USBASP_FUNC_UART_CONFIG ≠ k.USBASP_FUNC_WRITEEEPROM from
    k.opcode_ne hk 16 7 (by decide))]
  rw [if_neg (show k.USBASP_FUNC_UART_CONFIG ≠ k.USBASP_FUNC_SETLONGADDRESS from
    k.opcode_ne hk 16 8 (by decide))]
  rw [if_neg (show k.USBASP_FUNC_UART_CONFIG ≠ k.USBASP_FUNC_SETISPSCK from
    k.opcode_ne hk 16 9 (by decide))]
  rw [if_neg (show k.USBASP_FUNC_UART_CONFIG ≠ k.USBASP_FUNC_TPI_CONNECT from
    k.opcode_ne hk 16 10 (by decide))]
  rw [if_neg (show k.USBASP_FUNC_UART_CONFIG ≠ k.USBASP_FUNC_TPI_DISCONNECT from
    k.opcode_ne hk 16 11 (by decide))]
  rw [if_neg (show k.USBASP_FUNC_UART_CONFIG ≠ k.USBASP_FUNC_TPI_RAWREAD from
    k.opcode_ne hk 16 12 (by decide))]
  rw [if_neg (show k.USBASP_FUNC_UART_CONFIG ≠ k.USBASP_FUNC_TPI_RAWWRITE from
    k.opcode_ne hk 16 13 (by decide))]
  rw [if_neg (show k.USBASP_FUNC_UART_CONFIG ≠ k.USBASP_FUNC_TPI_READBLOCK from
    k.opcode_ne hk 16 14 (by decide))]
  rw [if_neg (show k.USBASP_FUNC_UART_CONFIG ≠ k.USBASP_FUNC_TPI_WRITEBLOCK from
    k.opcode_ne hk 16 15 (by decide))]
  rw [if_pos rfl]

theorem usbFunctionSetup_UART_FLUSHTX (k : Consts) (env : Env) (s : Prog) (data : Nat → Nat)
    (hk : k.WellFormed) (h : data 1 = k.USBASP_FUNC_UART_FLUSHTX) :
    usbFunctionSetup k env s data = setup_UART_FLUSHTX k env s data := by
  unfold usbFunctionSetup
  rw [h]
  rw [if_neg (show k.USBASP_FUNC_UART_FLUSHTX ≠ k.USBASP_FUNC_CONNECT from
    k.opcode_ne hk 17 0 (by decide))]
  rw [if_neg (show k.USBASP_FUNC_UART_FLUSHTX ≠ k.USBASP_FUNC_DISCONNECT from
    k.opcode_ne hk 17 1 (by decide))]
  rw [if_neg (show k.USBASP_FUNC_UART_FLUSHTX ≠ k.USBASP_FUNC_TRANSMIT from
    k.opcode_ne hk 17 2 (by decide))]
  rw [if_neg (show k.USBASP_FUNC_UART_FLUSHTX ≠ k.USBASP_FUNC_READFLASH from
    k.opcode_ne hk 17 3 (by decide))]
  rw [if_neg (show k.USBASP_FUNC_UART_FLUSHTX ≠ k.USBASP_FUNC_READEEPROM from
    k.opcode_ne hk 17 4 (by decide))]
  rw [if_neg (show k.USBASP_FUNC_UART_FLUSHTX ≠ k.USBASP_FUNC_ENABLEPROG from
    k.opcode_ne hk 17 5 (by decide))]
  rw [if_neg (show k.USBASP_FUNC_UART_FLUSHTX ≠ k.USBASP_FUNC_WRITEFLASH from
    k.opcode_ne hk 17 6 (by decide))]
  rw [if_neg (show k.USBASP_FUNC_UART_FLUSHTX ≠ k.USBASP_FUNC_WRITEEEPROM from
    k.opcode_ne hk 17 7 (by decide))]
  rw [if_neg (show k.USBASP_FUNC_UART_FLUSHTX ≠ k.USBASP_FUNC_SETLONGADDRESS from
    k.opcode_ne hk 17 8 (by decide))]
  rw [if_neg (show k.USBASP_FUNC_UART_FLUSHTX ≠ k.USBASP_FUNC_SETISPSCK from
    k.opcode_ne hk 17 9 (by decide))]
  rw [if_neg (show k.USBASP_FUNC_UART_FLUSHTX ≠ k.USBASP_FUNC_TPI_CONNECT from
    k.opcode_ne hk 17 10 (by decide))]
  rw [if_neg (show k.USBASP_FUNC_UART_FLUSHTX ≠ k.USBASP_FUNC_TPI_DISCONNECT from
    k.opcode_ne hk 17 11 (by decide))]
  rw [if_neg (show k.USBASP_FUNC_UART_FLUSHTX ≠ k.USBASP_FUNC_TPI_RAWREAD from
    k.opcode_ne hk 17 12 (by decide))]
  rw [if_neg (show k.USBASP_FUNC_UART_FLUSHTX ≠ k.USBASP_FUNC_TPI_RAWWRITE from
    k.opcode_ne hk 17 13 (by decide))]
  rw [if_neg (show k.USBASP_FUNC_UART_FLUSHTX ≠ k.USBASP_FUNC_TPI_READBLOCK from
    k.opcode_ne hk 17 14 (by decide))]
  rw [if_neg (show k.USBASP_FUNC_UART_FLUSHTX ≠ k.USBASP_FUNC_TPI_WRITEBLOCK from
    k.opcode_ne hk 17 15 (by decide))]
  rw [if_neg (show k.USBASP_FUNC_UART_FLUSHTX ≠ k.USBASP_FUNC_UART_CONFIG from
    k.opcode_ne hk 17 16 (by decide))]
  rw [if_pos rfl]

theorem usbFunctionSetup_UART_FLUSHRX (k : Consts) (env : Env) (s : Prog) (data : Nat → Nat)
    (hk : k.WellFormed) (h : data 1 = k.USBASP_FUNC_UART_FLUSHRX) :
    usbFunctionSetup k env s data = setup_UART_FLUSHRX k env s data := by
  unfold usbFunctionSetup
  rw [h]
  rw [if_neg (show k.USBASP_FUNC_UART_FLUSHRX ≠ k.USBASP_FUNC_CONNECT from
    k.opcode_ne hk 18 0 (by decide))]
  rw [if_neg (show k.USBASP_FUNC_UART_FLUSHRX ≠ k.USBASP_FUNC_DISCONNECT from
    k.opcode_ne hk 18 1 (by decide))]
  rw [if_neg (show k.USBASP_FUNC_UART_FLUSHRX ≠ k.USBASP_FUNC_TRANSMIT from
    k.opcode_ne hk 18 2 (by decide))]
  rw [if_neg (show k.USBASP_FUNC_UART_FLUSHRX ≠ k.USBASP_FUNC_READFLASH from
    k.opcode_ne hk 18 3 (by decide))]
  rw [if_neg (show k.USBASP_FUNC_UART_FLUSHRX ≠ k.USBASP_FUNC_READEEPROM from
    k.opcode_ne hk 18 4 (by decide))]
  rw [if_neg (show k.USBASP_FUNC_UART_FLUSHRX ≠ k.USBASP_FUNC_ENABLEPROG from
    k.opcode_ne hk 18 5 (by decide))]
  rw [if_neg (show k.USBASP_FUNC_UART_FLUSHRX ≠ k.USBASP_FUNC_WRITEFLASH from
    k.opcode_ne hk 18 6 (by decide))]
  rw [if_neg (show k.USBASP_FUNC_UART_FLUSHRX ≠ k.USBASP_FUNC_WRITEEEPROM from
    k.opcode_ne hk 18 7 (by decide))]
  rw [if_neg (show k.USBASP_FUNC_UART_FLUSHRX ≠ k.USBASP_FUNC_SETLONGADDRESS from
    k.opcode_ne hk 18 8 (by decide))]
  rw [if_neg (show k.USBASP_FUNC_UART_FLUSHRX ≠ k.USBASP_FUNC_SETISPSCK from
    k.opcode_ne hk 18 9 (by decide))]
  rw [if_neg (show k.USBASP_FUNC_UART_FLUSHRX ≠ k.USBASP_FUNC_TPI_CONNECT from
    k.opcode_ne hk 18 10 (by decide))]
  rw [if_neg (show k.USBASP_FUNC_UART_FLUSHRX ≠ k.USBASP_FUNC_TPI_DISCONNECT from
    k.opcode_ne hk 18 11 (by decide))]
  rw [if_neg (show k.USBASP_FUNC_UART_FLUSHRX ≠ k.USBASP_FUNC_TPI_RAWREAD from
    k.opcode_ne hk 18 12 (by decide))]
  rw [if_neg (show k.USBASP_FUNC_UART_FLUSHRX ≠ k.USBASP_FUNC_TPI_RAWWRITE from
    k.opcode_ne hk 18 13 (by decide))]
  rw [if_neg (show k.USBASP_FUNC_UART_FLUSHRX ≠ k.USBASP_FUNC_TPI_READBLOCK from
    k.opcode_ne hk 18 14 (by decide))]
  rw [if_neg (show k.USBASP_FUNC_UART_FLUSHRX ≠ k.USBASP_FUNC_TPI_WRITEBLOCK from
    k.opcode_ne hk 18 15 (by decide))]
  rw [if_neg (show k.USBASP_FUNC_UART_FLUSHRX ≠ k.USBASP_FUNC_UART_CONFIG from
    k.opcode_ne hk 18 16 (by decide))]
  rw [if_neg (show k.USBASP_FUNC_UART_FLUSHRX ≠ k.USBASP_FUNC_UART_FLUSHTX from
    k.opcode_ne hk 18 17 (by decide))]
  rw [if_pos rfl]

theorem usbFunctionSetup_UART_DISABLE (k : Consts) (env : Env) (s : Prog) (data : Nat → Nat)
    (hk : k.WellFormed) (h : data 1 = k.USBASP_FUNC_UART_DISABLE) :
    usbFunctionSetup k env s data = setup_UART_DISABLE k env s data := by
  unfold usbFunctionSetup
  rw [h]
  rw [if_neg (show k.USBASP_FUNC_UART_DISABLE ≠ k.USBASP_FUNC_CONNECT from
    k.opcode_ne hk 19 0 (by decide))]
  rw [if_neg (show k.USBASP_FUNC_UART_DISABLE ≠ k.USBASP_FUNC_DISCONNECT from
    k.opcode_ne hk 19 1 (by decide))]
  rw [if_neg (show k.USBASP_FUNC_UART_DISABLE ≠ k.USBASP_FUNC_TRANSMIT from
    k.opcode_ne hk 19 2 (by decide))]
  rw [if_neg (show k.USBASP_FUNC_UART_DISABLE ≠ k.USBASP_FUNC_READFLASH from
    k.opcode_ne hk 19 3 (by decide))]
  rw [if_neg (show k.USBASP_FUNC_UART_DISABLE ≠ k.USBASP_FUNC_READEEPROM from
    k.opcode_ne hk 19 4 (by decide))]
  rw [if_neg (show k.USBASP_FUNC_UART_DISABLE ≠ k.USBASP_FUNC_ENABLEPROG from
    k.opcode_ne hk 19 5 (by decide))]
  rw [if_neg (show k.USBASP_FUNC_UART_DISABLE ≠ k.USBASP_FUNC_WRITEFLASH from
    k.opcode_ne hk 19 6 (by decide))]
  rw [if_neg (show k.USBASP_FUNC_UART_DISABLE ≠ k.USBASP_FUNC_WRITEEEPROM from
    k.opcode_ne hk 19 7 (by decide))]
  rw [if_neg (show k.USBASP_FUNC_UART_DISABLE ≠ k.USBASP_FUNC_SETLONGADDRESS from
    k.opcode_ne hk 19 8 (by decide))]
  rw [if_neg (show k.USBASP_FUNC_UART_DISABLE ≠ k.USBASP_FUNC_SETISPSCK from
    k.opcode_ne hk 19 9 (by decide))]
  rw [if_neg (show k.USBASP_FUNC_UART_DISABLE ≠ k.USBASP_FUNC_TPI_CONNECT from
    k.opcode_ne hk 19 10 (by decide))]
  rw [if_neg (show k.USBASP_FUNC_UART_DISABLE ≠ k.USBASP_FUNC_TPI_DISCONNECT from
    k.opcode_ne hk 19 11 (by decide))]
  rw [if_neg (show k.USBASP_FUNC_UART_DISABLE ≠ k.USBASP_FUNC_TPI_RAWREAD from
    k.opcode_ne hk 19 12 (by decide))]
  rw [if_neg (show k.USBASP_FUNC_UART_DISABLE ≠ k.USBASP_FUNC_TPI_RAWWRITE from
    k.opcode_ne hk 19 13 (by decide))]
  rw [if_neg (show k.USBASP_FUNC_UART_DISABLE ≠ k.USBASP_FUNC_TPI_READBLOCK from
    k.opcode_ne hk 19 14 (by decide))]
  rw [if_neg (show k.USBASP_FUNC_UART_DISABLE ≠ k.USBASP_FUNC_TPI_WRITEBLOCK from
    k.opcode_ne hk 19 15 (by decide))]
  rw [if_neg (show k.USBASP_FUNC_UART_DISABLE ≠ k.USBASP_FUNC_UART_CONFIG from
    k.opcode_ne hk 19 16 (by decide))]
  rw [if_neg (show k.USBASP_FUNC_UART_DISABLE ≠ k.USBASP_FUNC_UART_FLUSHTX from
    k.opcode_ne hk 19 17 (by decide))]
  rw [if_neg (show k.USBASP_FUNC_UART_DISABLE ≠ k.USBASP_FUNC_UART_FLUSHRX from
    k.opcode_ne hk 19 18 (by decide))]
  rw [if_pos rfl]

theorem usbFunctionSetup_UART_TX (k : Consts) (env : Env) (s : Prog) (data : Nat → Nat)
    (hk : k.WellFormed) (h : data 1 = k.USBASP_FUNC_UART_TX) :
    usbFunctionSetup k env s data = setup_UART_TX k env s data := by
  unfold usbFunctionSetup
  rw [h]
  rw [if_neg (show k.USBASP_FUNC_UART_TX ≠ k.USBASP_FUNC_CONNECT from
    k.opcode_ne hk 20 0 (by decide))]
  rw [if_neg (show k.USBASP_FUNC_UART_TX ≠ k.USBASP_FUNC_DISCONNECT from
    k.opcode_ne hk 20 1 (by decide))]
  rw [if_neg (show k.USBASP_FUNC_UART_TX ≠ k.USBASP_FUNC_TRANSMIT from
    k.opcode_ne hk 20 2 (by decide))]
  rw [if_neg (show k.USBASP_FUNC_UART_TX ≠ k.USBASP_FUNC_READFLASH from
    k.opcode_ne hk 20 3 (by decide))]
  rw [if_neg (show k.USBASP_FUNC_UART_TX ≠ k.USBASP_FUNC_READEEPROM from
    k.opcode_ne hk 20 4 (by decide))]
  rw [if_neg (show k.USBASP_FUNC_UART_TX ≠ k.USBASP_FUNC_ENABLEPROG from
    k.opcode_ne hk 20 5 (by decide))]
  rw [if_neg (show k.USBASP_FUNC_UART_TX ≠ k.USBASP_FUNC_WRITEFLASH from
    k.opcode_ne hk 20 6 (by decide))]
  rw [if_neg (show k.USBASP_FUNC_UART_TX ≠ k.USBASP_FUNC_WRITEEEPROM from
    k.opcode_ne hk 20 7 (by decide))]
  rw [if_neg (show k.USBASP_FUNC_UART_TX ≠ k.USBASP_FUNC_SETLONGADDRESS from
    k.opcode_ne hk 20 8 (by decide))]
  rw [if_neg (show k.USBASP_FUNC_UART_TX ≠ k.USBASP_FUNC_SETISPSCK from
    k.opcode_ne hk 20 9 (by decide))]
  rw [if_neg (show k.USBASP_FUNC_UART_TX ≠ k.USBASP_FUNC_TPI_CONNECT from
    k.opcode_ne hk 20 10 (by decide))]
  rw [if_neg (show k.USBASP_FUNC_UART_TX ≠ k.USBASP_FUNC_TPI_DISCONNECT from
    k.opcode_ne hk 20 11 (by decide))]
  rw [if_neg (show k.USBASP_FUNC_UART_TX ≠ k.USBASP_FUNC_TPI_RAWREAD from
    k.opcode_ne hk 20 12 (by decide))]
  rw [if_neg (show k.USBASP_FUNC_UART_TX ≠ k.USBASP_FUNC_TPI_RAWWRITE from
    k.opcode_ne hk 20 13 (by decide))]
  rw [if_neg (show k.USBASP_FUNC_UART_TX ≠ k.USBASP_FUNC_TPI_READBLOCK from
    k.opcode_ne hk 20 14 (by decide))]
  rw [if_neg (show k.USBASP_FUNC_UART_TX ≠ k.USBASP_FUNC_TPI_WRITEBLOCK from
    k.opcode_ne hk 20 15 (by decide))]
  rw [if_neg (show k.USBASP_FUNC_UART_TX ≠ k.USBASP_FUNC_UART_CONFIG from
    k.opcode_ne hk 20 16 (by decide))]
  rw [if_neg (show k.USBASP_FUNC_UART_TX ≠ k.USBASP_FUNC_UART_FLUSHTX from
    k.opcode_ne hk 20 17 (by decide))]
  rw [if_neg (show k.USBASP_FUNC_UART_TX ≠ k.USBASP_FUNC_UART_FLUSHRX from
    k.opcode_ne hk 20 18 (by decide))]
  rw [if_neg (show k.USBASP_FUNC_UART_TX ≠ k.USBASP_FUNC_UART_DISABLE from
    k.opcode_ne hk 20 19 (by decide))]
  rw [if_pos rfl]

theorem usbFunctionSetup_UART_RX (k : Consts) (env : Env) (s : Prog) (data : Nat → Nat)
    (hk : k.WellFormed) (h : data 1 = k.USBASP_FUNC_UART_RX) :
    usbFunctionSetup k env s data = setup_UART_RX k env s data := by
  unfold usbFunctionSetup
  rw [h]
  rw [if_neg (show k.USBASP_FUNC_UART_RX ≠ k.USBASP_FUNC_CONNECT from
    k.opcode_ne hk 21 0 (by decide))]
  rw [if_neg (show k.USBASP_FUNC_UART_RX ≠ k.USBASP_FUNC_DISCONNECT from
    k.opcode_ne hk 21 1 (by decide))]
  rw [if_neg (show k.USBASP_FUNC_UART_RX ≠ k.USBASP_FUNC_TRANSMIT from
    k.opcode_ne hk 21 2 (by decide))]
  rw [if_neg (show k.USBASP_FUNC_UART_RX ≠ k.USBASP_FUNC_READFLASH from
    k.opcode_ne hk 21 3 (by decide))]
  rw [if_neg (show k.USBASP_FUNC_UART_RX ≠ k.USBASP_FUNC_READEEPROM from
    k.opcode_ne hk 21 4 (by decide))]
  rw [if_neg (show k.USBASP_FUNC_UART_RX ≠ k.USBASP_FUNC_ENABLEPROG from
    k.opcode_ne hk 21 5 (by decide))]
  rw [if_neg (show k.USBASP_FUNC_UART_RX ≠ k.USBASP_FUNC_WRITEFLASH from
    k.opcode_ne hk 21 6 (by decide))]
  rw [if_neg (show k.USBASP_FUNC_UART_RX ≠ k.USBASP_FUNC_WRITEEEPROM from
    k.opcode_ne hk 21 7 (by decide))]
  rw [if_neg (show k.USBASP_FUNC_UART_RX ≠ k.USBASP_FUNC_SETLONGADDRESS from
    k.opcode_ne hk 21 8 (by decide))]
  rw [if_neg (show k.USBASP_FUNC_UART_RX ≠ k.USBASP_FUNC_SETISPSCK from
    k.opcode_ne hk 21 9 (by decide))]
  rw [if_neg (show k.USBASP_FUNC_UART_RX ≠ k.USBASP_FUNC_TPI_CONNECT from
    k.opcode_ne hk 21 10 (by decide))]
  rw [if_neg (show k.USBASP_FUNC_UART_RX ≠ k.USBASP_FUNC_TPI_DISCONNECT from
    k.opcode_ne hk 21 11 (by decide))]
  rw [if_neg (show k.USBASP_FUNC_UART_RX ≠ k.USBASP_FUNC_TPI_RAWREAD from
    k.opcode_ne hk 21 12 (by decide))]
  rw [if_neg (show k.USBASP_FUNC_UART_RX ≠ k.USBASP_FUNC_TPI_RAWWRITE from
    k.opcode_ne hk 21 13 (by decide))]
  rw [if_neg (show k.USBASP_FUNC_UART_RX ≠ k.USBASP_FUNC_TPI_READBLOCK from
    k.opcode_ne hk 21 14 (by decide))]
  rw [if_neg (show k.USBASP_FUNC_UART_RX ≠ k.USBASP_FUNC_TPI_WRITEBLOCK from
    k.opcode_ne hk 21 15 (by decide))]
  rw [if_neg (show k.USBASP_FUNC_UART_RX ≠ k.USBASP_FUNC_UART_CONFIG from
    k.opcode_ne hk 21 16 (by decide))]
  rw [if_neg (show k.USBASP_FUNC_UART_RX ≠ k.USBASP_FUNC_UART_FLUSHTX from
    k.opcode_ne hk 21 17 (by decide))]
  rw [if_neg (show k.USBASP_FUNC_UART_RX ≠ k.USBASP_FUNC_UART_FLUSHRX from
    k.opcode_ne hk 21 18 (by decide))]
  rw [if_neg (show k.USBASP_FUNC_UART_RX ≠ k.USBASP_FUNC_UART_DISABLE from
    k.opcode_ne hk 21 19 (by decide))]
  rw [if_neg (show k.USBASP_FUNC_UART_RX ≠ k.USBASP_FUNC_UART_TX from
    k.opcode_ne hk 21 20 (by decide))]
  rw [if_pos rfl]

theorem usbFunctionSetup_UART_TX_FREE (k : Consts) (env : Env) (s : Prog) (data : Nat → Nat)
    (hk : k.WellFormed) (h : data 1 = k.USBASP_FUNC_UART_TX_FREE) :
    usbFunctionSetup k env s data = setup_UART_TX_FREE k env s data := by
  unfold usbFunctionSetup
  rw [h]
  rw [if_neg (show k.USBASP_FUNC_UART_TX_FREE ≠ k.USBASP_FUNC_CONNECT from
    k.opcode_ne hk 22 0 (by decide))]
  rw [if_neg (show k.USBASP_FUNC_UART_TX_FREE ≠ k.USBASP_FUNC_DISCONNECT from
    k.opcode_ne hk 22 1 (by decide))]
  rw [if_neg (show k.USBASP_FUNC_UART_TX_FREE ≠ k.USBASP_FUNC_TRANSMIT from
    k.opcode_ne hk 22 2 (by decide))]
  rw [if_neg (show k.USBASP_FUNC_UART_TX_FREE ≠ k.USBASP_FUNC_READFLASH from
    k.opcode_ne hk 22 3 (by decide))]
  rw [if_neg (show k.USBASP_FUNC_UART_TX_FREE ≠ k.USBASP_FUNC_READEEPROM from
    k.opcode_ne hk 22 4 (by decide))]
  rw [if_neg (show k.USBASP_FUNC_UART_TX_FREE ≠ k.USBASP_FUNC_ENABLEPROG from
    k.opcode_ne hk 22 5 (by decide))]
  rw [if_neg (show k.USBASP_FUNC_UART_TX_FREE ≠ k.USBASP_FUNC_WRITEFLASH from
    k.opcode_ne hk 22 6 (by decide))]
  rw [if_neg (show k.USBASP_FUNC_UART_TX_FREE ≠ k.USBASP_FUNC_WRITEEEPROM from
    k.opcode_ne hk 22 7 (by decide))]
  rw [if_neg (show k.USBASP_FUNC_UART_TX_FREE ≠ k.USBASP_FUNC_SETLONGADDRESS from
    k.opcode_ne hk 22 8 (by decide))]
  rw [if_neg (show k.USBASP_FUNC_UART_TX_FREE ≠ k.USBASP_FUNC_SETISPSCK from
    k.opcode_ne hk 22 9 (by decide))]
  rw [if_neg (show k.USBASP_FUNC_UART_TX_FREE ≠ k.USBASP_FUNC_TPI_CONNECT from
    k.opcode_ne hk 22 10 (by decide))]
  rw [if_neg (show k.USBASP_FUNC_UART_TX_FREE ≠ k.USBASP_FUNC_TPI_DISCONNECT from
    k.opcode_ne hk 22 11 (by decide))]
  rw [if_neg (show k.USBASP_FUNC_UART_TX_FREE ≠ k.USBASP_FUNC_TPI_RAWREAD from
    k.opcode_ne hk 22 12 (by decide))]
  rw [if_neg (show k.USBASP_FUNC_UART_TX_FREE ≠ k.USBASP_FUNC_TPI_RAWWRITE from
    k.opcode_ne hk 22 13 (by decide))]
  rw [if_neg (show k.USBASP_FUNC_UART_TX_FREE ≠ k.USBASP_FUNC_TPI_READBLOCK from
    k.opcode_ne hk 22 14 (by decide))]
  rw [if_neg (show k.USBASP_FUNC_UART_TX_FREE ≠ k.USBASP_FUNC_TPI_WRITEBLOCK from
    k.opcode_ne hk 22 15 (by decide))]
  rw [if_neg (show k.USBASP_FUNC_UART_TX_FREE ≠ k.USBASP_FUNC_UART_CONFIG from
    k.opcode_ne hk 22 16 (by decide))]
  rw [if_neg (show k.USBASP_FUNC_UART_TX_FREE ≠ k.USBASP_FUNC_UART_FLUSHTX from
    k.opcode_ne hk 22 17 (by decide))]
  rw [if_neg (show k.USBASP_FUNC_UART_TX_FREE ≠ k.USBASP_FUNC_UART_FLUSHRX from
    k.opcode_ne hk 22 18 (by decide))]
  rw [if_neg (show k.USBASP_FUNC_UART_TX_FREE ≠ k.USBASP_FUNC_UART_DISABLE from
    k.opcode_ne hk 22 19 (by decide))]
  rw [if_neg (show k.USBASP_FUNC_UART_TX_FREE ≠ k.USBASP_FUNC_UART_TX from
    k.opcode_ne hk 22 20 (by decide))]
  rw [if_neg (show k.USBASP_FUNC_UART_TX_FREE ≠ k.USBASP_FUNC_UART_RX from
    k.opcode_ne hk 22 21 (by decide))]
  rw [if_pos rfl]

theorem usbFunctionSetup_GETCAPABILITIES (k : Consts) (env : Env) (s : Prog) (data : Nat → Nat)
    (hk : k.WellFormed) (h : data 1 = k.USBASP_FUNC_GETCAPABILITIES) :
    usbFunctionSetup k env s data = setup_GETCAPABILITIES k env s data := by
  unfold usbFunctionSetup
  rw [h]
  rw [if_neg (show k.USBASP_FUNC_GETCAPABILITIES ≠ k.USBASP_FUNC_CONNECT from
    k.opcode_ne hk 23 0 (by decide))]
  rw [if_neg (show k.USBASP_FUNC_GETCAPABILITIES ≠ k.USBASP_FUNC_DISCONNECT from
    k.opcode_ne hk 23 1 (by decide))]
  rw [if_neg (show k.USBASP_FUNC_GETCAPABILITIES ≠ k.USBASP_FUNC_TRANSMIT from
    k.opcode_ne hk 23 2 (by decide))]
  rw [if_neg (show k.USBASP_FUNC_GETCAPABILITIES ≠ k.USBASP_FUNC_READFLASH from
    k.opcode_ne hk 23 3 (by decide))]
  rw [if_neg (show k.USBASP_FUNC_GETCAPABILITIES ≠ k.USBASP_FUNC_READEEPROM from
    k.opcode_ne hk 23 4 (by decide))]
  rw [if_neg (show k.USBASP_FUNC_GETCAPABILITIES ≠ k.USBASP_FUNC_ENABLEPROG from
    k.opcode_ne hk 23 5 (by decide))]
  rw [if_neg (show k.USBASP_FUNC_GETCAPABILITIES ≠ k.USBASP_FUNC_WRITEFLASH from
    k.opcode_ne hk 23 6 (by decide))]
  rw [if_neg (show k.USBASP_FUNC_GETCAPABILITIES ≠ k.USBASP_FUNC_WRITEEEPROM from
    k.opcode_ne hk 23 7 (by decide))]
  rw [if_neg (show k.USBASP_FUNC_GETCAPABILITIES ≠ k.USBASP_FUNC_SETLONGADDRESS from
    k.opcode_ne hk 23 8 (by decide))]
  rw [if_neg (show k.USBASP_FUNC_GETCAPABILITIES ≠ k.USBASP_FUNC_SETISPSCK from
    k.opcode_ne hk 23 9 (by decide))]
  rw [if_neg (show k.USBASP_FUNC_GETCAPABILITIES ≠ k.USBASP_FUNC_TPI_CONNECT from
    k.opcode_ne hk 23 10 (by decide))]
  rw [if_neg (show k.USBASP_FUNC_GETCAPABILITIES ≠ k.USBASP_FUNC_TPI_DISCONNECT from
    k.opcode_ne hk 23 11 (by decide))]
  rw [if_neg (show k.USBASP_FUNC_GETCAPABILITIES ≠ k.USBASP_FUNC_TPI_RAWREAD from
    k.opcode_ne hk 23 12 (by decide))]
  rw [if_neg (show k.USBASP_FUNC_GETCAPABILITIES ≠ k.USBASP_FUNC_TPI_RAWWRITE from
    k.opcode_ne hk 23 13 (by decide))]
  rw [if_neg (show k.USBASP_FUNC_GETCAPABILITIES ≠ k.USBASP_FUNC_TPI_READBLOCK from
    k.opcode_ne hk 23 14 (by decide))]
  rw [if_neg (show k.USBASP_FUNC_GETCAPABILITIES ≠ k.USBASP_FUNC_TPI_WRITEBLOCK from
    k.opcode_ne hk 23 15 (by decide))]
  rw [if_neg (show k.USBASP_FUNC_GETCAPABILITIES ≠ k.USBASP_FUNC_UART_CONFIG from
    k.opcode_ne hk 23 16 (by decide))]
  rw [if_neg (show k.USBASP_FUNC_GETCAPABILITIES ≠ k.USBASP_FUNC_UART_FLUSHTX from
    k.opcode_ne hk 23 17 (by decide))]
  rw [if_neg (show k.USBASP_FUNC_GETCAPABILITIES ≠ k.USBASP_FUNC_UART_FLUSHRX from
    k.opcode_ne hk 23 18 (by decide))]
  rw [if_neg (show k.USBASP_FUNC_GETCAPABILITIES ≠ k.USBASP_FUNC_UART_DISABLE from
    k.opcode_ne hk 23 19 (by decide))]
  rw [if_neg (show k.USBASP_FUNC_GETCAPABILITIES ≠ k.USBASP_FUNC_UART_TX from
    k.opcode_ne hk 23 20 (by decide))]
  rw [if_neg (show k.USBASP_FUNC_GETCAPABILITIES ≠ k.USBASP_FUNC_UART_RX from
    k.opcode_ne hk 23 21 (by decide))]
  rw [if_neg (show k.USBASP_FUNC_GETCAPABILITIES ≠ k.USBASP_FUNC_UART_TX_FREE from
    k.opcode_ne hk 23 22 (by decide))]
  rw [if_pos rfl]

/-- A packet whose opcode is none of the known ones: length 0, state untouched. -/
theorem usbFunctionSetup_unknown (k : Consts) (env : Env) (s : Prog) (data : Nat → Nat)
    (h : data 1 ∉ k.opcodes) : usbFunctionSetup k env s data = (0, s) := by
  simp only [Consts.opcodes, List.mem_cons, List.mem_singleton, List.not_mem_nil, or_false,
    not_or] at h
  obtain ⟨h0, h1, h2, h3, h4, h5, h6, h7, h8, h9, h10, h11, h12, h13, h14, h15, h16, h17, h18, h19, h20, h21, h22, h23⟩ := h
  unfold usbFunctionSetup
  rw [if_neg h0, if_neg h1, if_neg h2, if_neg h3, if_neg h4, if_neg h5, if_neg h6, if_neg h7, if_neg h8, if_neg h9, if_neg h10, if_neg h11, if_neg h12, if_neg h13, if_neg h14, if_neg h15, if_neg h16, if_neg h17, if_neg h18, if_neg h19, if_neg h20, if_neg h21, if_neg h22, if_neg h23]

/-! ## Lemmas on `uart_getc` and the UART-RX loop -/

theorem uart_getc_empty (u : Uart) (c : Nat) (he : ringBufferEmpty u.rx ≠ 0) :
    uart_getc u c = (0, c, u) := by
  unfold uart_getc
  rw [if_pos he]

theorem uart_getc_nonempty (u : Uart) (c : Nat) (he : ringBufferEmpty u.rx = 0) :
    uart_getc u c
      = (1, (ringBufferRead u.rx u.mem).1, { u with rx := (ringBufferRead u.rx u.mem).2 }) := by
  unfold uart_getc
  rw [if_neg (by rw [he]; exact fun h => h rfl)]

/-- The UART-RX loop when fewer bytes are queued than iterations are left: it stops at the
first failing `uart_getc`, having copied the queued bytes to `data[rd..]` in order and
emptied the ring; nothing else changes. -/
theorem uartRxLoop_short (n : Nat) :
    ∀ (rd len : Nat) (u : Uart) (data : Nat → Nat), rd + n = len → u.rx.Valid →
      (queued u.rx u.mem).length < n →
      (uartRxLoop n rd len u data).1 = rd + (queued u.rx u.mem).length ∧
      (uartRxLoop n rd len u data).2.1 = { u with rx := (uartRxLoop n rd len u data).2.1.rx } ∧
      ringBufferEmpty (uartRxLoop n rd len u data).2.1.rx ≠ 0 ∧
      (uartRxLoop n rd len u data).2.1.rx.Valid ∧
      (uartRxLoop n rd len u data).2.1.rx.write = u.rx.write ∧
      (uartRxLoop n rd len u data).2.1.rx.start = u.rx.start ∧
      (uartRxLoop n rd len u data).2.1.rx.end_ = u.rx.end_ ∧
      (∀ j, j < (queued u.rx u.mem).length →
        (uartRxLoop n rd len u data).2.2 (rd + j) = (queued u.rx u.mem).getD j 0) ∧
      (∀ i, i < rd ∨ rd + (queued u.rx u.mem).length ≤ i →
        (uartRxLoop n rd len u data).2.2 i = data i) := by
  induction n with
  | zero =>
    intro rd len u data _ _ hlt
    exact absurd hlt (Nat.not_lt_zero _)
  | succ n ih =>
    intro rd len u data hlen hv hlt
    have hrd : rd < len := by omega
    by_cases he : ringBufferEmpty u.rx = 0
    · -- a byte is available
      have hg := uart_getc_nonempty u (data rd) he
      have hq := queued_ringBufferRead u.rx u.mem hv he
      have hb := ringBufferRead_bounds u.rx u.mem
      have hstep : uartRxLoop (n + 1) rd len u data
          = uartRxLoop n (rd + 1) len { u with rx := (ringBufferRead u.rx u.mem).2 }
              (Function.update data rd (ringBufferRead u.rx u.mem).1) := by
        simp only [uartRxLoop, if_pos hrd, hg]
        simp
      have hlt1 : (queued (ringBufferRead u.rx u.mem).2 u.mem).length < n := by
        rw [hq] at hlt
        simpa using hlt
      obtain ⟨i1, i2, i3, i4, i5, i6, i7, i8, i9⟩ :=
        ih (rd + 1) len { u with rx := (ringBufferRead u.rx u.mem).2 }
          (Function.update data rd (ringBufferRead u.rx u.mem).1) (by omega)
          (ringBufferRead_valid u.rx u.mem hv) hlt1
      rw [hstep]
      dsimp only at i1 i2 i3 i4 i5 i6 i7 i8 i9 ⊢
      refine ⟨?_, ?_, i3, i4, ?_, ?_, ?_, ?_, ?_⟩
      · rw [i1, hq]
        simp only [List.length_cons]
        omega
      · rw [i2]
      · rw [i5, hb.2.2]
      · rw [i6, hb.1]
      · rw [i7, hb.2.1]
      · intro j hj
        rw [hq] at hj ⊢
        cases j with
        | zero =>
          have h0 := i9 rd (Or.inl (by omega))
          simpa using h0
        | succ j =>
          have := i8 j (by simpa using hj)
          rw [show rd + (j + 1) = rd + 1 + j by omega, this]
          simp
      · intro i hi
        rw [hq] at hi
        simp only [List.length_cons] at hi
        rw [i9 i (by omega)]
        have : i ≠ rd := by omega
        simp [Function.update, this]
    · -- the ring is empty: the call fails and the loop ends
      have hg := uart_getc_empty u (data rd) he
      have hq := queued_of_empty u.rx u.mem he
      have hstep : uartRxLoop (n + 1) rd len u data = (rd, u, data) := by
        simp only [uartRxLoop, if_pos hrd, hg]
        simp
      rw [hstep, hq]
      refine ⟨by simp, rfl, he, hv, rfl, rfl, rfl, ?_, ?_⟩
      · intro j hj
        exact absurd hj (Nat.not_lt_zero _)
      · intro i _
        rfl

/-! ## C4: a UART-RX packet with fewer bytes queued than requested -/

/-- C4. In the UART-RX state, for a packet request of `len ≤ 8` bytes while the RX ring
holds `m < len` queued bytes (also `m = 0`): `usbFunctionRead` returns exactly `m`, the first
`m` bytes of the packet buffer are the queued bytes in arrival order and the rest of the
buffer is untouched, the RX ring is left empty, and the operation is reset to Idle. -/
theorem usbFunctionRead_uart_rx_short (k : Consts) (env : Env) (s : Prog)
    (data : Nat → Nat) (len : Nat)
    (hst : s.prog_state = k.PROG_STATE_UART_RX) (hv : s.uart.rx.Valid) (hlen : len ≤ 8)
    (hm : (queued s.uart.rx s.uart.mem).length < len) :
    (usbFunctionRead k env s data len).1 = (queued s.uart.rx s.uart.mem).length ∧
    (List.range (queued s.uart.rx s.uart.mem).length).map (usbFunctionRead k env s data len).2.2
      = queued s.uart.rx s.uart.mem ∧
    (∀ i, (queued s.uart.rx s.uart.mem).length ≤ i →
      (usbFunctionRead k env s data len).2.2 i = data i) ∧
    ringBufferEmpty (usbFunctionRead k env s data len).2.1.uart.rx ≠ 0 ∧
    queued (usbFunctionRead k env s data len).2.1.uart.rx
      (usbFunctionRead k env s data len).2.1.uart.mem = [] ∧
    (usbFunctionRead k env s data len).2.1.prog_state = k.PROG_STATE_IDLE := by
  obtain ⟨h1, h2, h3, _, _, _, _, h8, h9⟩ :=
    uartRxLoop_short len 0 len s.uart data (by omega) hv hm
  have hun : usbFunctionRead k env s data len
      = ((uartRxLoop len 0 len s.uart data).1,
          { s with uart := (uartRxLoop len 0 len s.uart data).2.1,
                   prog_state := k.PROG_STATE_IDLE },
          (uartRxLoop len 0 len s.uart data).2.2) := by
    have hlt : (uartRxLoop len 0 len s.uart data).1 < 8 := by omega
    unfold usbFunctionRead
    rw [if_neg (by rw [hst]; tauto), if_pos hst]
    simp only [if_pos hlt]
  rw [hun]
  dsimp only
  refine ⟨by omega, ?_, ?_, h3, queued_of_empty _ _ h3, rfl⟩
  · apply List.ext_getElem
    · simp
    · intro j hj1 hj2
      have := h8 j hj2
      simp only [Nat.zero_add] at this
      simp [this, List.getElem?_eq_getElem hj2]
  · intro i hi
    exact h9 i (Or.inr (by omega))

/-! ## Lemmas on bytes and bit operations -/

/-- For a low byte `lo`, `(hi << 8) | lo` is `256 * hi + lo`. -/
theorem shiftLeft8_or (hi lo : Nat) (h : lo < 256) : (hi <<< 8) ||| lo = 256 * hi + lo := by
  rw [Nat.shiftLeft_eq, Nat.mul_comm hi]
  exact (Nat.mul_add_lt_is_or (i := 8) (by simpa using h) hi).symm

theorem word16_eq (hi lo : Nat) (hhi : hi < 256) (hlo : lo < 256) :
    word16 hi lo = 256 * hi + lo := by
  unfold word16
  rw [shiftLeft8_or hi lo hlo]
  omega

theorem and_0xFF (x : Nat) : x &&& 0xFF = x % 256 :=
  Nat.and_pow_two_sub_one_eq_mod x 8

/-- Setting a bit of an 8-bit register twice is setting it once. -/
theorem or_mod_256_idem (x m : Nat) : ((x ||| m) % 256 ||| m) % 256 = (x ||| m) % 256 := by
  apply Nat.eq_of_testBit_eq
  intro i
  have e : (256 : Nat) = 2 ^ 8 := by norm_num
  rw [e]
  simp only [Nat.testBit_mod_two_pow, Nat.testBit_or]
  cases decide (i < 8) <;> cases x.testBit i <;> cases m.testBit i <;> rfl

/-- After `reg |= 1 << b` on an 8-bit register, bit `b < 8` is set. -/
theorem testBit_or_shiftLeft_mod (x b : Nat) (hb : b < 8) :
    ((x ||| (1 <<< b)) % 256).testBit b = true := by
  have e : (256 : Nat) = 2 ^ 8 := by norm_num
  rw [e, Nat.testBit_mod_two_pow, Nat.testBit_or, Nat.one_shiftLeft, Nat.testBit_two_pow_self]
  simp [hb]

/-! ## Lemmas on `uart_putc` -/

theorem uart_putc_full (k : Consts) (u : Uart) (c : Nat) (hf : ringBufferFull u.tx ≠ 0) :
    uart_putc k u c = (0, u) := by
  unfold uart_putc
  rw [if_pos hf]

theorem uart_putc_not_full (k : Consts) (u : Uart) (c : Nat) (hf : ringBufferFull u.tx = 0) :
    uart_putc k u c
      = (1, { u with tx := (ringBufferWrite u.tx u.mem c).1,
                     mem := (ringBufferWrite u.tx u.mem c).2,
                     UCSRB := (u.UCSRB ||| (1 <<< k.UDRIE)) % 256 }) := by
  unfold uart_putc
  rw [if_neg (by rw [hf]; exact fun h => h rfl)]

/-! ## C8: `uart_config` resets the channel -/

/-- C8. Whatever the two rings and the UART registers held before, after
`uart_config(baud, par, stop, bytes)` with a 16-bit `baud` the TX ring and the RX ring are
empty, `UCSRB` holds `(1<<RXCIE)|(1<<RXEN)|(1<<TXEN)` (as an 8-bit value), the divisor
registers hold `baud` (`UBRRH:UBRRL = baud`), and a second call with the same arguments
leaves the state exactly as the first call left it. -/
theorem uart_config_resets (k : Consts) (u : Uart) (baud par stop bytes : Nat)
    (hb : baud < 65536) :
    ringBufferEmpty (uart_config k u baud par stop bytes).tx ≠ 0 ∧
    ringBufferEmpty (uart_config k u baud par stop bytes).rx ≠ 0 ∧
    queued (uart_config k u baud par stop bytes).tx (uart_config k u baud par stop bytes).mem
      = [] ∧
    queued (uart_config k u baud par stop bytes).rx (uart_config k u baud par stop bytes).mem
      = [] ∧
    (uart_config k u baud par stop bytes).UCSRB
      = ((1 <<< k.RXCIE) ||| (1 <<< k.RXEN) ||| (1 <<< k.TXEN)) % 256 ∧
    256 * (uart_config k u baud par stop bytes).UBRRH
      + (uart_config k u baud par stop bytes).UBRRL = baud ∧
    uart_config k (uart_config k u baud par stop bytes) baud par stop bytes
      = uart_config k u baud par stop bytes := by
  have htx : ringBufferEmpty (uart_config k u baud par stop bytes).tx ≠ 0 := by
    simp [uart_config, uart_flush_tx, uart_flush_rx, uart_disable, ringBufferEmpty]
  have hrx : ringBufferEmpty (uart_config k u baud par stop bytes).rx ≠ 0 := by
    simp [uart_config, uart_flush_tx, uart_flush_rx, uart_disable, ringBufferEmpty]
  refine ⟨htx, hrx, queued_of_empty _ _ htx, queued_of_empty _ _ hrx, ?_, ?_, ?_⟩
  · simp [uart_config]
  · simp only [uart_config, and_0xFF, Nat.shiftRight_eq_div_pow]
    omega
  · simp only [uart_config, uart_flush_tx, uart_flush_rx, uart_disable, or_mod_256_idem]

/-- C8 at a state with bytes queued in both rings and other register contents. -/
theorem uart_config_resets_witness :
    (155 : Nat) < 65536 ∧
    queued Uart.busy.tx Uart.busy.mem = [98, 99] ∧
    queued Uart.busy.rx Uart.busy.mem = [100] ∧
    queued (uart_config usbasp_h Uart.busy 155 0 0 24).tx
      (uart_config usbasp_h Uart.busy 155 0 0 24).mem = [] ∧
    queued (uart_config usbasp_h Uart.busy 155 0 0 24).rx
      (uart_config usbasp_h Uart.busy 155 0 0 24).mem = [] ∧
    (uart_config usbasp_h Uart.busy 155 0 0 24).UCSRB = 152 ∧
    256 * (uart_config usbasp_h Uart.busy 155 0 0 24).UBRRH
      + (uart_config usbasp_h Uart.busy 155 0 0 24).UBRRL = 155 :=
  ⟨by decide, by decide, by decide,
    (uart_config_resets usbasp_h Uart.busy 155 0 0 24 (by decide)).2.2.1,
    (uart_config_resets usbasp_h Uart.busy 155 0 0 24 (by decide)).2.2.2.1,
    (uart_config_resets usbasp_h Uart.busy 155 0 0 24 (by decide)).2.2.2.2.1,
    (uart_config_resets usbasp_h Uart.busy 155 0 0 24 (by decide)).2.2.2.2.2.1⟩

/-! ## C9: `uart_putc` -/

/-- C9. On a TX ring with cursors in bounds: when the ring is full `uart_putc(c)` returns 0
and leaves the whole state as it was, so neither the TX ring nor `UCSRB` changes; otherwise
it returns 1, the queued bytes become the old ones followed by `c`, the write cursor moves
one slot on (wrapping at the end), the read cursor, the array bounds, the RX ring and the
other registers stay, memory changes at most at the old write cursor, and bit `UDRIE` of
`UCSRB` is set. -/
theorem uart_putc_spec (k : Consts) (u : Uart) (c : Nat) (hv : u.tx.Valid)
    (hbit : k.UDRIE < 8) :
    (ringBufferFull u.tx ≠ 0 → uart_putc k u c = (0, u)) ∧
    (ringBufferFull u.tx = 0 →
      (uart_putc k u c).1 = 1 ∧
      queued (uart_putc k u c).2.tx (uart_putc k u c).2.mem = queued u.tx u.mem ++ [c % 256] ∧
      (uart_putc k u c).2.tx.write
        = (if u.tx.write + 1 = u.tx.end_ then u.tx.start else u.tx.write + 1) ∧
      (uart_putc k u c).2.tx.read = u.tx.read ∧
      (uart_putc k u c).2.tx.start = u.tx.start ∧
      (uart_putc k u c).2.tx.end_ = u.tx.end_ ∧
      (∀ a, a ≠ u.tx.write → (uart_putc k u c).2.mem a = u.mem a) ∧
      (uart_putc k u c).2.UCSRB.testBit k.UDRIE = true ∧
      (uart_putc k u c).2
        = { u with tx := (uart_putc k u c).2.tx, mem := (uart_putc k u c).2.mem,
                   UCSRB := (uart_putc k u c).2.UCSRB }) := by
  refine ⟨uart_putc_full k u c, ?_⟩
  intro hf
  rw [uart_putc_not_full k u c hf]
  dsimp only
  refine ⟨rfl, queued_ringBufferWrite u.tx u.mem c hv hf, rfl, rfl, rfl, rfl, ?_,
    testBit_or_shiftLeft_mod _ _ hbit, rfl⟩
  intro a ha
  simp [ringBufferWrite, Function.update, ha]

/-- C9 at the start state, whose TX ring is empty. -/
theorem uart_putc_spec_witness :
    (Uart.boot 96 352).tx.Valid ∧ usbasp_h.UDRIE < 8 ∧
    ringBufferFull (Uart.boot 96 352).tx = 0 ∧
    (uart_putc usbasp_h (Uart.boot 96 352) 65).1 = 1 ∧
    queued (uart_putc usbasp_h (Uart.boot 96 352) 65).2.tx
      (uart_putc usbasp_h (Uart.boot 96 352) 65).2.mem = [65] ∧
    (uart_putc usbasp_h (Uart.boot 96 352) 65).2.UCSRB.testBit 5 = true :=
  ⟨by decide, by decide, by decide,
    ((uart_putc_spec usbasp_h (Uart.boot 96 352) 65 (by decide) (by decide)).2 (by decide)).1,
    ((uart_putc_spec usbasp_h (Uart.boot 96 352) 65 (by decide) (by decide)).2
      (by decide)).2.1,
    ((uart_putc_spec usbasp_h (Uart.boot 96 352) 65 (by decide) (by decide)).2
      (by decide)).2.2.2.2.2.2.2.1⟩

/-! ## C10: `uart_getc` -/

/-- C10. On an RX ring with cursors in bounds: when the ring is empty `uart_getc(c)` returns
0 and leaves the state and `*c` as they were; otherwise it returns 1, `*c` receives the
oldest queued byte, the queued bytes become the old ones without that first byte (one byte
fewer, the others in the same order), and nothing but the read cursor of the RX ring
changes. -/
theorem uart_getc_spec (u : Uart) (c : Nat) (hv : u.rx.Valid) :
    (ringBufferEmpty u.rx ≠ 0 → uart_getc u c = (0, c, u)) ∧
    (ringBufferEmpty u.rx = 0 →
      (uart_getc u c).1 = 1 ∧
      queued u.rx u.mem
        = (uart_getc u c).2.1 :: queued (uart_getc u c).2.2.rx (uart_getc u c).2.2.mem ∧
      (queued (uart_getc u c).2.2.rx (uart_getc u c).2.2.mem).length + 1
        = (queued u.rx u.mem).length ∧
      (uart_getc u c).2.2.rx.write = u.rx.write ∧
      (uart_getc u c).2.2.rx.start = u.rx.start ∧
      (uart_getc u c).2.2.rx.end_ = u.rx.end_ ∧
      (uart_getc u c).2.2 = { u with rx := (uart_getc u c).2.2.rx }) := by
  refine ⟨uart_getc_empty u c, ?_⟩
  intro he
  have hq := queued_ringBufferRead u.rx u.mem hv he
  rw [uart_getc_nonempty u c he]
  dsimp only
  refine ⟨rfl, hq, ?_, rfl, rfl, rfl, rfl⟩
  rw [hq]
  rfl

/-- C10 at a state whose RX ring holds one byte. -/
theorem uart_getc_spec_witness :
    Uart.busy.rx.Valid ∧ ringBufferEmpty Uart.busy.rx = 0 ∧
    (uart_getc Uart.busy 0).1 = 1 ∧
    queued Uart.busy.rx Uart.busy.mem
      = (uart_getc Uart.busy 0).2.1 :: queued (uart_getc Uart.busy 0).2.2.rx
          (uart_getc Uart.busy 0).2.2.mem ∧
    (uart_getc Uart.busy 0).2.1 = 100 :=
  ⟨by decide, by decide,
    ((uart_getc_spec Uart.busy 0 (by decide)).2 (by decide)).1,
    ((uart_getc_spec Uart.busy 0 (by decide)).2 (by decide)).2.1,
    by decide⟩

/-! ## Lemmas on `uart_tx_freeplaces` and `uart_putsn` -/

/-- On a 256-byte TX ring the free-slot count and the queued count add up to 255. -/
theorem uart_tx_freeplaces_add_length (u : Uart) (hv : u.tx.Valid)
    (hcap : u.tx.end_ = u.tx.start + 256) :
    uart_tx_freeplaces u + (queued u.tx u.mem).length = 255 := by
  obtain ⟨h1, h2, h3, h4⟩ := hv
  rw [queued_length]
  unfold uart_tx_freeplaces RINGBUFFER_RX_SIZE
  dsimp only
  by_cases hle : u.tx.read ≤ u.tx.write
  · rw [if_pos hle, if_pos (by omega)]
    omega
  · rw [if_neg hle, if_neg (by omega)]
    omega

theorem uart_putsn_succ (k : Consts) (u : Uart) (data : Nat → Nat) (len : Nat) :
    uart_putsn k u data (len + 1) = (uart_putc k (uart_putsn k u data len) (data len)).2 := by
  unfold uart_putsn
  rw [List.range_succ, List.foldl_append]
  rfl

/-- `uart_putsn` enqueues the first `min len free` bytes, in order, and touches nothing of
the TX ring but the write cursor. -/
theorem uart_putsn_queued (k : Consts) (u : Uart) (data : Nat → Nat) (hv : u.tx.Valid)
    (hcap : u.tx.end_ = u.tx.start + 256) (len : Nat) :
    (uart_putsn k u data len).tx.Valid ∧
    (uart_putsn k u data len).tx.start = u.tx.start ∧
    (uart_putsn k u data len).tx.end_ = u.tx.end_ ∧
    (uart_putsn k u data len).tx.read = u.tx.read ∧
    (uart_putsn k u data len).rx = u.rx ∧
    queued (uart_putsn k u data len).tx (uart_putsn k u data len).mem
      = queued u.tx u.mem
        ++ (List.range (min len (uart_tx_freeplaces u))).map (fun i => data i % 256) := by
  have hfree := uart_tx_freeplaces_add_length u hv hcap
  induction len with
  | zero =>
    simp [uart_putsn, hv]
  | succ len ih =>
    obtain ⟨i1, i2, i3, i4, i5, i6⟩ := ih
    rw [uart_putsn_succ]
    have hcap' : (uart_putsn k u data len).tx.capacity = 256 := by
      unfold ringBuffer.capacity
      rw [i2, i3]
      omega
    by_cases hlt : len < uart_tx_freeplaces u
    · have hf : ringBufferFull (uart_putsn k u data len).tx = 0 := by
        by_contra hne
        have := (ringBufferFull_iff_length _ (uart_putsn k u data len).mem i1).mp hne
        rw [i6, hcap'] at this
        simp only [List.length_append, List.length_map, List.length_range] at this
        omega
      have hb := ringBufferWrite_bounds (uart_putsn k u data len).tx
        (uart_putsn k u data len).mem (data len)
      rw [uart_putc_not_full k _ _ hf]
      dsimp only
      refine ⟨ringBufferWrite_valid _ _ _ i1, by rw [hb.1, i2], by rw [hb.2.1, i3],
        by rw [hb.2.2, i4], i5, ?_⟩
      rw [queued_ringBufferWrite _ _ _ i1 hf, i6, Nat.min_eq_left (Nat.le_of_lt hlt),
        Nat.min_eq_left hlt, List.range_succ, List.map_append, List.append_assoc]
      rfl
    · have hf : ringBufferFull (uart_putsn k u data len).tx ≠ 0 := by
        apply (ringBufferFull_iff_length _ (uart_putsn k u data len).mem i1).mpr
        rw [i6, hcap']
        simp only [List.length_append, List.length_map, List.length_range]
        omega
      rw [uart_putc_full k _ _ hf]
      dsimp only
      refine ⟨i1, i2, i3, i4, i5, ?_⟩
      rw [i6, Nat.min_eq_right (by omega), Nat.min_eq_right (by omega)]

/-! ## C5: a UART-TX packet larger than the free space -/

/-- C5, at a concrete input.  With 2 free TX slots, 8 bytes still expected and a packet of
8 bytes, `usbFunctionWrite` moves the write cursor by exactly 2 slots, but `prog_nbytes` drops
by 8 to 0, not by 2 to 6, and the operation is Idle with return value 1, not UartTx. -/
theorem usbFunctionWrite_uart_tx_counterexample :
    Prog.txNearlyFull.prog_state = usbasp_h.PROG_STATE_UART_TX ∧
    uart_tx_freeplaces Prog.txNearlyFull.uart = 2 ∧
    Prog.txNearlyFull.prog_nbytes = 8 ∧
    (usbFunctionWrite usbasp_h Prog.txNearlyFull (packet [1, 2, 3, 4, 5, 6, 7, 8]) 8).2.uart.tx.write
      = Prog.txNearlyFull.uart.tx.write + 2 ∧
    (usbFunctionWrite usbasp_h Prog.txNearlyFull (packet [1, 2, 3, 4, 5, 6, 7, 8]) 8).2.prog_nbytes
      = 0 ∧
    ¬ ((usbFunctionWrite usbasp_h Prog.txNearlyFull (packet [1, 2, 3, 4, 5, 6, 7, 8]) 8).2.prog_nbytes
        = Prog.txNearlyFull.prog_nbytes - uart_tx_freeplaces Prog.txNearlyFull.uart) ∧
    ¬ ((usbFunctionWrite usbasp_h Prog.txNearlyFull (packet [1, 2, 3, 4, 5, 6, 7, 8]) 8).2.prog_state
        = usbasp_h.PROG_STATE_UART_TX) ∧
    (usbFunctionWrite usbasp_h Prog.txNearlyFull (packet [1, 2, 3, 4, 5, 6, 7, 8]) 8).1 = 1 := by
  decide

/-- C5 as amended.  In the UART-TX state, on a 256-byte TX ring with cursors in bounds, when
a packet of `len` bytes arrives while only `f < len` slots are free (`f` as reported by
`uart_tx_freeplaces`): exactly the first `f` bytes of the packet are enqueued, in order, and
the ring is then full; `prog_nbytes` is decremented by `len` modulo `2^16` (by `len`, not by
`f`), which is `prog_nbytes - len` when `len ≤ prog_nbytes < 2^16`; and the operation stays
UartTx with return value 0 unless the new `prog_nbytes` is 0, in which case it becomes Idle
with return value 1. -/
theorem usbFunctionWrite_uart_tx_backpressure (k : Consts) (s : Prog) (data : Nat → Nat)
    (len : Nat) (hst : s.prog_state = k.PROG_STATE_UART_TX) (hv : s.uart.tx.Valid)
    (hcap : s.uart.tx.end_ = s.uart.tx.start + 256)
    (hf : uart_tx_freeplaces s.uart < len) :
    queued (usbFunctionWrite k s data len).2.uart.tx (usbFunctionWrite k s data len).2.uart.mem
      = queued s.uart.tx s.uart.mem
        ++ (List.range (uart_tx_freeplaces s.uart)).map (fun i => data i % 256) ∧
    ringBufferFull (usbFunctionWrite k s data len).2.uart.tx ≠ 0 ∧
    (usbFunctionWrite k s data len).2.prog_nbytes
      = (s.prog_nbytes + (65536 - len % 65536)) % 65536 ∧
    (len ≤ s.prog_nbytes → s.prog_nbytes < 65536 →
      (usbFunctionWrite k s data len).2.prog_nbytes = s.prog_nbytes - len) ∧
    ((usbFunctionWrite k s data len).2.prog_nbytes ≠ 0 →
      (usbFunctionWrite k s data len).1 = 0 ∧
      (usbFunctionWrite k s data len).2.prog_state = k.PROG_STATE_UART_TX) ∧
    ((usbFunctionWrite k s data len).2.prog_nbytes = 0 →
      (usbFunctionWrite k s data len).1 = 1 ∧
      (usbFunctionWrite k s data len).2.prog_state = k.PROG_STATE_IDLE) := by
  have hlen : len ≠ 0 := by omega
  obtain ⟨p1, p2, p3, _, _, p6⟩ := uart_putsn_queued k s.uart data hv hcap len
  have hfree := uart_tx_freeplaces_add_length s.uart hv hcap
  rw [Nat.min_eq_right (Nat.le_of_lt hf)] at p6
  have hfull : ringBufferFull (uart_putsn k s.uart data len).tx ≠ 0 := by
    apply (ringBufferFull_iff_length _ (uart_putsn k s.uart data len).mem p1).mpr
    rw [p6]
    unfold ringBuffer.capacity
    rw [p2, p3]
    simp only [List.length_append, List.length_map, List.length_range]
    omega
  by_cases hz : sub16 s.prog_nbytes len ≤ 0
  · have hun : usbFunctionWrite k s data len
        = (1, { s with uart := uart_putsn k s.uart data len,
                       prog_nbytes := sub16 s.prog_nbytes len,
                       prog_state := k.PROG_STATE_IDLE }) := by
      unfold usbFunctionWrite
      rw [if_pos hst, if_pos hlen]
      dsimp only
      rw [if_pos hz]
    rw [hun]
    dsimp only
    refine ⟨p6, hfull, rfl, ?_, ?_, ?_⟩
    · intro h1 h2
      unfold sub16
      omega
    · intro h
      exact absurd (Nat.le_zero.mp hz) h
    · intro _
      exact ⟨rfl, rfl⟩
  · have hun : usbFunctionWrite k s data len
        = (0, { s with uart := uart_putsn k s.uart data len,
                       prog_nbytes := sub16 s.prog_nbytes len }) := by
      unfold usbFunctionWrite
      rw [if_pos hst, if_pos hlen]
      dsimp only
      rw [if_neg hz]
    rw [hun]
    dsimp only
    refine ⟨p6, hfull, rfl, ?_, ?_, ?_⟩
    · intro h1 h2
      unfold sub16
      omega
    · intro _
      exact ⟨rfl, hst⟩
    · intro h
      exact absurd (Nat.le_of_eq h) hz

/-- C5 as amended, at the input of the counterexample. -/
theorem usbFunctionWrite_uart_tx_backpressure_witness :
    Prog.txNearlyFull.prog_state = usbasp_h.PROG_STATE_UART_TX ∧
    Prog.txNearlyFull.uart.tx.Valid ∧
    uart_tx_freeplaces Prog.txNearlyFull.uart < 8 ∧
    ringBufferFull
      (usbFunctionWrite usbasp_h Prog.txNearlyFull (packet [1, 2, 3, 4, 5, 6, 7, 8]) 8).2.uart.tx
      ≠ 0 ∧
    (usbFunctionWrite usbasp_h Prog.txNearlyFull (packet [1, 2, 3, 4, 5, 6, 7, 8]) 8).2.prog_nbytes
      = 8 - 8 :=
  ⟨rfl, by decide, by decide,
    (usbFunctionWrite_uart_tx_backpressure usbasp_h Prog.txNearlyFull
      (packet [1, 2, 3, 4, 5, 6, 7, 8]) 8 rfl (by decide) rfl (by decide)).2.1,
    (usbFunctionWrite_uart_tx_backpressure usbasp_h Prog.txNearlyFull
      (packet [1, 2, 3, 4, 5, 6, 7, 8]) 8 rfl (by decide) rfl (by decide)).2.2.2.1
      (by decide) (by decide)⟩

/-- C4 at a state with three bytes waiting and a request for a full packet. -/
theorem usbFunctionRead_uart_rx_short_witness :
    Prog.rxThree.prog_state = usbasp_h.PROG_STATE_UART_RX ∧
    Prog.rxThree.uart.rx.Valid ∧
    queued Prog.rxThree.uart.rx Prog.rxThree.uart.mem = [94, 95, 96] ∧
    (usbFunctionRead usbasp_h Env.sample Prog.rxThree (fun _ => 0) 8).1 = 3 ∧
    (List.range 3).map (usbFunctionRead usbasp_h Env.sample Prog.rxThree (fun _ => 0) 8).2.2
      = [94, 95, 96] ∧
    (usbFunctionRead usbasp_h Env.sample Prog.rxThree (fun _ => 0) 8).2.1.prog_state
      = usbasp_h.PROG_STATE_IDLE :=
  ⟨rfl, by decide, by decide,
    (usbFunctionRead_uart_rx_short usbasp_h Env.sample Prog.rxThree (fun _ => 0) 8 rfl
      (by decide) (by decide) (by decide)).1,
    (usbFunctionRead_uart_rx_short usbasp_h Env.sample Prog.rxThree (fun _ => 0) 8 rfl
      (by decide) (by decide) (by decide)).2.1,
    (usbFunctionRead_uart_rx_short usbasp_h Env.sample Prog.rxThree (fun _ => 0) 8 rfl
      (by decide) (by decide) (by decide)).2.2.2.2.2⟩

/-! ## Lemmas on the ISP branch of `usbFunctionRead` -/

/-- The ISP read loop: it calls the transport once per byte at consecutive addresses, in
order, stores the answers in `data[0..len-1]` and advances the cursor by `len`. -/
theorem readLoop_spec (k : Consts) (env : Env) (s : Prog) (data : Nat → Nat)
    (ha : s.prog_address < 4294967296) (len : Nat) :
    ((List.range len).foldl (readByte k env) (s, data)).1
      = { s with
          prog_address := (s.prog_address + len) % 4294967296,
          calls := s.calls ++ (List.range len).map (fun i =>
            if s.prog_state = k.PROG_STATE_READFLASH then
              Call.ispReadFlash ((s.prog_address + i) % 4294967296)
            else Call.ispReadEEPROM ((s.prog_address + i) % 4294967296)) } ∧
    ((List.range len).foldl (readByte k env) (s, data)).2
      = (fun i => if i < len then
          (if s.prog_state = k.PROG_STATE_READFLASH then
            env.ispReadFlash ((s.prog_address + i) % 4294967296)
          else env.ispReadEEPROM ((s.prog_address + i) % 4294967296))
        else data i) := by
  induction len with
  | zero =>
    constructor
    · simp only [List.range_zero, List.foldl_nil, List.map_nil, List.append_nil, Nat.add_zero]
      rw [Nat.mod_eq_of_lt ha]
    · simp
  | succ len ih =>
    obtain ⟨i1, i2⟩ := ih
    rw [List.range_succ, List.foldl_append, List.map_append, List.foldl_cons, List.foldl_nil]
    have hpair : (List.range len).foldl (readByte k env) (s, data)
        = (((List.range len).foldl (readByte k env) (s, data)).1,
            ((List.range len).foldl (readByte k env) (s, data)).2) := rfl
    rw [hpair, i1, i2]
    have hmod : ((s.prog_address + len) % 4294967296 + 1) % 4294967296
        = (s.prog_address + (len + 1)) % 4294967296 := by omega
    by_cases hst : s.prog_state = k.PROG_STATE_READFLASH
    · constructor
      · simp only [readByte, Prog.call, if_pos hst, hmod, List.map_cons, List.map_nil,
          List.append_assoc]
      · simp only [readByte, Prog.call, if_pos hst]
        funext i
        by_cases hi : i = len
        · subst hi
          simp
        · simp only [Function.update, hi, dite_false]
          by_cases hlt : i < len
          · rw [if_pos hlt, if_pos (by omega)]
          · rw [if_neg hlt, if_neg (by omega)]
    · constructor
      · simp only [readByte, Prog.call, if_neg hst, hmod, List.map_cons, List.map_nil,
          List.append_assoc]
      · simp only [readByte, Prog.call, if_neg hst]
        funext i
        by_cases hi : i = len
        · subst hi
          simp
        · simp only [Function.update, hi, dite_false]
          by_cases hlt : i < len
          · rw [if_pos hlt, if_pos (by omega)]
          · rw [if_neg hlt, if_neg (by omega)]

/-- In the ReadFlash and ReadEeprom states `usbFunctionRead` runs the ISP loop, and a packet
shorter than 8 bytes ends the operation. -/
theorem usbFunctionRead_isp (k : Consts) (env : Env) (s : Prog) (data : Nat → Nat) (len : Nat)
    (hk : k.WellFormed)
    (hst : s.prog_state = k.PROG_STATE_READFLASH ∨ s.prog_state = k.PROG_STATE_READEEPROM) :
    usbFunctionRead k env s data len
      = (len,
          (if len < 8 then
            { ((List.range len).foldl (readByte k env) (s, data)).1 with
              prog_state := k.PROG_STATE_IDLE }
          else ((List.range len).foldl (readByte k env) (s, data)).1),
          ((List.range len).foldl (readByte k env) (s, data)).2) := by
  have n1 : s.prog_state ≠ k.PROG_STATE_UART_RX := by
    rcases hst with h | h
    · rw [h]; exact k.state_ne hk 2 7 (by decide)
    · rw [h]; exact k.state_ne hk 3 7 (by decide)
  have n2 : s.prog_state ≠ k.PROG_STATE_TPI_READ := by
    rcases hst with h | h
    · rw [h]; exact k.state_ne hk 2 5 (by decide)
    · rw [h]; exact k.state_ne hk 3 5 (by decide)
  unfold usbFunctionRead
  rw [if_neg (by tauto), if_neg n1, if_neg n2]

/-! ## C6: read-flash command followed by a short packet -/

/-- What holds of C6: with long-address mode not latched, for every command address
`a = data[2] + 256*data[3]` below `0x8000` and every packet length `len < 8`, the read-flash
command sets the cursor to `a`, and one `usbFunctionRead` of `len` bytes calls
`ispReadFlash(a), .., ispReadFlash(a+len-1)` in this order, stores the results in
`data[0..len-1]`, returns `len`, leaves the cursor at `a + len` and the operation Idle. -/
theorem readflash_short_packet_low_address (k : Consts) (env : Env) (s : Prog)
    (cmd buf : Nat → Nat) (len : Nat) (hk : k.WellFormed)
    (hnew : s.prog_address_newmode = 0) (hop : cmd 1 = k.USBASP_FUNC_READFLASH)
    (h2 : cmd 2 < 256) (h3 : cmd 3 < 128) (hlen : len < 8) :
    (usbFunctionSetup k env s cmd).1 = k.USB_NO_MSG ∧
    (usbFunctionSetup k env s cmd).2.prog_address = cmd 2 + 256 * cmd 3 ∧
    (usbFunctionRead k env (usbFunctionSetup k env s cmd).2 buf len).1 = len ∧
    (∀ i, i < len →
      (usbFunctionRead k env (usbFunctionSetup k env s cmd).2 buf len).2.2 i
        = env.ispReadFlash (cmd 2 + 256 * cmd 3 + i)) ∧
    (usbFunctionRead k env (usbFunctionSetup k env s cmd).2 buf len).2.1.calls
      = s.calls ++ (List.range len).map (fun i => Call.ispReadFlash (cmd 2 + 256 * cmd 3 + i)) ∧
    (usbFunctionRead k env (usbFunctionSetup k env s cmd).2 buf len).2.1.prog_address
      = cmd 2 + 256 * cmd 3 + len ∧
    (usbFunctionRead k env (usbFunctionSetup k env s cmd).2 buf len).2.1.prog_state
      = k.PROG_STATE_IDLE := by
  have hw : intToULong (word16 (cmd 3) (cmd 2)) = cmd 2 + 256 * cmd 3 := by
    rw [word16_eq _ _ (by omega) h2]
    unfold intToULong
    rw [if_pos (by omega)]
    omega
  have hs : usbFunctionSetup k env s cmd
      = (k.USB_NO_MSG,
          { s with prog_address := cmd 2 + 256 * cmd 3, prog_nbytes := word16 (cmd 7) (cmd 6),
                   prog_state := k.PROG_STATE_READFLASH }) := by
    rw [usbFunctionSetup_READFLASH k env s cmd hk hop]
    simp only [setup_READFLASH, if_pos hnew, hw]
  obtain ⟨r1, r2⟩ := readLoop_spec k env
    { s with prog_address := cmd 2 + 256 * cmd 3, prog_nbytes := word16 (cmd 7) (cmd 6),
             prog_state := k.PROG_STATE_READFLASH } buf
    (by show cmd 2 + 256 * cmd 3 < 4294967296; omega) len
  simp only [eq_self_iff_true, if_true] at r1 r2
  rw [hs]
  dsimp only
  rw [usbFunctionRead_isp k env _ buf len hk (Or.inl rfl), if_pos hlen, r1, r2]
  dsimp only
  refine ⟨rfl, rfl, rfl, ?_, ?_, ?_, rfl⟩
  · intro i hi
    rw [if_pos hi, Nat.mod_eq_of_lt (by omega)]
  · congr 1
    apply List.map_congr_left
    intro i hi
    have := List.mem_range.mp hi
    rw [Nat.mod_eq_of_lt (by omega)]
  · rw [Nat.mod_eq_of_lt (by omega)]

/-- The spec's scenario for C6: address `0x0010`, length 4, on the state after reset. -/
theorem readflash_short_packet_low_address_witness :
    usbasp_h.WellFormed ∧
    (usbFunctionRead usbasp_h Env.sample
      (usbFunctionSetup usbasp_h Env.sample (Prog.boot usbasp_h 96 352)
        (packet [0, 4, 0x10, 0x00, 0, 0, 4, 0])).2 (fun _ => 0) 4).2.1.calls
      = [Call.ispReadFlash 16, Call.ispReadFlash 17, Call.ispReadFlash 18,
          Call.ispReadFlash 19] ∧
    (usbFunctionRead usbasp_h Env.sample
      (usbFunctionSetup usbasp_h Env.sample (Prog.boot usbasp_h 96 352)
        (packet [0, 4, 0x10, 0x00, 0, 0, 4, 0])).2 (fun _ => 0) 4).2.1.prog_state
      = usbasp_h.PROG_STATE_IDLE :=
  ⟨by decide,
    (readflash_short_packet_low_address usbasp_h Env.sample (Prog.boot usbasp_h 96 352)
      (packet [0, 4, 0x10, 0x00, 0, 0, 4, 0]) (fun _ => 0) 4 (by decide) rfl rfl
      (by decide) (by decide) (by decide)).2.2.2.2.1,
    (readflash_short_packet_low_address usbasp_h Env.sample (Prog.boot usbasp_h 96 352)
      (packet [0, 4, 0x10, 0x00, 0, 0, 4, 0]) (fun _ => 0) 4 (by decide) rfl rfl
      (by decide) (by decide) (by decide)).2.2.2.2.2.2⟩

/-- C6, the code at the failing input.  After reset (long-address mode not latched) the
read-flash command with address bytes `data[2] = 0x00`, `data[3] = 0x80`, that is
`a = 0x8000`, leaves the cursor at `0xFFFF8000`: `(data[3] << 8) | data[2]` is a 16-bit `int`
with the sign bit set and its conversion to `unsigned long` sign-extends.  The following
`usbFunctionRead` of 4 bytes calls `ispReadFlash` at `0xFFFF8000 .. 0xFFFF8003`, not at
`0x8000 .. 0x8003`, and leaves the cursor at `0xFFFF8004`. -/
theorem readflash_address_0x8000_sign_extended :
    (Prog.boot usbasp_h 96 352).prog_address_newmode = 0 ∧
    (usbFunctionSetup usbasp_h Env.sample (Prog.boot usbasp_h 96 352)
      (packet [0, 4, 0x00, 0x80, 0, 0, 4, 0])).2.prog_address = 0xFFFF8000 ∧
    (usbFunctionRead usbasp_h Env.sample
      (usbFunctionSetup usbasp_h Env.sample (Prog.boot usbasp_h 96 352)
        (packet [0, 4, 0x00, 0x80, 0, 0, 4, 0])).2 (fun _ => 0) 4).2.1.calls
      = [Call.ispReadFlash 0xFFFF8000, Call.ispReadFlash 0xFFFF8001,
          Call.ispReadFlash 0xFFFF8002, Call.ispReadFlash 0xFFFF8003] ∧
    (usbFunctionRead usbasp_h Env.sample
      (usbFunctionSetup usbasp_h Env.sample (Prog.boot usbasp_h 96 352)
        (packet [0, 4, 0x00, 0x80, 0, 0, 4, 0])).2 (fun _ => 0) 4).2.1.prog_address
      = 0xFFFF8004 := by
  decide

/-! ## C7: set-long-address followed by read-EEPROM -/

/-- C7. For every 32-bit address `A` carried least significant byte first in `data[2..5]` of
a set-long-address command, a following read-EEPROM command, whatever its own address bytes
`data[2]`, `data[3]`, leaves the cursor equal to `A`, and a one-byte `usbFunctionRead` then
makes the single transport call `ispReadEEPROM(A)`, stores its result in `data[0]`, returns
1 and ends the operation. -/
theorem setlongaddress_then_readeeprom (k : Consts) (env : Env) (s : Prog)
    (cmd1 cmd2 buf : Nat → Nat) (hk : k.WellFormed)
    (hop1 : cmd1 1 = k.USBASP_FUNC_SETLONGADDRESS)
    (h2 : cmd1 2 < 256) (h3 : cmd1 3 < 256) (h4 : cmd1 4 < 256) (h5 : cmd1 5 < 256)
    (hop2 : cmd2 1 = k.USBASP_FUNC_READEEPROM) :
    (usbFunctionSetup k env (usbFunctionSetup k env s cmd1).2 cmd2).2.prog_address
      = cmd1 2 + 256 * cmd1 3 + 65536 * cmd1 4 + 16777216 * cmd1 5 ∧
    (usbFunctionSetup k env (usbFunctionSetup k env s cmd1).2 cmd2).2.prog_state
      = k.PROG_STATE_READEEPROM ∧
    (usbFunctionRead k env
      (usbFunctionSetup k env (usbFunctionSetup k env s cmd1).2 cmd2).2 buf 1).1 = 1 ∧
    (usbFunctionRead k env
      (usbFunctionSetup k env (usbFunctionSetup k env s cmd1).2 cmd2).2 buf 1).2.2 0
      = env.ispReadEEPROM (cmd1 2 + 256 * cmd1 3 + 65536 * cmd1 4 + 16777216 * cmd1 5) ∧
    (usbFunctionRead k env
      (usbFunctionSetup k env (usbFunctionSetup k env s cmd1).2 cmd2).2 buf 1).2.1.calls
      = s.calls
        ++ [Call.ispReadEEPROM (cmd1 2 + 256 * cmd1 3 + 65536 * cmd1 4 + 16777216 * cmd1 5)] ∧
    (usbFunctionRead k env
      (usbFunctionSetup k env (usbFunctionSetup k env s cmd1).2 cmd2).2 buf 1).2.1.prog_state
      = k.PROG_STATE_IDLE := by
  have hl : loadULong cmd1 2
      = cmd1 2 + 256 * cmd1 3 + 65536 * cmd1 4 + 16777216 * cmd1 5 := by
    show (cmd1 2 + 256 * cmd1 3 + 65536 * cmd1 4 + 16777216 * cmd1 5) % 4294967296 = _
    omega
  have hne : k.PROG_STATE_READEEPROM ≠ k.PROG_STATE_READFLASH := k.state_ne hk 3 2 (by decide)
  have hs1 : usbFunctionSetup k env s cmd1
      = (0, { s with prog_address_newmode := 1,
                     prog_address :=
                       cmd1 2 + 256 * cmd1 3 + 65536 * cmd1 4 + 16777216 * cmd1 5 }) := by
    rw [usbFunctionSetup_SETLONGADDRESS k env s cmd1 hk hop1]
    simp only [setup_SETLONGADDRESS, hl]
  have hs2 : usbFunctionSetup k env
      { s with prog_address_newmode := 1,
               prog_address := cmd1 2 + 256 * cmd1 3 + 65536 * cmd1 4 + 16777216 * cmd1 5 } cmd2
      = (k.USB_NO_MSG,
          { s with prog_address_newmode := 1,
                   prog_address := cmd1 2 + 256 * cmd1 3 + 65536 * cmd1 4 + 16777216 * cmd1 5,
                   prog_nbytes := word16 (cmd2 7) (cmd2 6),
                   prog_state := k.PROG_STATE_READEEPROM }) := by
    rw [usbFunctionSetup_READEEPROM k env _ cmd2 hk hop2]
    simp only [setup_READEEPROM, if_neg (show (1 : Nat) ≠ 0 by decide)]
  obtain ⟨r1, r2⟩ := readLoop_spec k env
    { s with prog_address_newmode := 1,
             prog_address := cmd1 2 + 256 * cmd1 3 + 65536 * cmd1 4 + 16777216 * cmd1 5,
             prog_nbytes := word16 (cmd2 7) (cmd2 6),
             prog_state := k.PROG_STATE_READEEPROM } buf
    (by show cmd1 2 + 256 * cmd1 3 + 65536 * cmd1 4 + 16777216 * cmd1 5 < 4294967296; omega) 1
  simp only [if_neg hne] at r1 r2
  rw [hs1]
  dsimp only
  rw [hs2]
  dsimp only
  rw [usbFunctionRead_isp k env _ buf 1 hk (Or.inr rfl),
    if_pos (show (1 : Nat) < 8 by decide), r1, r2]
  dsimp only
  refine ⟨rfl, rfl, rfl, ?_, ?_, rfl⟩
  · rw [if_pos (show (0 : Nat) < 1 by decide), Nat.add_zero, Nat.mod_eq_of_lt (by omega)]
  · rw [show List.range 1 = [0] from rfl, List.map_cons, List.map_nil, Nat.add_zero,
      Nat.mod_eq_of_lt (by omega)]

/-- The spec's scenario for C7: `A = 0x00020000`, then a read-EEPROM command whose own
address bytes say `0x1234`. -/
theorem setlongaddress_then_readeeprom_witness :
    usbasp_h.WellFormed ∧
    (usbFunctionSetup usbasp_h Env.sample
      (usbFunctionSetup usbasp_h Env.sample (Prog.boot usbasp_h 96 352)
        (packet [0, 9, 0x00, 0x00, 0x02, 0x00, 0, 0])).2
      (packet [0, 7, 0x34, 0x12, 0, 0, 1, 0])).2.prog_address = 0x00020000 ∧
    (usbFunctionRead usbasp_h Env.sample
      (usbFunctionSetup usbasp_h Env.sample
        (usbFunctionSetup usbasp_h Env.sample (Prog.boot usbasp_h 96 352)
          (packet [0, 9, 0x00, 0x00, 0x02, 0x00, 0, 0])).2
        (packet [0, 7, 0x34, 0x12, 0, 0, 1, 0])).2 (fun _ => 0) 1).2.1.calls
      = [Call.ispReadEEPROM 0x00020000] :=
  ⟨by decide,
    (setlongaddress_then_readeeprom usbasp_h Env.sample (Prog.boot usbasp_h 96 352)
      (packet [0, 9, 0x00, 0x00, 0x02, 0x00, 0, 0]) (packet [0, 7, 0x34, 0x12, 0, 0, 1, 0])
      (fun _ => 0) (by decide) rfl (by decide) (by decide) (by decide) (by decide) rfl).1,
    (setlongaddress_then_readeeprom usbasp_h Env.sample (Prog.boot usbasp_h 96 352)
      (packet [0, 9, 0x00, 0x00, 0x02, 0x00, 0, 0]) (packet [0, 7, 0x34, 0x12, 0, 0, 1, 0])
      (fun _ => 0) (by decide) rfl (by decide) (by decide) (by decide) (by decide)
      rfl).2.2.2.2.1⟩

/-! ## C3: page flushes of a write-flash command -/

set_option maxRecDepth 100000 in
/-- C3, the code at two failing inputs, both on the state after reset and with the
first-block and last-block flags set (`data[5] & 0x0F = 3`).

Page size 257 (`data[4] = 1`, high nibble of `data[5]` = 1), one byte: `257*0 + 1`, so
`k = 0` and `r = 1` and one forced flush is due.  The 8-bit `prog_pagecounter` starts at
`257 mod 256 = 1`, reaches 0 on the first byte and triggers a page flush during the transfer;
then the forced flush follows: two `ispFlushPage` calls.

Page size 256 (`data[4] = 0`, high nibble 1), 256 bytes in 32 packets of 8: `256*1 + 0`, so
`k = 1`, `r = 0` and no forced flush is due.  After the flush of the full page the counter is
reloaded with `256 mod 256 = 0`, which differs from `prog_pagesize = 256`, so the forced flush
is issued as well: two `ispFlushPage` calls. -/
theorem writeflash_pagesize_above_255_flushes :
    (usbFunctionSetup usbasp_h Env.sample (Prog.boot usbasp_h 96 352)
      (packet [0, 6, 0, 0, 1, 0x13, 1, 0])).1 = usbasp_h.USB_NO_MSG ∧
    (usbFunctionSetup usbasp_h Env.sample (Prog.boot usbasp_h 96 352)
      (packet [0, 6, 0, 0, 1, 0x13, 1, 0])).2.prog_pagesize = 257 ∧
    (usbFunctionSetup usbasp_h Env.sample (Prog.boot usbasp_h 96 352)
      (packet [0, 6, 0, 0, 1, 0x13, 1, 0])).2.prog_nbytes = 257 * 0 + 1 ∧
    (writePackets usbasp_h
      (usbFunctionSetup usbasp_h Env.sample (Prog.boot usbasp_h 96 352)
        (packet [0, 6, 0, 0, 1, 0x13, 1, 0])).2 [(packet [42], 1)]).calls
      = [Call.ispWriteFlash 0 42 0, Call.ispFlushPage 0 42, Call.ispFlushPage 0 42] ∧
    flushCount (writePackets usbasp_h
      (usbFunctionSetup usbasp_h Env.sample (Prog.boot usbasp_h 96 352)
        (packet [0, 6, 0, 0, 1, 0x13, 1, 0])).2 [(packet [42], 1)]).calls = 2 ∧
    (usbFunctionSetup usbasp_h Env.sample (Prog.boot usbasp_h 96 352)
      (packet [0, 6, 0, 0, 0, 0x13, 0, 1])).2.prog_pagesize = 256 ∧
    (usbFunctionSetup usbasp_h Env.sample (Prog.boot usbasp_h 96 352)
      (packet [0, 6, 0, 0, 0, 0x13, 0, 1])).2.prog_nbytes = 256 * 1 + 0 ∧
    (packetsOf 42 32 256).length = 32 ∧
    flushCount (writePackets usbasp_h
      (usbFunctionSetup usbasp_h Env.sample (Prog.boot usbasp_h 96 352)
        (packet [0, 6, 0, 0, 0, 0x13, 0, 1])).2 (packetsOf 42 32 256)).calls = 2 := by
  decide

/-! ## Page flushes for page sizes that fit the 8-bit page counter -/

theorem flushCount_append (l1 l2 : List Call) :
    flushCount (l1 ++ l2) = flushCount l1 + flushCount l2 := by
  induction l1 with
  | nil => simp [flushCount]
  | cons c l ih =>
    rw [List.cons_append]
    cases c <;> simp only [flushCount] <;> rw [ih]
    omega

/-- One byte of a paged write-flash transfer keeps the bookkeeping, or ends the transfer. -/
theorem writeByte_flash (k : Consts) (P n base j : Nat) (s : Prog) (data : Nat → Nat)
    (rv i : Nat) (hP1 : 1 ≤ P) (hP : P ≤ 255) (hn : n < 65536)
    (h : FlashInv k P n base j s) :
    (j + 1 < n → FlashInv k P n base (j + 1) (writeByte k data (s, rv) i).1) ∧
    (j + 1 = n → FlashDone k P n base (writeByte k data (s, rv) i).1) := by
  obtain ⟨hst, hps, hfl, hnb, hj, q, hq, hjq, hc1, hcP⟩ := h
  have hps0 : s.prog_pagesize ≠ 0 := by omega
  have hdec8 : dec8 s.prog_pagecounter = s.prog_pagecounter - 1 := by unfold dec8; omega
  have hdec16 : dec16 (n - j) = n - j - 1 := by unfold dec16; omega
  have hPmod : P % 256 = P := by omega
  by_cases hc : s.prog_pagecounter = 1
  · -- the page is full: flush and reload the counter
    have hstore : storeByte k s (data i)
        = { s with calls := s.calls ++ [Call.ispWriteFlash s.prog_address (data i) 0]
                      ++ [Call.ispFlushPage s.prog_address (data i)],
                   prog_pagecounter := P } := by
      have hd0 : dec8 s.prog_pagecounter = 0 := by rw [hdec8, hc]
      unfold storeByte
      rw [if_pos hst, if_neg hps0]
      simp only [Prog.call, hd0, hps, hPmod, if_true]
    have hcount : flushCount (s.calls ++ [Call.ispWriteFlash s.prog_address (data i) 0]
        ++ [Call.ispFlushPage s.prog_address (data i)]) = base + (q + 1) := by
      simp only [flushCount_append, flushCount, hq]
      omega
    have hmul : (q + 1) * P = q * P + P := Nat.succ_mul q P
    by_cases hlast : j + 1 = n
    · have hz : n - j - 1 = 0 := by omega
      constructor
      · intro hlt; omega
      · intro _
        unfold writeByte countByte
        rw [hstore]
        simp only [hnb, hdec16, hz, if_true, hps, ne_eq, not_true_eq_false, and_false, if_false]
        unfold FlashDone
        dsimp only
        exact ⟨rfl, q + 1, 0, by omega, by omega, by rw [hcount]; simp⟩
    · have hz : n - j - 1 ≠ 0 := by omega
      constructor
      · intro _
        unfold writeByte countByte
        rw [hstore]
        simp only [hnb, hdec16, hz, if_false]
        unfold FlashInv
        dsimp only
        exact ⟨hst, hps, hfl, by omega, by omega, q + 1, hcount, by omega, hP1, Nat.le_refl _⟩
      · intro h'; exact absurd h' hlast
  · -- the page is not full yet
    have hcne : s.prog_pagecounter - 1 ≠ 0 := by omega
    have hstore : storeByte k s (data i)
        = { s with calls := s.calls ++ [Call.ispWriteFlash s.prog_address (data i) 0],
                   prog_pagecounter := s.prog_pagecounter - 1 } := by
      unfold storeByte
      rw [if_pos hst, if_neg hps0]
      simp only [Prog.call, hdec8, hcne, if_false]
    have hcount : flushCount (s.calls ++ [Call.ispWriteFlash s.prog_address (data i) 0])
        = base + q := by
      simp only [flushCount_append, flushCount, hq]
      omega
    by_cases hlast : j + 1 = n
    · have hz : n - j - 1 = 0 := by omega
      have hne : s.prog_pagecounter - 1 ≠ P := by omega
      constructor
      · intro hlt; omega
      · intro _
        unfold writeByte countByte
        rw [hstore]
        simp only [hnb, hdec16, hz, if_true, hps, ne_eq, hfl, not_false_eq_true, hne, and_self,
          Prog.call]
        unfold FlashDone
        dsimp only
        refine ⟨rfl, q, P - (s.prog_pagecounter - 1), by omega, by omega, ?_⟩
        rw [flushCount_append, hcount, if_pos (by omega)]
        rfl
    · have hz : n - j - 1 ≠ 0 := by omega
      constructor
      · intro _
        unfold writeByte countByte
        rw [hstore]
        simp only [hnb, hdec16, hz, if_false]
        unfold FlashInv
        dsimp only
        exact ⟨hst, hps, hfl, by omega, by omega, q, hcount, by omega, by omega, by omega⟩
      · intro h'; exact absurd h' hlast

/-- The bytes of one packet. -/
theorem writeLoop_flash (k : Consts) (P n base : Nat) (data : Nat → Nat)
    (hP1 : 1 ≤ P) (hP : P ≤ 255) (hn : n < 65536) (len : Nat) :
    ∀ (j : Nat) (s : Prog), FlashInv k P n base j s →
      (j + len < n →
        FlashInv k P n base (j + len) ((List.range len).foldl (writeByte k data) (s, 0)).1) ∧
      (j + len = n →
        FlashDone k P n base ((List.range len).foldl (writeByte k data) (s, 0)).1) := by
  induction len with
  | zero =>
    intro j s h
    constructor
    · intro _; exact h
    · intro he
      obtain ⟨_, _, _, _, hj, _⟩ := h
      omega
  | succ len ih =>
    intro j s h
    rw [List.range_succ, List.foldl_append, List.foldl_cons, List.foldl_nil]
    have hj : j < n := h.2.2.2.2.1
    constructor
    · intro hlt
      have h1 := (ih j s h).1 (by omega)
      exact (writeByte_flash k P n base (j + len) _ data _ len hP1 hP hn h1).1 (by omega)
    · intro he
      have h1 := (ih j s h).1 (by omega)
      exact (writeByte_flash k P n base (j + len) _ data _ len hP1 hP hn h1).2 (by omega)

theorem usbFunctionWrite_flash (k : Consts) (s : Prog) (data : Nat → Nat) (len : Nat)
    (hk : k.WellFormed) (hst : s.prog_state = k.PROG_STATE_WRITEFLASH) :
    (usbFunctionWrite k s data len).2 = ((List.range len).foldl (writeByte k data) (s, 0)).1 := by
  have n1 : s.prog_state ≠ k.PROG_STATE_UART_TX := by
    rw [hst]; exact k.state_ne hk 1 8 (by decide)
  have n2 : s.prog_state ≠ k.PROG_STATE_TPI_WRITE := by
    rw [hst]; exact k.state_ne hk 1 6 (by decide)
  unfold usbFunctionWrite
  rw [if_neg n1, if_neg (by tauto), if_neg n2]

theorem usbFunctionWrite_idle_zero (k : Consts) (s : Prog) (data : Nat → Nat)
    (hk : k.WellFormed) (hst : s.prog_state = k.PROG_STATE_IDLE) :
    (usbFunctionWrite k s data 0).2 = s := by
  have n1 : s.prog_state ≠ k.PROG_STATE_UART_TX := by
    rw [hst]; exact k.state_ne hk 0 8 (by decide)
  have n2 : s.prog_state ≠ k.PROG_STATE_WRITEFLASH := by
    rw [hst]; exact k.state_ne hk 0 1 (by decide)
  have n3 : s.prog_state ≠ k.PROG_STATE_WRITEEEPROM := by
    rw [hst]; exact k.state_ne hk 0 4 (by decide)
  have n4 : s.prog_state ≠ k.PROG_STATE_TPI_WRITE := by
    rw [hst]; exact k.state_ne hk 0 6 (by decide)
  unfold usbFunctionWrite
  rw [if_neg n1, if_pos ⟨n2, n3, n4⟩]

theorem writePackets_idle_zero (k : Consts) (hk : k.WellFormed)
    (ps : List ((Nat → Nat) × Nat)) :
    ∀ s : Prog, s.prog_state = k.PROG_STATE_IDLE → (ps.map (fun p => p.2)).sum = 0 →
      writePackets k s ps = s := by
  induction ps with
  | nil => intro s _ _; rfl
  | cons p ps ih =>
    intro s hst hsum
    simp only [List.map_cons, List.sum_cons] at hsum
    have hp : p.2 = 0 := by omega
    simp only [writePackets, hp, usbFunctionWrite_idle_zero k s p.1 hk hst]
    exact ih s hst (by omega)

/-- The packets of a paged write-flash transfer. -/
theorem writePackets_flash (k : Consts) (P n base : Nat) (hk : k.WellFormed)
    (hP1 : 1 ≤ P) (hP : P ≤ 255) (hn : n < 65536) (ps : List ((Nat → Nat) × Nat)) :
    ∀ (j : Nat) (s : Prog), FlashInv k P n base j s → j + (ps.map (fun p => p.2)).sum = n →
      FlashDone k P n base (writePackets k s ps) := by
  induction ps with
  | nil =>
    intro j s h hsum
    obtain ⟨_, _, _, _, hj, _⟩ := h
    simp at hsum
    omega
  | cons p ps ih =>
    intro j s h hsum
    simp only [List.map_cons, List.sum_cons] at hsum
    simp only [writePackets]
    rw [usbFunctionWrite_flash k s p.1 p.2 hk h.1]
    by_cases hlt : j + p.2 < n
    · exact ih (j + p.2) _ ((writeLoop_flash k P n base p.1 hP1 hP hn p.2 j s h).1 hlt)
        (by omega)
    · have hd := (writeLoop_flash k P n base p.1 hP1 hP hn p.2 j s h).2 (by omega)
      rw [writePackets_idle_zero k hk ps _ hd.1 (by omega)]
      exact hd

theorem and_0xF0_of_lt_16 (d : Nat) (h : d < 16) : d &&& 0xF0 = 0 := by
  interval_cases d <;> rfl

/-- What holds of C3: for every page size `P` from 1 to 255 (the high nibble of `data[5]`
is 0), a write-flash command with the first-block and the last-block flag set and a length
`n = P*q + r`, `r < P`, `n ≥ 1`, whose bytes arrive in packets of lengths summing to `n`,
adds exactly `q` `ispFlushPage` calls to the trace, plus one if and only if `r > 0`, and
leaves the operation Idle. -/
theorem writeflash_flushes_small_pages (k : Consts) (env : Env) (s : Prog) (cmd : Nat → Nat)
    (ps : List ((Nat → Nat) × Nat)) (P n q r : Nat) (hk : k.WellFormed)
    (hop : cmd 1 = k.USBASP_FUNC_WRITEFLASH)
    (h4 : cmd 4 = P) (hP1 : 1 ≤ P) (hP : P ≤ 255) (h5 : cmd 5 < 16)
    (hfirst : ((cmd 5 &&& 0x0F) &&& k.PROG_BLOCKFLAG_FIRST) ≠ 0)
    (hlast : ((cmd 5 &&& 0x0F) &&& k.PROG_BLOCKFLAG_LAST) ≠ 0)
    (h6 : cmd 6 < 256) (h7 : cmd 7 < 256) (hn : n = cmd 6 + 256 * cmd 7) (hn1 : 1 ≤ n)
    (hsum : (ps.map (fun p => p.2)).sum = n) (hqr : n = P * q + r) (hr : r < P) :
    flushCount (writePackets k (usbFunctionSetup k env s cmd).2 ps).calls
      = flushCount s.calls + q + (if 0 < r then 1 else 0) ∧
    (writePackets k (usbFunctionSetup k env s cmd).2 ps).prog_state = k.PROG_STATE_IDLE := by
  have hsize : (P + ((cmd 5 &&& 0xF0) <<< 4) % 65536) % 65536 = P := by
    rw [and_0xF0_of_lt_16 _ h5]
    simp only [Nat.zero_shiftLeft, Nat.zero_mod, Nat.add_zero]
    omega
  have hw : word16 (cmd 7) (cmd 6) = n := by
    rw [word16_eq _ _ h7 h6]; omega
  have hinv : FlashInv k P n (flushCount s.calls) 0 (usbFunctionSetup k env s cmd).2 := by
    rw [usbFunctionSetup_WRITEFLASH k env s cmd hk hop]
    simp only [setup_WRITEFLASH, h4, hsize, hw, ne_eq, hfirst, not_false_eq_true, if_true]
    refine ⟨rfl, rfl, hlast, rfl, by omega, 0, ?_, ?_, ?_, ?_⟩
    · split <;> rfl
    · show 0 * P + (P - P % 256) = 0
      omega
    · show 1 ≤ P % 256
      omega
    · show P % 256 ≤ P
      omega
  obtain ⟨hidle, q', r', hqr', hr', hcount⟩ :=
    writePackets_flash k P n (flushCount s.calls) hk hP1 hP (by omega) ps 0 _ hinv (by omega)
  have hu := (Nat.div_mod_unique (show 0 < P by omega)).mpr
    ⟨show r + P * q = n by omega, hr⟩
  have hu' := (Nat.div_mod_unique (show 0 < P by omega)).mpr
    ⟨show r' + P * q' = n by rw [Nat.mul_comm]; omega, hr'⟩
  have e1 : q' = q := by omega
  have e2 : r' = r := by omega
  rw [hcount, e1, e2]
  exact ⟨rfl, hidle⟩

/-- A page size of 4 and 10 bytes in packets of 8 and 2 bytes: two full pages and a rest. -/
theorem writeflash_flushes_small_pages_witness :
    usbasp_h.WellFormed ∧
    flushCount (writePackets usbasp_h
      (usbFunctionSetup usbasp_h Env.sample (Prog.boot usbasp_h 96 352)
        (packet [0, 6, 0, 0, 4, 0x03, 10, 0])).2
      [(fun _ => 42, 8), (fun _ => 42, 2)]).calls = 0 + 2 + 1 :=
  ⟨by decide,
    (writeflash_flushes_small_pages usbasp_h Env.sample (Prog.boot usbasp_h 96 352)
      (packet [0, 6, 0, 0, 4, 0x03, 10, 0]) [(fun _ => 42, 8), (fun _ => 42, 2)] 4 10 2 2
      (by decide) rfl rfl (by decide) (by decide) (by decide) (by decide) (by decide)
      (by decide) (by decide) rfl (by decide) rfl rfl (by decide)).1⟩

/-! ## C11: the free-slot count -/

/-- C11. For every state of the 256-byte TX ring with both cursors inside the backing
array, `uart_tx_freeplaces()` returns `(read - write) mod capacity - 1` brought into
`0 .. capacity-1`, that is 255 minus the number of queued bytes: 255 for an empty ring, and
0 exactly when the ring is full, which is exactly when `uart_putc` fails. -/
theorem uart_tx_freeplaces_spec (k : Consts) (u : Uart) (hv : u.tx.Valid)
    (hcap : u.tx.end_ = u.tx.start + 256) :
    (uart_tx_freeplaces u : Int)
      = ((((u.tx.read : Int) - (u.tx.write : Int)) % (u.tx.capacity : Int)) - 1)
          % (u.tx.capacity : Int) ∧
    uart_tx_freeplaces u = 255 - (queued u.tx u.mem).length ∧
    (queued u.tx u.mem).length ≤ 255 ∧
    (ringBufferEmpty u.tx ≠ 0 → uart_tx_freeplaces u = 255) ∧
    (uart_tx_freeplaces u = 0 ↔ ringBufferFull u.tx ≠ 0) ∧
    (uart_tx_freeplaces u = 0 ↔ ∀ c, (uart_putc k u c).1 = 0) := by
  have hadd := uart_tx_freeplaces_add_length u hv hcap
  have hc : u.tx.capacity = 256 := by unfold ringBuffer.capacity; omega
  have hfull := ringBufferFull_iff_length u.tx u.mem hv
  rw [hc] at hfull
  refine ⟨?_, by omega, by omega, ?_, ?_, ?_⟩
  · obtain ⟨h1, h2, h3, h4⟩ := hv
    rw [hc]
    unfold uart_tx_freeplaces RINGBUFFER_RX_SIZE
    dsimp only
    by_cases hle : (u.tx.read : Int) - (u.tx.write : Int) ≤ 0
    · rw [if_pos hle]
      omega
    · rw [if_neg hle]
      omega
  · intro he
    have := queued_of_empty u.tx u.mem he
    rw [this] at hadd
    simpa using hadd
  · rw [hfull]
    omega
  · constructor
    · intro h0 c
      rw [uart_putc_full k u c (hfull.mpr (by omega))]
    · intro hall
      by_contra hne
      have hnf : ringBufferFull u.tx = 0 := by
        by_contra hf
        exact hne (by have := hfull.mp hf; omega)
      have := hall 0
      rw [uart_putc_not_full k u 0 hnf] at this
      exact absurd this (Nat.succ_ne_zero 0)

/-- C11 at the start state (empty ring) and at a state with two bytes queued. -/
theorem uart_tx_freeplaces_spec_witness :
    (Uart.boot 96 352).tx.Valid ∧ Uart.busy.tx.Valid ∧
    uart_tx_freeplaces (Uart.boot 96 352) = 255 ∧
    uart_tx_freeplaces Uart.busy = 255 - 2 :=
  ⟨by decide, by decide,
    (uart_tx_freeplaces_spec usbasp_h (Uart.boot 96 352) (by decide) rfl).2.2.2.1 (by decide),
    (uart_tx_freeplaces_spec usbasp_h Uart.busy (by decide) rfl).2.1⟩

/-! ## C12: the capability query -/

/-- C12. For every dispatcher and UART state, `usbFunctionSetup` on the capability-query
opcode returns length 4 and leaves `[USBASP_CAP_0_TPI | USBASP_CAP_6_UART, 0, 0, 0]` in the
first four reply bytes (the capability bits being byte values); the reply does not depend on
the state, and nothing but the reply buffer changes, so the operation, the cursor, the
remaining count and the long-address latch are as before. -/
theorem getcapabilities_reply (k : Consts) (env : Env) (s : Prog) (data : Nat → Nat)
    (hk : k.WellFormed) (hop : data 1 = k.USBASP_FUNC_GETCAPABILITIES)
    (hc0 : k.USBASP_CAP_0_TPI < 256) (hc6 : k.USBASP_CAP_6_UART < 256) :
    (usbFunctionSetup k env s data).1 = 4 ∧
    (List.range 4).map (usbFunctionSetup k env s data).2.replyBuffer
      = [k.USBASP_CAP_0_TPI ||| k.USBASP_CAP_6_UART, 0, 0, 0] ∧
    (usbFunctionSetup k env s data).2
      = { s with replyBuffer := (usbFunctionSetup k env s data).2.replyBuffer } ∧
    (usbFunctionSetup k env s data).2.prog_state = s.prog_state ∧
    (usbFunctionSetup k env s data).2.prog_address = s.prog_address ∧
    (usbFunctionSetup k env s data).2.prog_nbytes = s.prog_nbytes ∧
    (usbFunctionSetup k env s data).2.prog_address_newmode = s.prog_address_newmode := by
  have hlt : k.USBASP_CAP_0_TPI ||| k.USBASP_CAP_6_UART < 2 ^ 8 :=
    Nat.or_lt_two_pow (by simpa using hc0) (by simpa using hc6)
  have hmod : (k.USBASP_CAP_0_TPI ||| k.USBASP_CAP_6_UART) % 256
      = k.USBASP_CAP_0_TPI ||| k.USBASP_CAP_6_UART := Nat.mod_eq_of_lt (by simpa using hlt)
  rw [usbFunctionSetup_GETCAPABILITIES k env s data hk hop]
  unfold setup_GETCAPABILITIES
  dsimp only
  refine ⟨rfl, ?_, rfl, rfl, rfl, rfl, rfl⟩
  rw [hmod]
  rfl

/-- C12 at the state after reset and at a state in the middle of a UART transfer: the same
reply. -/
theorem getcapabilities_reply_witness :
    usbasp_h.WellFormed ∧
    (List.range 4).map
      (usbFunctionSetup usbasp_h Env.sample (Prog.boot usbasp_h 96 352)
        (packet [0, 127, 0, 0, 0, 0, 0, 0])).2.replyBuffer = [65, 0, 0, 0] ∧
    (List.range 4).map
      (usbFunctionSetup usbasp_h Env.sample Prog.txNearlyFull
        (packet [0, 127, 9, 9, 9, 9, 9, 9])).2.replyBuffer = [65, 0, 0, 0] ∧
    (usbFunctionSetup usbasp_h Env.sample Prog.txNearlyFull
        (packet [0, 127, 9, 9, 9, 9, 9, 9])).2.prog_state = usbasp_h.PROG_STATE_UART_TX :=
  ⟨by decide,
    (getcapabilities_reply usbasp_h Env.sample (Prog.boot usbasp_h 96 352)
      (packet [0, 127, 0, 0, 0, 0, 0, 0]) (by decide) rfl (by decide) (by decide)).2.1,
    (getcapabilities_reply usbasp_h Env.sample Prog.txNearlyFull
      (packet [0, 127, 9, 9, 9, 9, 9, 9]) (by decide) rfl (by decide) (by decide)).2.1,
    (getcapabilities_reply usbasp_h Env.sample Prog.txNearlyFull
      (packet [0, 127, 9, 9, 9, 9, 9, 9]) (by decide) rfl (by decide) (by decide)).2.2.2.1⟩

/-! ## C13: the free-space reply and its decoding on the host -/

theorem uart_tx_freeplaces_lt (u : Uart) : uart_tx_freeplaces u < 65536 := by
  unfold uart_tx_freeplaces
  dsimp only
  omega

/-- The host decoding undoes the split of a 16-bit count into high and low byte. -/
theorem usbasp_uart_write_avail_split (v : Nat) (hv : v < 65536) :
    usbasp_uart_write_avail
      (fun i => if i = 0 then (v >>> 8) % 256 else (v &&& 0xFF) % 256) = v := by
  unfold usbasp_uart_write_avail
  simp only [if_true, if_neg (show (1 : Nat) ≠ 0 by decide), and_0xFF,
    Nat.shiftRight_eq_div_pow]
  rw [shiftLeft8_or _ _ (by omega)]
  omega

/-- C13. `usbFunctionSetup` on the UART-free-space opcode returns length 2 with
`replyBuffer[0]` the high byte and `replyBuffer[1]` the low byte of `uart_tx_freeplaces()`,
and changes nothing but the reply buffer; the decoding `(tmp[0] << 8) | tmp[1]` of
`usbasp_uart_write` applied to the reply gives back that count, as it does for the two bytes
of every value from 0 to 65535. -/
theorem uart_tx_free_reply (k : Consts) (env : Env) (s : Prog) (data : Nat → Nat)
    (hk : k.WellFormed) (hop : data 1 = k.USBASP_FUNC_UART_TX_FREE) :
    (usbFunctionSetup k env s data).1 = 2 ∧
    (usbFunctionSetup k env s data).2.replyBuffer 0 = uart_tx_freeplaces s.uart / 256 ∧
    (usbFunctionSetup k env s data).2.replyBuffer 1 = uart_tx_freeplaces s.uart % 256 ∧
    (usbFunctionSetup k env s data).2.replyBuffer 0 < 256 ∧
    usbasp_uart_write_avail (usbFunctionSetup k env s data).2.replyBuffer
      = uart_tx_freeplaces s.uart ∧
    (usbFunctionSetup k env s data).2
      = { s with replyBuffer := (usbFunctionSetup k env s data).2.replyBuffer } ∧
    (∀ v, v < 65536 →
      usbasp_uart_write_avail
        (fun i => if i = 0 then (v >>> 8) % 256 else (v &&& 0xFF) % 256) = v) := by
  have hlt := uart_tx_freeplaces_lt s.uart
  rw [usbFunctionSetup_UART_TX_FREE k env s data hk hop]
  unfold setup_UART_TX_FREE
  dsimp only
  have h0 : Function.update
      (Function.update s.replyBuffer 0 ((uart_tx_freeplaces s.uart >>> 8) % 256)) 1
      ((uart_tx_freeplaces s.uart &&& 0xFF) % 256) 0 = uart_tx_freeplaces s.uart / 256 := by
    simp only [Function.update, and_0xFF, Nat.shiftRight_eq_div_pow]
    simp
    omega
  have h1 : Function.update
      (Function.update s.replyBuffer 0 ((uart_tx_freeplaces s.uart >>> 8) % 256)) 1
      ((uart_tx_freeplaces s.uart &&& 0xFF) % 256) 1 = uart_tx_freeplaces s.uart % 256 := by
    simp only [Function.update, and_0xFF]
    simp
  refine ⟨rfl, h0, h1, by rw [h0]; omega, ?_, rfl, usbasp_uart_write_avail_split⟩
  unfold usbasp_uart_write_avail
  rw [h0, h1, shiftLeft8_or _ _ (by omega)]
  omega

/-- C13 at a state with 2 free TX slots. -/
theorem uart_tx_free_reply_witness :
    usbasp_h.WellFormed ∧
    (usbFunctionSetup usbasp_h Env.sample Prog.txNearlyFull
      (packet [0, 66, 0, 0, 0, 0, 0, 0])).1 = 2 ∧
    usbasp_uart_write_avail
      (usbFunctionSetup usbasp_h Env.sample Prog.txNearlyFull
        (packet [0, 66, 0, 0, 0, 0, 0, 0])).2.replyBuffer
      = uart_tx_freeplaces Prog.txNearlyFull.uart ∧
    uart_tx_freeplaces Prog.txNearlyFull.uart = 2 :=
  ⟨by decide,
    (uart_tx_free_reply usbasp_h Env.sample Prog.txNearlyFull
      (packet [0, 66, 0, 0, 0, 0, 0, 0]) (by decide) rfl).1,
    (uart_tx_free_reply usbasp_h Env.sample Prog.txNearlyFull
      (packet [0, 66, 0, 0, 0, 0, 0, 0]) (by decide) rfl).2.2.2.2.1,
    by decide⟩

/-! ## C14: a packet callback in the wrong state -/

/-- C14. When `prog_state` is none of ReadFlash, ReadEeprom, ReadTpi, UartRx,
`usbFunctionRead` returns `0xff` and leaves the packet buffer and the whole state, trace of
transport calls included, as they were; when `prog_state` is none of WriteFlash,
WriteEeprom, WriteTpi, UartTx, `usbFunctionWrite` returns `0xff` and leaves the whole state
as it was.  With pairwise different state constants, Idle is such a state for both. -/
theorem packet_callback_wrong_state (k : Consts) (env : Env) (s : Prog) (data : Nat → Nat)
    (len : Nat) (hk : k.WellFormed) :
    ((s.prog_state ≠ k.PROG_STATE_READFLASH ∧ s.prog_state ≠ k.PROG_STATE_READEEPROM ∧
        s.prog_state ≠ k.PROG_STATE_TPI_READ ∧ s.prog_state ≠ k.PROG_STATE_UART_RX) →
      usbFunctionRead k env s data len = (0xff, s, data)) ∧
    ((s.prog_state ≠ k.PROG_STATE_WRITEFLASH ∧ s.prog_state ≠ k.PROG_STATE_WRITEEEPROM ∧
        s.prog_state ≠ k.PROG_STATE_TPI_WRITE ∧ s.prog_state ≠ k.PROG_STATE_UART_TX) →
      usbFunctionWrite k s data len = (0xff, s)) ∧
    (s.prog_state = k.PROG_STATE_IDLE →
      usbFunctionRead k env s data len = (0xff, s, data) ∧
      usbFunctionWrite k s data len = (0xff, s)) := by
  have hr : (s.prog_state ≠ k.PROG_STATE_READFLASH ∧ s.prog_state ≠ k.PROG_STATE_READEEPROM ∧
        s.prog_state ≠ k.PROG_STATE_TPI_READ ∧ s.prog_state ≠ k.PROG_STATE_UART_RX) →
      usbFunctionRead k env s data len = (0xff, s, data) := by
    intro h
    unfold usbFunctionRead
    rw [if_pos h]
  have hw : (s.prog_state ≠ k.PROG_STATE_WRITEFLASH ∧ s.prog_state ≠ k.PROG_STATE_WRITEEEPROM ∧
        s.prog_state ≠ k.PROG_STATE_TPI_WRITE ∧ s.prog_state ≠ k.PROG_STATE_UART_TX) →
      usbFunctionWrite k s data len = (0xff, s) := by
    intro h
    unfold usbFunctionWrite
    rw [if_neg h.2.2.2, if_pos ⟨h.1, h.2.1, h.2.2.1⟩]
  refine ⟨hr, hw, ?_⟩
  intro hst
  constructor
  · apply hr
    rw [hst]
    exact ⟨k.state_ne hk 0 2 (by decide), k.state_ne hk 0 3 (by decide),
      k.state_ne hk 0 5 (by decide), k.state_ne hk 0 7 (by decide)⟩
  · apply hw
    rw [hst]
    exact ⟨k.state_ne hk 0 1 (by decide), k.state_ne hk 0 4 (by decide),
      k.state_ne hk 0 6 (by decide), k.state_ne hk 0 8 (by decide)⟩

/-- C14 at the Idle state after reset. -/
theorem packet_callback_wrong_state_witness :
    usbasp_h.WellFormed ∧
    (Prog.boot usbasp_h 96 352).prog_state = usbasp_h.PROG_STATE_IDLE ∧
    (usbFunctionRead usbasp_h Env.sample (Prog.boot usbasp_h 96 352) (packet [1, 2]) 8).1
      = 0xff ∧
    (usbFunctionWrite usbasp_h (Prog.boot usbasp_h 96 352) (packet [1, 2]) 8).1 = 0xff :=
  ⟨by decide, rfl,
    congrArg Prod.fst
      ((packet_callback_wrong_state usbasp_h Env.sample (Prog.boot usbasp_h 96 352)
        (packet [1, 2]) 8 (by decide)).2.2 rfl).1,
    congrArg Prod.fst
      ((packet_callback_wrong_state usbasp_h Env.sample (Prog.boot usbasp_h 96 352)
        (packet [1, 2]) 8 (by decide)).2.2 rfl).2⟩

/-! ## C15: a command with an unknown opcode -/

/-- C15. For every command packet whose opcode `data[1]` is none of the opcodes handled
by `usbFunctionSetup`, the function returns the reply length 0 and leaves the whole state
as it was: operation, cursor, remaining count, page size, block flags, page counter,
long-address latch and SCK option. -/
theorem unknown_opcode_no_effect (k : Consts) (env : Env) (s : Prog) (data : Nat → Nat)
    (h : data 1 ∉ k.opcodes) :
    (usbFunctionSetup k env s data).1 = 0 ∧
    (usbFunctionSetup k env s data).2 = s ∧
    (usbFunctionSetup k env s data).2.prog_state = s.prog_state ∧
    (usbFunctionSetup k env s data).2.prog_address = s.prog_address ∧
    (usbFunctionSetup k env s data).2.prog_nbytes = s.prog_nbytes ∧
    (usbFunctionSetup k env s data).2.prog_pagesize = s.prog_pagesize ∧
    (usbFunctionSetup k env s data).2.prog_blockflags = s.prog_blockflags ∧
    (usbFunctionSetup k env s data).2.prog_pagecounter = s.prog_pagecounter ∧
    (usbFunctionSetup k env s data).2.prog_address_newmode = s.prog_address_newmode ∧
    (usbFunctionSetup k env s data).2.prog_sck = s.prog_sck := by
  rw [usbFunctionSetup_unknown k env s data h]
  exact ⟨rfl, rfl, rfl, rfl, rfl, rfl, rfl, rfl, rfl, rfl⟩

/-- C15 at the opcode 200 in the middle of a UART-TX transfer. -/
theorem unknown_opcode_no_effect_witness :
    (200 : Nat) ∉ usbasp_h.opcodes ∧
    (usbFunctionSetup usbasp_h Env.sample Prog.txNearlyFull
      (packet [0, 200, 1, 2, 3, 4, 5, 6])).1 = 0 ∧
    (usbFunctionSetup usbasp_h Env.sample Prog.txNearlyFull
      (packet [0, 200, 1, 2, 3, 4, 5, 6])).2.prog_nbytes = 8 :=
  ⟨by decide,
    (unknown_opcode_no_effect usbasp_h Env.sample Prog.txNearlyFull
      (packet [0, 200, 1, 2, 3, 4, 5, 6]) (by decide)).1,
    (unknown_opcode_no_effect usbasp_h Env.sample Prog.txNearlyFull
      (packet [0, 200, 1, 2, 3, 4, 5, 6]) (by decide)).2.2.2.2.1⟩

/-! ## C16: which commands arm a streaming operation -/

/-- A streaming command returns `USB_NO_MSG`, stores the state that goes with its opcode and
loads `prog_nbytes` from `data[6]`, `data[7]`. -/
theorem usbFunctionSetup_streaming (k : Consts) (env : Env) (s : Prog) (data : Nat → Nat)
    (hk : k.WellFormed) (st : Nat) (h : (data 1, st) ∈ k.streaming) :
    (usbFunctionSetup k env s data).1 = k.USB_NO_MSG ∧
    (usbFunctionSetup k env s data).2.prog_state = st ∧
    (usbFunctionSetup k env s data).2.prog_nbytes = word16 (data 7) (data 6) := by
  simp only [Consts.streaming, List.mem_cons, Prod.mk.injEq, List.mem_singleton,
    List.not_mem_nil, or_false] at h
  rcases h with ⟨h1, h2⟩ | ⟨h1, h2⟩ | ⟨h1, h2⟩ | ⟨h1, h2⟩ | ⟨h1, h2⟩ | ⟨h1, h2⟩ | ⟨h1, h2⟩ |
    ⟨h1, h2⟩
  · rw [usbFunctionSetup_READFLASH k env s data hk h1, h2]
    exact ⟨rfl, rfl, rfl⟩
  · rw [usbFunctionSetup_READEEPROM k env s data hk h1, h2]
    exact ⟨rfl, rfl, rfl⟩
  · rw [usbFunctionSetup_WRITEFLASH k env s data hk h1, h2]
    exact ⟨rfl, rfl, rfl⟩
  · rw [usbFunctionSetup_WRITEEEPROM k env s data hk h1, h2]
    exact ⟨rfl, rfl, rfl⟩
  · rw [usbFunctionSetup_TPI_READBLOCK k env s data hk h1, h2]
    exact ⟨rfl, rfl, rfl⟩
  · rw [usbFunctionSetup_TPI_WRITEBLOCK k env s data hk h1, h2]
    exact ⟨rfl, rfl, rfl⟩
  · rw [usbFunctionSetup_UART_TX k env s data hk h1, h2]
    exact ⟨rfl, rfl, rfl⟩
  · rw [usbFunctionSetup_UART_RX k env s data hk h1, h2]
    exact ⟨rfl, rfl, rfl⟩

/-- A command that is not a streaming command returns a length of at most 4 and leaves
`prog_state` alone. -/
theorem usbFunctionSetup_not_streaming (k : Consts) (env : Env) (s : Prog) (data : Nat → Nat)
    (hk : k.WellFormed) (h : data 1 ∉ k.streaming.map Prod.fst) :
    (usbFunctionSetup k env s data).1 ≤ 4 ∧
    (usbFunctionSetup k env s data).2.prog_state = s.prog_state := by
  by_cases hmem : data 1 ∈ k.opcodes
  · simp only [Consts.streaming, List.map_cons, List.map_nil, List.mem_cons,
      List.mem_singleton, List.not_mem_nil, or_false, not_or] at h
    obtain ⟨n1, n2, n3, n4, n5, n6, n7, n8⟩ := h
    simp only [Consts.opcodes, List.mem_cons, List.mem_singleton, List.not_mem_nil,
      or_false] at hmem
    rcases hmem with e | e | e | e | e | e | e | e | e | e | e | e | e | e | e | e | e | e |
      e | e | e | e | e | e
    · rw [usbFunctionSetup_CONNECT k env s data hk e]
      unfold setup_CONNECT
      dsimp only [Prog.call]
      split <;> exact ⟨Nat.zero_le _, rfl⟩
    · rw [usbFunctionSetup_DISCONNECT k env s data hk e]
      simp [setup_DISCONNECT, Prog.call]
    · rw [usbFunctionSetup_TRANSMIT k env s data hk e]
      simp [setup_TRANSMIT, Prog.call]
    · exact absurd e n1
    · exact absurd e n2
    · rw [usbFunctionSetup_ENABLEPROG k env s data hk e]
      simp [setup_ENABLEPROG, Prog.call]
    · exact absurd e n3
    · exact absurd e n4
    · rw [usbFunctionSetup_SETLONGADDRESS k env s data hk e]
      simp [setup_SETLONGADDRESS, Prog.call]
    · rw [usbFunctionSetup_SETISPSCK k env s data hk e]
      simp [setup_SETISPSCK, Prog.call]
    · rw [usbFunctionSetup_TPI_CONNECT k env s data hk e]
      simp [setup_TPI_CONNECT, Prog.call]
    · rw [usbFunctionSetup_TPI_DISCONNECT k env s data hk e]
      simp [setup_TPI_DISCONNECT, Prog.call]
    · rw [usbFunctionSetup_TPI_RAWREAD k env s data hk e]
      simp [setup_TPI_RAWREAD, Prog.call]
    · rw [usbFunctionSetup_TPI_RAWWRITE k env s data hk e]
      simp [setup_TPI_RAWWRITE, Prog.call]
    · exact absurd e n5
    · exact absurd e n6
    · rw [usbFunctionSetup_UART_CONFIG k env s data hk e]
      simp [setup_UART_CONFIG, Prog.call]
    · rw [usbFunctionSetup_UART_FLUSHTX k env s data hk e]
      simp [setup_UART_FLUSHTX, Prog.call]
    · rw [usbFunctionSetup_UART_FLUSHRX k env s data hk e]
      simp [setup_UART_FLUSHRX, Prog.call]
    · rw [usbFunctionSetup_UART_DISABLE k env s data hk e]
      simp [setup_UART_DISABLE, Prog.call]
    · exact absurd e n7
    · exact absurd e n8
    · rw [usbFunctionSetup_UART_TX_FREE k env s data hk e]
      simp [setup_UART_TX_FREE, Prog.call]
    · rw [usbFunctionSetup_GETCAPABILITIES k env s data hk e]
      simp [setup_GETCAPABILITIES, Prog.call]
  · rw [usbFunctionSetup_unknown k env s data hmem]
    exact ⟨Nat.zero_le _, rfl⟩

/-- C16. For every command packet (with `USB_NO_MSG` a value above 4, and `data[6]`,
`data[7]` bytes), `usbFunctionSetup` returns the sentinel `USB_NO_MSG` if and only if the
opcode is one of the eight streaming opcodes (read/write flash, read/write EEPROM, TPI block
read/write, UART TX, UART RX); in that case `prog_state` becomes the state matching the
opcode and `prog_nbytes` becomes `data[6] + 256*data[7]`; for every other opcode the returned
length is between 0 and 4 and `prog_state` is unchanged. -/
theorem streaming_commands_return_no_msg (k : Consts) (env : Env) (s : Prog)
    (data : Nat → Nat) (hk : k.WellFormed) (hmsg : 4 < k.USB_NO_MSG)
    (h6 : data 6 < 256) (h7 : data 7 < 256) :
    ((usbFunctionSetup k env s data).1 = k.USB_NO_MSG ↔
      data 1 ∈ k.streaming.map Prod.fst) ∧
    (∀ st, (data 1, st) ∈ k.streaming →
      (usbFunctionSetup k env s data).1 = k.USB_NO_MSG ∧
      (usbFunctionSetup k env s data).2.prog_state = st ∧
      (usbFunctionSetup k env s data).2.prog_nbytes = data 6 + 256 * data 7) ∧
    (data 1 ∉ k.streaming.map Prod.fst →
      0 ≤ (usbFunctionSetup k env s data).1 ∧ (usbFunctionSetup k env s data).1 ≤ 4 ∧
      (usbFunctionSetup k env s data).2.prog_state = s.prog_state) := by
  have hw : word16 (data 7) (data 6) = data 6 + 256 * data 7 := by
    rw [word16_eq _ _ h7 h6]; omega
  refine ⟨⟨?_, ?_⟩, ?_, ?_⟩
  · intro hlen
    by_contra hns
    have := (usbFunctionSetup_not_streaming k env s data hk hns).1
    omega
  · intro hmem
    obtain ⟨p, hp, hfst⟩ := List.mem_map.mp hmem
    have hp' : (data 1, p.2) ∈ k.streaming := by rw [← hfst]; exact hp
    exact (usbFunctionSetup_streaming k env s data hk p.2 hp').1
  · intro st hst
    have := usbFunctionSetup_streaming k env s data hk st hst
    exact ⟨this.1, this.2.1, by rw [this.2.2, hw]⟩
  · intro hns
    have := usbFunctionSetup_not_streaming k env s data hk hns
    exact ⟨Nat.zero_le _, this.1, this.2⟩

/-- C16 at a UART-RX command of length 0x0102 and at the set-SCK command. -/
theorem streaming_commands_return_no_msg_witness :
    usbasp_h.WellFormed ∧ 4 < usbasp_h.USB_NO_MSG ∧
    (usbFunctionSetup usbasp_h Env.sample (Prog.boot usbasp_h 96 352)
      (packet [0, 65, 0, 0, 0, 0, 2, 1])).1 = usbasp_h.USB_NO_MSG ∧
    (usbFunctionSetup usbasp_h Env.sample (Prog.boot usbasp_h 96 352)
      (packet [0, 65, 0, 0, 0, 0, 2, 1])).2.prog_state = usbasp_h.PROG_STATE_UART_RX ∧
    (usbFunctionSetup usbasp_h Env.sample (Prog.boot usbasp_h 96 352)
      (packet [0, 65, 0, 0, 0, 0, 2, 1])).2.prog_nbytes = 2 + 256 * 1 ∧
    (usbFunctionSetup usbasp_h Env.sample Prog.txNearlyFull
      (packet [0, 10, 3, 0, 0, 0, 0, 0])).1 ≤ 4 ∧
    (usbFunctionSetup usbasp_h Env.sample Prog.txNearlyFull
      (packet [0, 10, 3, 0, 0, 0, 0, 0])).2.prog_state = usbasp_h.PROG_STATE_UART_TX :=
  ⟨by decide, by decide,
    ((streaming_commands_return_no_msg usbasp_h Env.sample (Prog.boot usbasp_h 96 352)
      (packet [0, 65, 0, 0, 0, 0, 2, 1]) (by decide) (by decide) (by decide) (by decide)).2.1
      usbasp_h.PROG_STATE_UART_RX (by decide)).1,
    ((streaming_commands_return_no_msg usbasp_h Env.sample (Prog.boot usbasp_h 96 352)
      (packet [0, 65, 0, 0, 0, 0, 2, 1]) (by decide) (by decide) (by decide) (by decide)).2.1
      usbasp_h.PROG_STATE_UART_RX (by decide)).2.1,
    ((streaming_commands_return_no_msg usbasp_h Env.sample (Prog.boot usbasp_h 96 352)
      (packet [0, 65, 0, 0, 0, 0, 2, 1]) (by decide) (by decide) (by decide) (by decide)).2.1
      usbasp_h.PROG_STATE_UART_RX (by decide)).2.2,
    ((streaming_commands_return_no_msg usbasp_h Env.sample Prog.txNearlyFull
      (packet [0, 10, 3, 0, 0, 0, 0, 0]) (by decide) (by decide) (by decide) (by decide)).2.2
      (by decide)).2.1,
    ((streaming_commands_return_no_msg usbasp_h Env.sample Prog.txNearlyFull
      (packet [0, 10, 3, 0, 0, 0, 0, 0]) (by decide) (by decide) (by decide) (by decide)).2.2
      (by decide)).2.2⟩

/-! ## C17: a short packet ends a read operation -/

/-- What holds of C17: in the ReadFlash, ReadEeprom and UartRx states, a packet shorter
than 8 bytes produced by `usbFunctionRead` leaves the operation Idle. -/
theorem usbFunctionRead_short_packet_idle (k : Consts) (env : Env) (s : Prog)
    (data : Nat → Nat) (len : Nat) (hk : k.WellFormed)
    (hst : s.prog_state = k.PROG_STATE_READFLASH ∨ s.prog_state = k.PROG_STATE_READEEPROM ∨
      s.prog_state = k.PROG_STATE_UART_RX)
    (hshort : (usbFunctionRead k env s data len).1 < 8) :
    (usbFunctionRead k env s data len).2.1.prog_state = k.PROG_STATE_IDLE := by
  rcases hst with h | h | h
  · rw [usbFunctionRead_isp k env s data len hk (Or.inl h)] at hshort ⊢
    dsimp only at hshort ⊢
    rw [if_pos hshort]
  · rw [usbFunctionRead_isp k env s data len hk (Or.inr h)] at hshort ⊢
    dsimp only at hshort ⊢
    rw [if_pos hshort]
  · unfold usbFunctionRead at hshort ⊢
    rw [if_neg (by rw [h]; tauto), if_pos h] at hshort ⊢
    dsimp only at hshort ⊢
    rw [if_pos hshort]

/-- The read-flash scenario: a packet of 4 bytes ends the operation. -/
theorem usbFunctionRead_short_packet_idle_witness :
    usbasp_h.WellFormed ∧
    (usbFunctionRead usbasp_h Env.sample
      (usbFunctionSetup usbasp_h Env.sample (Prog.boot usbasp_h 96 352)
        (packet [0, 4, 0x10, 0x00, 0, 0, 4, 0])).2 (fun _ => 0) 4).2.1.prog_state
      = usbasp_h.PROG_STATE_IDLE :=
  ⟨by decide,
    usbFunctionRead_short_packet_idle usbasp_h Env.sample
      (usbFunctionSetup usbasp_h Env.sample (Prog.boot usbasp_h 96 352)
        (packet [0, 4, 0x10, 0x00, 0, 0, 4, 0])).2 (fun _ => 0) 4 (by decide)
      (Or.inl rfl) (by decide)⟩

/-- C17, the code at the failing input.  After reset, the TPI-block-read command with
address `0x0010` and length 4 puts the dispatcher in the ReadTpi state; `usbFunctionRead`
with `len = 4` then returns 4, a packet shorter than 8 bytes, calls `tpi_read_block` once and
advances the cursor to `0x0014`, but the operation is still ReadTpi, not Idle: the TPI branch
returns before the test `len < 8` that the ISP branch and the UART-RX branch make. -/
theorem tpi_read_short_packet_stays_tpi_read :
    (usbFunctionSetup usbasp_h Env.sample (Prog.boot usbasp_h 96 352)
      (packet [0, 15, 0x10, 0x00, 0, 0, 4, 0])).2.prog_state
      = usbasp_h.PROG_STATE_TPI_READ ∧
    (usbFunctionRead usbasp_h Env.sample
      (usbFunctionSetup usbasp_h Env.sample (Prog.boot usbasp_h 96 352)
        (packet [0, 15, 0x10, 0x00, 0, 0, 4, 0])).2 (fun _ => 0) 4).1 = 4 ∧
    (usbFunctionRead usbasp_h Env.sample
      (usbFunctionSetup usbasp_h Env.sample (Prog.boot usbasp_h 96 352)
        (packet [0, 15, 0x10, 0x00, 0, 0, 4, 0])).2 (fun _ => 0) 4).2.1.calls
      = [Call.tpi_read_block 0x10 4] ∧
    (usbFunctionRead usbasp_h Env.sample
      (usbFunctionSetup usbasp_h Env.sample (Prog.boot usbasp_h 96 352)
        (packet [0, 15, 0x10, 0x00, 0, 0, 4, 0])).2 (fun _ => 0) 4).2.1.prog_address
      = 0x14 ∧
    (usbFunctionRead usbasp_h Env.sample
      (usbFunctionSetup usbasp_h Env.sample (Prog.boot usbasp_h 96 352)
        (packet [0, 15, 0x10, 0x00, 0, 0, 4, 0])).2 (fun _ => 0) 4).2.1.prog_state
      = usbasp_h.PROG_STATE_TPI_READ ∧
    ¬ ((usbFunctionRead usbasp_h Env.sample
      (usbFunctionSetup usbasp_h Env.sample (Prog.boot usbasp_h 96 352)
        (packet [0, 15, 0x10, 0x00, 0, 0, 4, 0])).2 (fun _ => 0) 4).2.1.prog_state
      = usbasp_h.PROG_STATE_IDLE) := by
  decide

/-- In the ReadTpi state `usbFunctionRead` never changes `prog_state`, whatever the packet
length. -/
theorem usbFunctionRead_tpi_keeps_state (k : Consts) (env : Env) (s : Prog)
    (data : Nat → Nat) (len : Nat) (hk : k.WellFormed)
    (hst : s.prog_state = k.PROG_STATE_TPI_READ) :
    (usbFunctionRead k env s data len).1 = len ∧
    (usbFunctionRead k env s data len).2.1.prog_state = k.PROG_STATE_TPI_READ := by
  have n1 : s.prog_state ≠ k.PROG_STATE_UART_RX := by
    rw [hst]; exact k.state_ne hk 5 7 (by decide)
  unfold usbFunctionRead
  rw [if_neg (by rw [hst]; tauto), if_neg n1, if_pos hst]
  exact ⟨rfl, hst⟩

/-! ## C18: where the cursor of an addressed streaming command comes from -/

/-- C18, at a concrete input.  After reset, a set-long-address command with the address
`0x00020000` latches long-address mode; the following TPI-block-read command with address
bytes `data[2] = 0x10`, `data[3] = 0x00` sets the cursor to `0x0010` all the same, not to
the latched `0x00020000`. -/
theorem tpi_readblock_ignores_long_address :
    (usbFunctionSetup usbasp_h Env.sample (Prog.boot usbasp_h 96 352)
      (packet [0, 9, 0x00, 0x00, 0x02, 0x00, 0, 0])).2.prog_address_newmode = 1 ∧
    (usbFunctionSetup usbasp_h Env.sample (Prog.boot usbasp_h 96 352)
      (packet [0, 9, 0x00, 0x00, 0x02, 0x00, 0, 0])).2.prog_address = 0x00020000 ∧
    (usbFunctionSetup usbasp_h Env.sample
      (usbFunctionSetup usbasp_h Env.sample (Prog.boot usbasp_h 96 352)
        (packet [0, 9, 0x00, 0x00, 0x02, 0x00, 0, 0])).2
      (packet [0, 15, 0x10, 0x00, 0, 0, 4, 0])).2.prog_address = 0x0010 ∧
    ¬ ((usbFunctionSetup usbasp_h Env.sample
      (usbFunctionSetup usbasp_h Env.sample (Prog.boot usbasp_h 96 352)
        (packet [0, 9, 0x00, 0x00, 0x02, 0x00, 0, 0])).2
      (packet [0, 15, 0x10, 0x00, 0, 0, 4, 0])).2.prog_address
      = (usbFunctionSetup usbasp_h Env.sample (Prog.boot usbasp_h 96 352)
          (packet [0, 9, 0x00, 0x00, 0x02, 0x00, 0, 0])).2.prog_address) := by
  decide

theorem intToULong_word16_low (hi lo : Nat) (hlo : lo < 256) (hhi : hi < 128) :
    intToULong (word16 hi lo) = lo + 256 * hi := by
  rw [word16_eq _ _ (by omega) hlo]
  unfold intToULong
  rw [if_pos (by omega)]
  omega

/-- C18 as amended.  For read flash, write flash, read EEPROM and write EEPROM: when
long-address mode is latched (`prog_address_newmode` not 0) `usbFunctionSetup` leaves the
cursor as it was and ignores `data[2]`, `data[3]`; when it is not latched the cursor becomes
`data[2] + 256*data[3]`, for addresses below `0x8000`.  For TPI block read and TPI block
write the cursor becomes `data[2] + 256*data[3]`, for addresses below `0x8000`, whether
long-address mode is latched or not. -/
theorem cursor_of_addressed_commands (k : Consts) (env : Env) (s : Prog) (data : Nat → Nat)
    (hk : k.WellFormed) :
    ((data 1 = k.USBASP_FUNC_READFLASH ∨ data 1 = k.USBASP_FUNC_WRITEFLASH ∨
        data 1 = k.USBASP_FUNC_READEEPROM ∨ data 1 = k.USBASP_FUNC_WRITEEEPROM) →
      (s.prog_address_newmode ≠ 0 →
        (usbFunctionSetup k env s data).2.prog_address = s.prog_address) ∧
      (s.prog_address_newmode = 0 → data 2 < 256 → data 3 < 128 →
        (usbFunctionSetup k env s data).2.prog_address = data 2 + 256 * data 3)) ∧
    ((data 1 = k.USBASP_FUNC_TPI_READBLOCK ∨ data 1 = k.USBASP_FUNC_TPI_WRITEBLOCK) →
      data 2 < 256 → data 3 < 128 →
      (usbFunctionSetup k env s data).2.prog_address = data 2 + 256 * data 3) := by
  constructor
  · intro hop
    constructor
    · intro hl
      rcases hop with h | h | h | h
      · rw [usbFunctionSetup_READFLASH k env s data hk h]
        simp only [setup_READFLASH, if_neg hl]
      · rw [usbFunctionSetup_WRITEFLASH k env s data hk h]
        simp only [setup_WRITEFLASH, if_neg hl]
        split <;> rfl
      · rw [usbFunctionSetup_READEEPROM k env s data hk h]
        simp only [setup_READEEPROM, if_neg hl]
      · rw [usbFunctionSetup_WRITEEEPROM k env s data hk h]
        simp only [setup_WRITEEEPROM, if_neg hl]
    · intro hl h2 h3
      have hw := intToULong_word16_low (data 3) (data 2) h2 h3
      rcases hop with h | h | h | h
      · rw [usbFunctionSetup_READFLASH k env s data hk h]
        simp only [setup_READFLASH, if_pos hl, hw]
      · rw [usbFunctionSetup_WRITEFLASH k env s data hk h]
        simp only [setup_WRITEFLASH, if_pos hl, hw]
        split <;> rfl
      · rw [usbFunctionSetup_READEEPROM k env s data hk h]
        simp only [setup_READEEPROM, if_pos hl, hw]
      · rw [usbFunctionSetup_WRITEEEPROM k env s data hk h]
        simp only [setup_WRITEEEPROM, if_pos hl, hw]
  · intro hop h2 h3
    have hw := intToULong_word16_low (data 3) (data 2) h2 h3
    rcases hop with h | h
    · rw [usbFunctionSetup_TPI_READBLOCK k env s data hk h]
      simp only [setup_TPI_READBLOCK, hw]
    · rw [usbFunctionSetup_TPI_WRITEBLOCK k env s data hk h]
      simp only [setup_TPI_WRITEBLOCK, hw]

/-- C18 as amended, at the commands of the counterexample: the latched address survives a
read-EEPROM command and is replaced by a TPI-block-read command. -/
theorem cursor_of_addressed_commands_witness :
    usbasp_h.WellFormed ∧
    (usbFunctionSetup usbasp_h Env.sample
      (usbFunctionSetup usbasp_h Env.sample (Prog.boot usbasp_h 96 352)
        (packet [0, 9, 0x00, 0x00, 0x02, 0x00, 0, 0])).2
      (packet [0, 7, 0x34, 0x12, 0, 0, 1, 0])).2.prog_address = 0x00020000 ∧
    (usbFunctionSetup usbasp_h Env.sample
      (usbFunctionSetup usbasp_h Env.sample (Prog.boot usbasp_h 96 352)
        (packet [0, 9, 0x00, 0x00, 0x02, 0x00, 0, 0])).2
      (packet [0, 15, 0x10, 0x00, 0, 0, 4, 0])).2.prog_address = 0x10 + 256 * 0x00 :=
  ⟨by decide,
    ((cursor_of_addressed_commands usbasp_h Env.sample
      (usbFunctionSetup usbasp_h Env.sample (Prog.boot usbasp_h 96 352)
        (packet [0, 9, 0x00, 0x00, 0x02, 0x00, 0, 0])).2
      (packet [0, 7, 0x34, 0x12, 0, 0, 1, 0]) (by decide)).1
      (Or.inr (Or.inr (Or.inl rfl)))).1 (by decide),
    (cursor_of_addressed_commands usbasp_h Env.sample
      (usbFunctionSetup usbasp_h Env.sample (Prog.boot usbasp_h 96 352)
        (packet [0, 9, 0x00, 0x00, 0x02, 0x00, 0, 0])).2
      (packet [0, 15, 0x10, 0x00, 0, 0, 4, 0]) (by decide)).2
      (Or.inl rfl) (by decide) (by decide)⟩

/-! ## C19: the receive handler -/

/-- Draining a valid RX ring with `uart_getc` returns the queued bytes, oldest first. -/
theorem rxDrain_queued (n : Nat) :
    ∀ u : Uart, u.rx.Valid → (queued u.rx u.mem).length ≤ n →
      (rxDrain n u).1 = queued u.rx u.mem := by
  induction n with
  | zero =>
    intro u _ hlen
    rw [List.length_eq_zero.mp (Nat.le_zero.mp hlen)]
    rfl
  | succ n ih =>
    intro u hv hlen
    by_cases he : ringBufferEmpty u.rx = 0
    · have hq := queued_ringBufferRead u.rx u.mem hv he
      have hlen1 : (queued (ringBufferRead u.rx u.mem).2 u.mem).length ≤ n := by
        rw [hq] at hlen
        simpa using hlen
      have := ih { u with rx := (ringBufferRead u.rx u.mem).2 }
        (ringBufferRead_valid u.rx u.mem hv) hlen1
      simp only [rxDrain, uart_getc_nonempty u 0 he]
      rw [if_neg (Nat.succ_ne_zero 0), this, hq]
    · simp only [rxDrain, uart_getc_empty u 0 he, if_true]
      rw [queued_of_empty u.rx u.mem he]

/-- The wrapped handler on a full ring changes `UCSRB` only. -/
theorem vector_usart_rxc_wrapped_full (k : Consts) (u : Uart) (udr : Nat)
    (hf : ringBufferFull u.rx ≠ 0) :
    vector_usart_rxc_wrapped k u udr
      = { u with UCSRB := (u.UCSRB ||| (1 <<< k.RXCIE)) % 256 } := by
  unfold vector_usart_rxc_wrapped
  simp only [if_neg hf]

/-- The wrapped handler on a ring with room pushes the byte and sets `RXCIE`. -/
theorem vector_usart_rxc_wrapped_not_full (k : Consts) (u : Uart) (udr : Nat)
    (hf : ringBufferFull u.rx = 0) :
    vector_usart_rxc_wrapped k u udr
      = { u with rx := (ringBufferWrite u.rx u.mem (udr % 256)).1,
                 mem := (ringBufferWrite u.rx u.mem (udr % 256)).2,
                 UCSRB := (u.UCSRB ||| (1 <<< k.RXCIE)) % 256 } := by
  unfold vector_usart_rxc_wrapped
  simp only [if_pos hf]

/-- C19. When the receive handler runs with the incoming byte `c` on an RX ring with
cursors in bounds: if the ring is full, `c` is dropped, the ring (cursors and bounds) and
the memory are unchanged, so the queued bytes are the same and a following series of
`uart_getc` calls returns exactly the previously queued bytes in order; if the ring is not
full, `c` becomes the newest queued byte and the read cursor stays; in both cases bit `RXCIE`
of `UCSRB` is set when the handler finishes, and the TX ring is untouched. -/
theorem rx_handler_spec (k : Consts) (u : Uart) (c : Nat) (hv : u.rx.Valid)
    (hbit : k.RXCIE < 8) :
    (ringBufferFull u.rx ≠ 0 →
      (ISR_USART_RXC_vect k u c).rx = u.rx ∧
      (ISR_USART_RXC_vect k u c).mem = u.mem ∧
      queued (ISR_USART_RXC_vect k u c).rx (ISR_USART_RXC_vect k u c).mem
        = queued u.rx u.mem ∧
      (∀ n, (queued u.rx u.mem).length ≤ n →
        (rxDrain n (ISR_USART_RXC_vect k u c)).1 = queued u.rx u.mem)) ∧
    (ringBufferFull u.rx = 0 →
      queued (ISR_USART_RXC_vect k u c).rx (ISR_USART_RXC_vect k u c).mem
        = queued u.rx u.mem ++ [c % 256] ∧
      (ISR_USART_RXC_vect k u c).rx.read = u.rx.read) ∧
    (ISR_USART_RXC_vect k u c).UCSRB.testBit k.RXCIE = true ∧
    (vector_usart_rxc_wrapped k u c).UCSRB.testBit k.RXCIE = true ∧
    (ISR_USART_RXC_vect k u c).tx = u.tx := by
  refine ⟨?_, ?_, ?_, ?_, ?_⟩
  · intro hf
    have e : ISR_USART_RXC_vect k u c
        = { u with UCSRB := (clearBits u.UCSRB (1 <<< k.RXCIE) ||| (1 <<< k.RXCIE)) % 256 } := by
      unfold ISR_USART_RXC_vect
      dsimp only
      rw [vector_usart_rxc_wrapped_full k
        { u with UCSRB := clearBits u.UCSRB (1 <<< k.RXCIE) } c hf]
    rw [e]
    dsimp only
    refine ⟨rfl, rfl, rfl, ?_⟩
    intro n hn
    exact rxDrain_queued n
      { u with UCSRB := (clearBits u.UCSRB (1 <<< k.RXCIE) ||| (1 <<< k.RXCIE)) % 256 } hv hn
  · intro hf
    have e : ISR_USART_RXC_vect k u c
        = { u with rx := (ringBufferWrite u.rx u.mem (c % 256)).1,
                   mem := (ringBufferWrite u.rx u.mem (c % 256)).2,
                   UCSRB := (clearBits u.UCSRB (1 <<< k.RXCIE) ||| (1 <<< k.RXCIE)) % 256 } := by
      unfold ISR_USART_RXC_vect
      dsimp only
      rw [vector_usart_rxc_wrapped_not_full k
        { u with UCSRB := clearBits u.UCSRB (1 <<< k.RXCIE) } c hf]
    rw [e]
    dsimp only
    refine ⟨?_, rfl⟩
    rw [queued_ringBufferWrite u.rx u.mem (c % 256) hv hf, Nat.mod_mod]
  · unfold ISR_USART_RXC_vect vector_usart_rxc_wrapped
    dsimp only
    split <;> exact testBit_or_shiftLeft_mod _ _ hbit
  · unfold vector_usart_rxc_wrapped
    dsimp only
    split <;> exact testBit_or_shiftLeft_mod _ _ hbit
  · unfold ISR_USART_RXC_vect vector_usart_rxc_wrapped
    dsimp only
    split <;> rfl

set_option maxRecDepth 100000 in
/-- C19 at a full RX ring (the byte is dropped) and at a ring holding one byte. -/
theorem rx_handler_spec_witness :
    Uart.rxFull.rx.Valid ∧ usbasp_h.RXCIE < 8 ∧ ringBufferFull Uart.rxFull.rx ≠ 0 ∧
    (ISR_USART_RXC_vect usbasp_h Uart.rxFull 77).rx = Uart.rxFull.rx ∧
    (ISR_USART_RXC_vect usbasp_h Uart.rxFull 77).UCSRB.testBit 7 = true ∧
    queued (ISR_USART_RXC_vect usbasp_h Uart.busy 77).rx
      (ISR_USART_RXC_vect usbasp_h Uart.busy 77).mem = [100, 77] :=
  ⟨by decide, by decide, by decide,
    ((rx_handler_spec usbasp_h Uart.rxFull 77 (by decide) (by decide)).1 (by decide)).1,
    (rx_handler_spec usbasp_h Uart.rxFull 77 (by decide) (by decide)).2.2.1,
    ((rx_handler_spec usbasp_h Uart.busy 77 (by decide) (by decide)).2.1 (by decide)).1⟩

/-! ## C20: cursor ownership -/

/-- C20. Each ring operation moves only the cursor of its own role.  The producer side,
`ringBufferWrite`, `uart_putc`, `uart_flush_tx` and the receive handler, changes of its ring
only the write cursor: the read cursor and the bounds stay, and the other ring stays.  The
consumer side, `ringBufferRead`, `uart_getc`, `uart_flush_rx` and the transmit-ready handler,
changes of its ring only the read cursor: the write cursor and the bounds stay, no stored
byte changes, and the other ring stays.  (`ringBufferFull`, `ringBufferEmpty` and
`uart_tx_freeplaces` only load the cursors: the embedding gives them a number as result and
no state to change.) -/
theorem cursor_ownership (k : Consts) (u : Uart) (rb : ringBuffer) (mem : Mem) (c : Nat) :
    ((ringBufferWrite rb mem c).1 = { rb with write := (ringBufferWrite rb mem c).1.write } ∧
      (ringBufferWrite rb mem c).1.read = rb.read) ∧
    ((uart_putc k u c).2.tx = { u.tx with write := (uart_putc k u c).2.tx.write } ∧
      (uart_putc k u c).2.tx.read = u.tx.read ∧ (uart_putc k u c).2.rx = u.rx) ∧
    ((uart_flush_tx u).tx = { u.tx with write := (uart_flush_tx u).tx.write } ∧
      (uart_flush_tx u).tx.read = u.tx.read ∧ (uart_flush_tx u).rx = u.rx ∧
      (uart_flush_tx u).mem = u.mem) ∧
    ((ISR_USART_RXC_vect k u c).rx
        = { u.rx with write := (ISR_USART_RXC_vect k u c).rx.write } ∧
      (ISR_USART_RXC_vect k u c).rx.read = u.rx.read ∧
      (ISR_USART_RXC_vect k u c).tx = u.tx) ∧
    ((ringBufferRead rb mem).2 = { rb with read := (ringBufferRead rb mem).2.read } ∧
      (ringBufferRead rb mem).2.write = rb.write) ∧
    ((uart_getc u c).2.2.rx = { u.rx with read := (uart_getc u c).2.2.rx.read } ∧
      (uart_getc u c).2.2.rx.write = u.rx.write ∧ (uart_getc u c).2.2.mem = u.mem ∧
      (uart_getc u c).2.2.tx = u.tx) ∧
    ((uart_flush_rx u).rx = { u.rx with read := (uart_flush_rx u).rx.read } ∧
      (uart_flush_rx u).rx.write = u.rx.write ∧ (uart_flush_rx u).mem = u.mem ∧
      (uart_flush_rx u).tx = u.tx) ∧
    ((ISR_USART_UDRE_vect k u).tx
        = { u.tx with read := (ISR_USART_UDRE_vect k u).tx.read } ∧
      (ISR_USART_UDRE_vect k u).tx.write = u.tx.write ∧
      (ISR_USART_UDRE_vect k u).mem = u.mem ∧
      (ISR_USART_UDRE_vect k u).rx = u.rx) := by
  refine ⟨⟨rfl, rfl⟩, ?_, ⟨rfl, rfl, rfl, rfl⟩, ?_, ⟨rfl, rfl⟩, ?_, ⟨rfl, rfl, rfl, rfl⟩, ?_⟩
  · unfold uart_putc
    split <;> exact ⟨rfl, rfl, rfl⟩
  · unfold ISR_USART_RXC_vect vector_usart_rxc_wrapped
    dsimp only
    split <;> exact ⟨rfl, rfl, rfl⟩
  · unfold uart_getc
    split <;> exact ⟨rfl, rfl, rfl, rfl⟩
  · unfold ISR_USART_UDRE_vect vector_usart_udre_wrapped
    dsimp only
    split <;> exact ⟨rfl, rfl, rfl, rfl⟩

/-! ## C21: a disconnect command and the operation in progress -/

/-- C21, at a concrete input.  After reset a read-flash command for 4 bytes starts the
ReadFlash operation.  The disconnect command that follows returns 0 and leaves
`prog_state = PROG_STATE_READFLASH`, which is not Idle, and the following read callback is
served: it returns 4 bytes, not the "not ready" value `0xff`.  The TPI disconnect command
does the same. -/
theorem disconnect_leaves_readflash_running :
    (usbFunctionSetup usbasp_h Env.sample (Prog.boot usbasp_h 96 352)
      (packet [0, 4, 0x10, 0x00, 0, 0, 4, 0])).2.prog_state = usbasp_h.PROG_STATE_READFLASH ∧
    (usbFunctionSetup usbasp_h Env.sample
      (usbFunctionSetup usbasp_h Env.sample (Prog.boot usbasp_h 96 352)
        (packet [0, 4, 0x10, 0x00, 0, 0, 4, 0])).2
      (packet [0, 2])).2.prog_state = usbasp_h.PROG_STATE_READFLASH ∧
    ¬ ((usbFunctionSetup usbasp_h Env.sample
      (usbFunctionSetup usbasp_h Env.sample (Prog.boot usbasp_h 96 352)
        (packet [0, 4, 0x10, 0x00, 0, 0, 4, 0])).2
      (packet [0, 2])).2.prog_state = usbasp_h.PROG_STATE_IDLE) ∧
    (usbFunctionRead usbasp_h Env.sample
      (usbFunctionSetup usbasp_h Env.sample
        (usbFunctionSetup usbasp_h Env.sample (Prog.boot usbasp_h 96 352)
          (packet [0, 4, 0x10, 0x00, 0, 0, 4, 0])).2
        (packet [0, 2])).2
      (packet []) 4).1 = 4 ∧
    ¬ ((usbFunctionSetup usbasp_h Env.sample
      (usbFunctionSetup usbasp_h Env.sample (Prog.boot usbasp_h 96 352)
        (packet [0, 4, 0x10, 0x00, 0, 0, 4, 0])).2
      (packet [0, 12])).2.prog_state = usbasp_h.PROG_STATE_IDLE) := by
  decide

/-- C21 as amended.  A disconnect command, ISP or TPI, returns the reply length 0 and
leaves the operation, the remaining count and the cursor as they were: a streaming operation
in progress stays in progress.  A following packet callback gets the "not ready" result
`0xff` when the operation was Idle before the disconnect. -/
theorem disconnect_keeps_operation (k : Consts) (env : Env) (s : Prog) (data pkt : Nat → Nat)
    (len : Nat) (hk : k.WellFormed)
    (hop : data 1 = k.USBASP_FUNC_DISCONNECT ∨ data 1 = k.USBASP_FUNC_TPI_DISCONNECT) :
    (usbFunctionSetup k env s data).1 = 0 ∧
    (usbFunctionSetup k env s data).2.prog_state = s.prog_state ∧
    (usbFunctionSetup k env s data).2.prog_nbytes = s.prog_nbytes ∧
    (usbFunctionSetup k env s data).2.prog_address = s.prog_address ∧
    (s.prog_state = k.PROG_STATE_IDLE →
      (usbFunctionRead k env (usbFunctionSetup k env s data).2 pkt len).1 = 0xff ∧
      (usbFunctionWrite k (usbFunctionSetup k env s data).2 pkt len).1 = 0xff) := by
  have h : (usbFunctionSetup k env s data).1 = 0 ∧
      (usbFunctionSetup k env s data).2.prog_state = s.prog_state ∧
      (usbFunctionSetup k env s data).2.prog_nbytes = s.prog_nbytes ∧
      (usbFunctionSetup k env s data).2.prog_address = s.prog_address := by
    rcases hop with e | e
    · rw [usbFunctionSetup_DISCONNECT k env s data hk e]
      exact ⟨rfl, rfl, rfl, rfl⟩
    · rw [usbFunctionSetup_TPI_DISCONNECT k env s data hk e]
      simp [setup_TPI_DISCONNECT, Prog.call]
  refine ⟨h.1, h.2.1, h.2.2.1, h.2.2.2, ?_⟩
  intro hidle
  have hst : (usbFunctionSetup k env s data).2.prog_state = k.PROG_STATE_IDLE := by
    rw [h.2.1, hidle]
  have n1 := k.state_ne hk 0 1 (by decide)
  have n2 := k.state_ne hk 0 2 (by decide)
  have n3 := k.state_ne hk 0 3 (by decide)
  have n4 := k.state_ne hk 0 4 (by decide)
  have n5 := k.state_ne hk 0 5 (by decide)
  have n6 := k.state_ne hk 0 6 (by decide)
  have n7 := k.state_ne hk 0 7 (by decide)
  have n8 := k.state_ne hk 0 8 (by decide)
  constructor
  · unfold usbFunctionRead
    rw [if_pos (by rw [hst]; exact ⟨n2, n3, n5, n7⟩)]
  · unfold usbFunctionWrite
    rw [if_neg (by rw [hst]; exact n8), if_pos (by rw [hst]; exact ⟨n1, n4, n6⟩)]

theorem disconnect_keeps_operation_witness :
    usbasp_h.WellFormed ∧
    (usbFunctionSetup usbasp_h Env.sample
      (usbFunctionSetup usbasp_h Env.sample (Prog.boot usbasp_h 96 352)
        (packet [0, 7, 0x10, 0x00, 0, 0, 4, 0])).2
      (packet [0, 2])).2.prog_state
      = (usbFunctionSetup usbasp_h Env.sample (Prog.boot usbasp_h 96 352)
        (packet [0, 7, 0x10, 0x00, 0, 0, 4, 0])).2.prog_state :=
  ⟨by decide,
    (disconnect_keeps_operation usbasp_h Env.sample
      (usbFunctionSetup usbasp_h Env.sample (Prog.boot usbasp_h 96 352)
        (packet [0, 7, 0x10, 0x00, 0, 0, 4, 0])).2
      (packet [0, 2]) (packet []) 4 (by decide) (Or.inl rfl)).2.1⟩

/-! ## C22: what unlatches long-address mode -/

/-- The long-address latch after a command: a connect clears it, a set-long-address sets
it, every other command leaves it as it was. -/
theorem usbFunctionSetup_newmode (k : Consts) (env : Env) (s : Prog) (data : Nat → Nat)
    (hk : k.WellFormed) :
    (data 1 = k.USBASP_FUNC_CONNECT →
      (usbFunctionSetup k env s data).2.prog_address_newmode = 0) ∧
    (data 1 = k.USBASP_FUNC_SETLONGADDRESS →
      (usbFunctionSetup k env s data).2.prog_address_newmode = 1) ∧
    (data 1 ≠ k.USBASP_FUNC_CONNECT → data 1 ≠ k.USBASP_FUNC_SETLONGADDRESS →
      (usbFunctionSetup k env s data).2.prog_address_newmode = s.prog_address_newmode) := by
  refine ⟨?_, ?_, ?_⟩
  · intro e
    rw [usbFunctionSetup_CONNECT k env s data hk e]
    unfold setup_CONNECT
    dsimp only [Prog.call]
  · intro e
    rw [usbFunctionSetup_SETLONGADDRESS k env s data hk e]
    rfl
  · intro c1 c2
    by_cases hmem : data 1 ∈ k.opcodes
    · simp only [Consts.opcodes, List.mem_cons, List.mem_singleton, List.not_mem_nil,
        or_false] at hmem
      rcases hmem with e | e | e | e | e | e | e | e | e | e | e | e | e | e | e | e | e | e |
        e | e | e | e | e | e
      · exact absurd e c1
      · rw [usbFunctionSetup_DISCONNECT k env s data hk e]
        unfold setup_DISCONNECT
        dsimp only [Prog.call]
      · rw [usbFunctionSetup_TRANSMIT k env s data hk e]
        unfold setup_TRANSMIT
        dsimp only [Prog.call]
      · rw [usbFunctionSetup_READFLASH k env s data hk e]
        unfold setup_READFLASH
        dsimp only [Prog.call]
        split <;> rfl
      · rw [usbFunctionSetup_READEEPROM k env s data hk e]
        unfold setup_READEEPROM
        dsimp only [Prog.call]
        split <;> rfl
      · rw [usbFunctionSetup_ENABLEPROG k env s data hk e]
        unfold setup_ENABLEPROG
        dsimp only [Prog.call]
      · rw [usbFunctionSetup_WRITEFLASH k env s data hk e]
        unfold setup_WRITEFLASH
        dsimp only [Prog.call]
        split <;> split <;> rfl
      · rw [usbFunctionSetup_WRITEEEPROM k env s data hk e]
        unfold setup_WRITEEEPROM
        dsimp only [Prog.call]
        split <;> rfl
      · exact absurd e c2
      · rw [usbFunctionSetup_SETISPSCK k env s data hk e]
        unfold setup_SETISPSCK
        dsimp only [Prog.call]
      · rw [usbFunctionSetup_TPI_CONNECT k env s data hk e]
        unfold setup_TPI_CONNECT
        dsimp only [Prog.call]
      · rw [usbFunctionSetup_TPI_DISCONNECT k env s data hk e]
        unfold setup_TPI_DISCONNECT
        dsimp only [Prog.call]
      · rw [usbFunctionSetup_TPI_RAWREAD k env s data hk e]
        unfold setup_TPI_RAWREAD
        dsimp only [Prog.call]
      · rw [usbFunctionSetup_TPI_RAWWRITE k env s data hk e]
        unfold setup_TPI_RAWWRITE
        dsimp only [Prog.call]
      · rw [usbFunctionSetup_TPI_READBLOCK k env s data hk e]
        unfold setup_TPI_READBLOCK
        dsimp only [Prog.call]
      · rw [usbFunctionSetup_TPI_WRITEBLOCK k env s data hk e]
        unfold setup_TPI_WRITEBLOCK
        dsimp only [Prog.call]
      · rw [usbFunctionSetup_UART_CONFIG k env s data hk e]
        unfold setup_UART_CONFIG
        dsimp only [Prog.call]
      · rw [usbFunctionSetup_UART_FLUSHTX k env s data hk e]
        unfold setup_UART_FLUSHTX
        dsimp only [Prog.call]
      · rw [usbFunctionSetup_UART_FLUSHRX k env s data hk e]
        unfold setup_UART_FLUSHRX
        dsimp only [Prog.call]
      · rw [usbFunctionSetup_UART_DISABLE k env s data hk e]
        unfold setup_UART_DISABLE
        dsimp only [Prog.call]
      · rw [usbFunctionSetup_UART_TX k env s data hk e]
        unfold setup_UART_TX
        dsimp only [Prog.call]
      · rw [usbFunctionSetup_UART_RX k env s data hk e]
        unfold setup_UART_RX
        dsimp only [Prog.call]
      · rw [usbFunctionSetup_UART_TX_FREE k env s data hk e]
        unfold setup_UART_TX_FREE
        dsimp only [Prog.call]
      · rw [usbFunctionSetup_GETCAPABILITIES k env s data hk e]
        unfold setup_GETCAPABILITIES
        dsimp only [Prog.call]
    · rw [usbFunctionSetup_unknown k env s data hmem]

/-- C22, at a concrete input.  After reset a set-long-address command latches long-address
mode.  A connect command then clears the latch, although it is not a disconnect; a
disconnect command (ISP or TPI) leaves it set. -/
theorem connect_unlatches_disconnect_does_not :
    (usbFunctionSetup usbasp_h Env.sample (Prog.boot usbasp_h 96 352)
      (packet [0, 9, 0x00, 0x00, 0x02, 0x00, 0, 0])).2.prog_address_newmode = 1 ∧
    (usbFunctionSetup usbasp_h Env.sample
      (usbFunctionSetup usbasp_h Env.sample (Prog.boot usbasp_h 96 352)
        (packet [0, 9, 0x00, 0x00, 0x02, 0x00, 0, 0])).2
      (packet [0, 1])).2.prog_address_newmode = 0 ∧
    (usbFunctionSetup usbasp_h Env.sample
      (usbFunctionSetup usbasp_h Env.sample (Prog.boot usbasp_h 96 352)
        (packet [0, 9, 0x00, 0x00, 0x02, 0x00, 0, 0])).2
      (packet [0, 2])).2.prog_address_newmode = 1 ∧
    (usbFunctionSetup usbasp_h Env.sample
      (usbFunctionSetup usbasp_h Env.sample (Prog.boot usbasp_h 96 352)
        (packet [0, 9, 0x00, 0x00, 0x02, 0x00, 0, 0])).2
      (packet [0, 12])).2.prog_address_newmode = 1 := by
  decide

/-- C22 as amended.  Once long-address mode is latched (`prog_address_newmode` not 0),
every command other than a connect leaves it latched, a disconnect included, which leaves
the latch as it was; a connect command is the only one that returns the dispatcher to
short-address mode. -/
theorem long_address_latch_sticky (k : Consts) (env : Env) (s : Prog) (data : Nat → Nat)
    (hk : k.WellFormed) (hl : s.prog_address_newmode ≠ 0) :
    (data 1 ≠ k.USBASP_FUNC_CONNECT →
      (usbFunctionSetup k env s data).2.prog_address_newmode ≠ 0) ∧
    (data 1 = k.USBASP_FUNC_CONNECT →
      (usbFunctionSetup k env s data).2.prog_address_newmode = 0) ∧
    (data 1 = k.USBASP_FUNC_DISCONNECT ∨ data 1 = k.USBASP_FUNC_TPI_DISCONNECT →
      (usbFunctionSetup k env s data).2.prog_address_newmode = s.prog_address_newmode) := by
  obtain ⟨h1, h2, h3⟩ := usbFunctionSetup_newmode k env s data hk
  refine ⟨?_, h1, ?_⟩
  · intro c1
    by_cases c2 : data 1 = k.USBASP_FUNC_SETLONGADDRESS
    · rw [h2 c2]; exact Nat.succ_ne_zero 0
    · rw [h3 c1 c2]; exact hl
  · intro e
    rcases e with e | e
    · exact h3 (by rw [e]; exact k.opcode_ne hk 1 0 (by decide))
        (by rw [e]; exact k.opcode_ne hk 1 8 (by decide))
    · exact h3 (by rw [e]; exact k.opcode_ne hk 11 0 (by decide))
        (by rw [e]; exact k.opcode_ne hk 11 8 (by decide))

theorem long_address_latch_sticky_witness :
    usbasp_h.WellFormed ∧
    (usbFunctionSetup usbasp_h Env.sample (Prog.boot usbasp_h 96 352)
      (packet [0, 9, 0x00, 0x00, 0x02, 0x00, 0, 0])).2.prog_address_newmode ≠ 0 ∧
    (usbFunctionSetup usbasp_h Env.sample
      (usbFunctionSetup usbasp_h Env.sample (Prog.boot usbasp_h 96 352)
        (packet [0, 9, 0x00, 0x00, 0x02, 0x00, 0, 0])).2
      (packet [0, 4, 0x10, 0x00, 0, 0, 4, 0])).2.prog_address_newmode ≠ 0 :=
  ⟨by decide, by decide,
    (long_address_latch_sticky usbasp_h Env.sample
      (usbFunctionSetup usbasp_h Env.sample (Prog.boot usbasp_h 96 352)
        (packet [0, 9, 0x00, 0x00, 0x02, 0x00, 0, 0])).2
      (packet [0, 4, 0x10, 0x00, 0, 0, 4, 0]) (by decide) (by decide)).1 (by decide)⟩

/-! ## Lemmas on the byte loop of `usbFunctionWrite` -/

/-- What `storeByte` leaves alone. -/
theorem storeByte_frame (k : Consts) (s : Prog) (b : Nat) :
    (storeByte k s b).prog_state = s.prog_state ∧
    (storeByte k s b).prog_nbytes = s.prog_nbytes ∧
    (storeByte k s b).prog_address = s.prog_address ∧
    (storeByte k s b).prog_pagesize = s.prog_pagesize ∧
    (storeByte k s b).prog_blockflags = s.prog_blockflags := by
  unfold storeByte
  dsimp only [Prog.call]
  split
  · split
    · exact ⟨rfl, rfl, rfl, rfl, rfl⟩
    · split <;> exact ⟨rfl, rfl, rfl, rfl, rfl⟩
  · exact ⟨rfl, rfl, rfl, rfl, rfl⟩

/-- The calls `storeByte` makes and the page counter it leaves. -/
theorem storeByte_effect (k : Consts) (s : Prog) (b : Nat) :
    (storeByte k s b).calls
      = s.calls ++
        (if s.prog_state = k.PROG_STATE_WRITEFLASH then
          (if s.prog_pagesize = 0 then [Call.ispWriteFlash s.prog_address b 1]
           else Call.ispWriteFlash s.prog_address b 0 ::
            (if dec8 s.prog_pagecounter = 0 then [Call.ispFlushPage s.prog_address b]
             else []))
         else [Call.ispWriteEEPROM s.prog_address b]) ∧
    (storeByte k s b).prog_pagecounter
      = (if s.prog_state = k.PROG_STATE_WRITEFLASH ∧ s.prog_pagesize ≠ 0 then
          (if dec8 s.prog_pagecounter = 0 then s.prog_pagesize % 256
           else dec8 s.prog_pagecounter)
         else s.prog_pagecounter) := by
  unfold storeByte
  dsimp only [Prog.call]
  by_cases h1 : s.prog_state = k.PROG_STATE_WRITEFLASH
  · by_cases h2 : s.prog_pagesize = 0
    · rw [if_pos h1, if_pos h2, if_pos h1, if_pos h2, if_neg (fun h => h.2 h2)]
      exact ⟨rfl, rfl⟩
    · by_cases h3 : dec8 s.prog_pagecounter = 0
      · rw [if_pos h1, if_neg h2, if_pos h3, if_pos h1, if_neg h2, if_pos h3, if_pos ⟨h1, h2⟩,
          if_pos h3]
        exact ⟨by rw [List.append_assoc]; rfl, rfl⟩
      · rw [if_pos h1, if_neg h2, if_neg h3, if_pos h1, if_neg h2, if_neg h3, if_pos ⟨h1, h2⟩,
          if_neg h3]
        exact ⟨rfl, rfl⟩
  · rw [if_neg h1, if_neg h1, if_neg (fun h => h1 h.1)]
    exact ⟨rfl, rfl⟩

theorem pair_fst {α β : Type} (a : α) (b : β) : (a, b).1 = a := rfl

theorem pair_snd {α β : Type} (a : α) (b : β) : (a, b).2 = b := rfl

/-- The result of `countByte` while bytes remain. -/
theorem countByte_more (k : Consts) (s : Prog) (b rv : Nat) (h0 : ¬ dec16 s.prog_nbytes = 0) :
    countByte k s b rv = ({ s with prog_nbytes := dec16 s.prog_nbytes }, rv) := by
  rw [countByte]
  simp only [h0, if_false]

/-- The result of `countByte` at the last byte, when no flush is forced. -/
theorem countByte_last (k : Consts) (s : Prog) (b rv : Nat) (h0 : dec16 s.prog_nbytes = 0)
    (hf : ¬ ((s.prog_blockflags &&& k.PROG_BLOCKFLAG_LAST) ≠ 0 ∧
      s.prog_pagecounter ≠ s.prog_pagesize)) :
    countByte k s b rv
      = ({ s with prog_nbytes := dec16 s.prog_nbytes, prog_state := k.PROG_STATE_IDLE }, 1) := by
  rw [countByte]
  simp only [h0, if_true, hf, if_false]

/-- The result of `countByte` at the last byte, when a flush is forced. -/
theorem countByte_forced (k : Consts) (s : Prog) (b rv : Nat) (h0 : dec16 s.prog_nbytes = 0)
    (hf : (s.prog_blockflags &&& k.PROG_BLOCKFLAG_LAST) ≠ 0 ∧
      s.prog_pagecounter ≠ s.prog_pagesize) :
    countByte k s b rv
      = ({ s with prog_nbytes := dec16 s.prog_nbytes, prog_state := k.PROG_STATE_IDLE,
                  calls := s.calls ++ [Call.ispFlushPage s.prog_address b] }, 1) := by
  rw [countByte]
  simp only [h0, if_true, hf, Prog.call, and_self, ne_eq, not_false_eq_true]

/-- What `countByte` does to the state and to `retVal`. -/
theorem countByte_fields (k : Consts) (s : Prog) (b rv : Nat) :
    (countByte k s b rv).1.prog_nbytes = dec16 s.prog_nbytes ∧
    (countByte k s b rv).1.prog_address = s.prog_address ∧
    (countByte k s b rv).1.prog_pagesize = s.prog_pagesize ∧
    (countByte k s b rv).1.prog_blockflags = s.prog_blockflags ∧
    (countByte k s b rv).1.prog_pagecounter = s.prog_pagecounter ∧
    (countByte k s b rv).1.prog_state
      = (if dec16 s.prog_nbytes = 0 then k.PROG_STATE_IDLE else s.prog_state) ∧
    (countByte k s b rv).2 = (if dec16 s.prog_nbytes = 0 then 1 else rv) ∧
    (countByte k s b rv).1.calls
      = s.calls ++
        (if dec16 s.prog_nbytes = 0 ∧ (s.prog_blockflags &&& k.PROG_BLOCKFLAG_LAST) ≠ 0 ∧
            s.prog_pagecounter ≠ s.prog_pagesize then [Call.ispFlushPage s.prog_address b]
         else []) := by
  by_cases h0 : dec16 s.prog_nbytes = 0
  · by_cases hf : (s.prog_blockflags &&& k.PROG_BLOCKFLAG_LAST) ≠ 0 ∧
        s.prog_pagecounter ≠ s.prog_pagesize
    · rw [countByte_forced k s b rv h0 hf, if_pos h0, if_pos h0, if_pos ⟨h0, hf⟩, pair_fst,
        pair_snd]
      exact ⟨rfl, rfl, rfl, rfl, rfl, rfl, rfl, rfl⟩
    · rw [countByte_last k s b rv h0 hf, if_pos h0, if_pos h0, if_neg (fun h => hf h.2),
        List.append_nil, pair_fst, pair_snd]
      exact ⟨rfl, rfl, rfl, rfl, rfl, rfl, rfl, rfl⟩
  · rw [countByte_more k s b rv h0, if_neg h0, if_neg h0, if_neg (fun h => h0 h.1),
      List.append_nil, pair_fst, pair_snd]
    exact ⟨rfl, rfl, rfl, rfl, rfl, rfl, rfl, rfl⟩

/-- An update of the cursor leaves the other fields alone. -/
theorem Prog.prog_address_update (s : Prog) (a : Nat) :
    ({ s with prog_address := a } : Prog).prog_nbytes = s.prog_nbytes ∧
    ({ s with prog_address := a } : Prog).prog_address = a ∧
    ({ s with prog_address := a } : Prog).prog_pagesize = s.prog_pagesize ∧
    ({ s with prog_address := a } : Prog).prog_blockflags = s.prog_blockflags ∧
    ({ s with prog_address := a } : Prog).prog_pagecounter = s.prog_pagecounter ∧
    ({ s with prog_address := a } : Prog).prog_state = s.prog_state ∧
    ({ s with prog_address := a } : Prog).calls = s.calls :=
  ⟨rfl, rfl, rfl, rfl, rfl, rfl, rfl⟩

/-- The loop body `writeByte` in terms of `countByte` and `storeByte`. -/
theorem writeByte_eq (k : Consts) (data : Nat → Nat) (sr : Prog × Nat) (i : Nat) :
    writeByte k data sr i
      = ({ (countByte k (storeByte k sr.1 (data i)) (data i) sr.2).1 with
            prog_address :=
              ((countByte k (storeByte k sr.1 (data i)) (data i) sr.2).1.prog_address + 1)
                % 4294967296 },
         (countByte k (storeByte k sr.1 (data i)) (data i) sr.2).2) := rfl

/-- The fields of the state after one pass of the byte loop, from `countByte`. -/
theorem writeByte_proj (k : Consts) (data : Nat → Nat) (sr : Prog × Nat) (i : Nat) :
    (writeByte k data sr i).1.prog_nbytes
      = (countByte k (storeByte k sr.1 (data i)) (data i) sr.2).1.prog_nbytes ∧
    (writeByte k data sr i).1.prog_address
      = ((countByte k (storeByte k sr.1 (data i)) (data i) sr.2).1.prog_address + 1)
          % 4294967296 ∧
    (writeByte k data sr i).1.prog_pagesize
      = (countByte k (storeByte k sr.1 (data i)) (data i) sr.2).1.prog_pagesize ∧
    (writeByte k data sr i).1.prog_blockflags
      = (countByte k (storeByte k sr.1 (data i)) (data i) sr.2).1.prog_blockflags ∧
    (writeByte k data sr i).1.prog_pagecounter
      = (countByte k (storeByte k sr.1 (data i)) (data i) sr.2).1.prog_pagecounter ∧
    (writeByte k data sr i).1.prog_state
      = (countByte k (storeByte k sr.1 (data i)) (data i) sr.2).1.prog_state ∧
    (writeByte k data sr i).2
      = (countByte k (storeByte k sr.1 (data i)) (data i) sr.2).2 ∧
    (writeByte k data sr i).1.calls
      = (countByte k (storeByte k sr.1 (data i)) (data i) sr.2).1.calls := by
  rewrite [writeByte_eq k data sr i]
  generalize countByte k (storeByte k sr.1 (data i)) (data i) sr.2 = C
  obtain ⟨f1, f2, f3, f4, f5, f6, f7⟩ :=
    Prog.prog_address_update C.1 ((C.1.prog_address + 1) % 4294967296)
  exact ⟨f1, f2, f3, f4, f5, f6, pair_snd _ _, f7⟩

/-- The fields one pass of the byte loop decides, whatever the operation. -/
theorem writeByte_fields (k : Consts) (data : Nat → Nat) (sr : Prog × Nat) (i : Nat) :
    (writeByte k data sr i).1.prog_nbytes = dec16 sr.1.prog_nbytes ∧
    (writeByte k data sr i).1.prog_address = (sr.1.prog_address + 1) % 4294967296 ∧
    (writeByte k data sr i).1.prog_pagesize = sr.1.prog_pagesize ∧
    (writeByte k data sr i).1.prog_blockflags = sr.1.prog_blockflags ∧
    (writeByte k data sr i).1.prog_state
      = (if dec16 sr.1.prog_nbytes = 0 then k.PROG_STATE_IDLE else sr.1.prog_state) ∧
    (writeByte k data sr i).2 = (if dec16 sr.1.prog_nbytes = 0 then 1 else sr.2) := by
  obtain ⟨h1, h2, h3, h4, h5⟩ := storeByte_frame k sr.1 (data i)
  obtain ⟨c1, c2, c3, c4, _, c6, c7, _⟩ :=
    countByte_fields k (storeByte k sr.1 (data i)) (data i) sr.2
  obtain ⟨p1, p2, p3, p4, _, p6, p7, _⟩ := writeByte_proj k data sr i
  rw [p1, p2, p3, p4, p6, p7, c1, c2, c3, c4, c6, c7, h1, h2, h3, h4, h5]
  exact ⟨rfl, rfl, rfl, rfl, rfl, rfl⟩

/-- The calls one pass of the byte loop makes and the page counter it leaves. -/
theorem writeByte_effect (k : Consts) (data : Nat → Nat) (sr : Prog × Nat) (i : Nat) :
    (writeByte k data sr i).1.calls
      = (storeByte k sr.1 (data i)).calls ++
        (if dec16 sr.1.prog_nbytes = 0 ∧
            (sr.1.prog_blockflags &&& k.PROG_BLOCKFLAG_LAST) ≠ 0 ∧
            (storeByte k sr.1 (data i)).prog_pagecounter ≠ sr.1.prog_pagesize then
          [Call.ispFlushPage sr.1.prog_address (data i)]
         else []) ∧
    (writeByte k data sr i).1.prog_pagecounter
      = (storeByte k sr.1 (data i)).prog_pagecounter := by
  obtain ⟨h1, h2, h3, h4, h5⟩ := storeByte_frame k sr.1 (data i)
  obtain ⟨_, _, _, _, c5, _, _, c8⟩ :=
    countByte_fields k (storeByte k sr.1 (data i)) (data i) sr.2
  obtain ⟨_, _, _, _, p5, _, _, p8⟩ := writeByte_proj k data sr i
  rw [p5, p8, c5, c8, h2, h3, h4, h5]
  exact ⟨rfl, rfl⟩

theorem dec16_pos (m : Nat) (h1 : 1 ≤ m) (h : m < 65536) : dec16 m = m - 1 := by
  unfold dec16
  omega

/-- The cursor after the byte loop over `len` bytes. -/
theorem writeLoop_address (k : Consts) (data : Nat → Nat) (len : Nat) :
    ∀ (s : Prog) (rv : Nat), s.prog_address < 4294967296 →
      ((List.range len).foldl (writeByte k data) (s, rv)).1.prog_address
        = (s.prog_address + len) % 4294967296 := by
  induction len with
  | zero =>
    intro s rv ha
    simp only [List.range_zero, List.foldl_nil, Nat.add_zero]
    omega
  | succ len ih =>
    intro s rv ha
    rw [List.range_succ, List.foldl_append, List.foldl_cons, List.foldl_nil]
    have w := (writeByte_fields k data ((List.range len).foldl (writeByte k data) (s, rv))
      len).2.1
    rw [w, ih s rv ha]
    omega

/-- The byte loop over `len` bytes when at least `len` bytes remain: the counter, the page
size, the block flags, the operation and the value to return. -/
theorem writeLoop_fields0 (k : Consts) (data : Nat → Nat) (len : Nat) :
    ∀ (s : Prog) (rv : Nat), len ≤ s.prog_nbytes → s.prog_nbytes < 65536 →
      ((List.range len).foldl (writeByte k data) (s, rv)).1.prog_nbytes = s.prog_nbytes - len ∧
      ((List.range len).foldl (writeByte k data) (s, rv)).1.prog_pagesize = s.prog_pagesize ∧
      ((List.range len).foldl (writeByte k data) (s, rv)).1.prog_blockflags
        = s.prog_blockflags ∧
      ((List.range len).foldl (writeByte k data) (s, rv)).1.prog_state
        = (if len ≠ 0 ∧ len = s.prog_nbytes then k.PROG_STATE_IDLE else s.prog_state) ∧
      ((List.range len).foldl (writeByte k data) (s, rv)).2
        = (if len ≠ 0 ∧ len = s.prog_nbytes then 1 else rv) := by
  induction len with
  | zero =>
    intro s rv _ _
    simp only [List.range_zero, List.foldl_nil, ne_eq, not_true_eq_false, false_and, if_false,
      Nat.sub_zero, and_self]
  | succ len ih =>
    intro s rv hle hn
    obtain ⟨i1, i3, i4, i5, i6⟩ := ih s rv (by omega) hn
    rw [List.range_succ, List.foldl_append, List.foldl_cons, List.foldl_nil]
    have hne : ¬ (len ≠ 0 ∧ len = s.prog_nbytes) := by omega
    rw [if_neg hne] at i5 i6
    obtain ⟨w1, _, w3, w4, w5, w6⟩ := writeByte_fields k data
      ((List.range len).foldl (writeByte k data) (s, rv)) len
    have hd : dec16 (s.prog_nbytes - len) = s.prog_nbytes - len - 1 :=
      dec16_pos _ (by omega) (by omega)
    rw [i1, hd] at w1 w5 w6
    refine ⟨by rw [w1]; omega, by rw [w3, i3], by rw [w4, i4], ?_, ?_⟩
    · rw [w5, i5]
      by_cases he : len + 1 = s.prog_nbytes
      · rw [if_pos (by omega), if_pos ⟨Nat.succ_ne_zero _, he⟩]
      · rw [if_neg (by omega), if_neg (by omega)]
    · rw [w6, i6]
      by_cases he : len + 1 = s.prog_nbytes
      · rw [if_pos (by omega), if_pos ⟨Nat.succ_ne_zero _, he⟩]
      · rw [if_neg (by omega), if_neg (by omega)]

/-- The byte loop over `len` bytes when at least `len` bytes remain: the counter, the
cursor, the operation and the value to return. -/
theorem writeLoop_fields (k : Consts) (data : Nat → Nat) (len : Nat) (s : Prog) (rv : Nat)
    (hle : len ≤ s.prog_nbytes) (hn : s.prog_nbytes < 65536)
    (ha : s.prog_address < 4294967296) :
    ((List.range len).foldl (writeByte k data) (s, rv)).1.prog_nbytes = s.prog_nbytes - len ∧
    ((List.range len).foldl (writeByte k data) (s, rv)).1.prog_address
      = (s.prog_address + len) % 4294967296 ∧
    ((List.range len).foldl (writeByte k data) (s, rv)).1.prog_pagesize = s.prog_pagesize ∧
    ((List.range len).foldl (writeByte k data) (s, rv)).1.prog_blockflags
      = s.prog_blockflags ∧
    ((List.range len).foldl (writeByte k data) (s, rv)).1.prog_state
      = (if len ≠ 0 ∧ len = s.prog_nbytes then k.PROG_STATE_IDLE else s.prog_state) ∧
    ((List.range len).foldl (writeByte k data) (s, rv)).2
      = (if len ≠ 0 ∧ len = s.prog_nbytes then 1 else rv) := by
  obtain ⟨h1, h3, h4, h5, h6⟩ := writeLoop_fields0 k data len s rv hle hn
  exact ⟨h1, writeLoop_address k data len s rv ha, h3, h4, h5, h6⟩

/-- In the WriteFlash and WriteEeprom states `usbFunctionWrite` is its byte loop. -/
theorem usbFunctionWrite_loop (k : Consts) (s : Prog) (data : Nat → Nat) (len : Nat)
    (hk : k.WellFormed)
    (hst : s.prog_state = k.PROG_STATE_WRITEFLASH ∨ s.prog_state = k.PROG_STATE_WRITEEEPROM) :
    usbFunctionWrite k s data len
      = (((List.range len).foldl (writeByte k data) (s, 0)).2,
         ((List.range len).foldl (writeByte k data) (s, 0)).1) := by
  have n1 : s.prog_state ≠ k.PROG_STATE_UART_TX := by
    rcases hst with h | h
    · rw [h]; exact k.state_ne hk 1 8 (by decide)
    · rw [h]; exact k.state_ne hk 4 8 (by decide)
  have n2 : s.prog_state ≠ k.PROG_STATE_TPI_WRITE := by
    rcases hst with h | h
    · rw [h]; exact k.state_ne hk 1 6 (by decide)
    · rw [h]; exact k.state_ne hk 4 6 (by decide)
  unfold usbFunctionWrite
  rw [if_neg n1, if_neg (by tauto), if_neg n2]

/-! ## C23: a packet that is longer than the remaining count -/

theorem flashWrites_append (l1 l2 : List Call) :
    flashWrites (l1 ++ l2) = flashWrites l1 ++ flashWrites l2 := by
  unfold flashWrites
  rw [List.filterMap_append]

theorem eepromWrites_append (l1 l2 : List Call) :
    eepromWrites (l1 ++ l2) = eepromWrites l1 ++ eepromWrites l2 := by
  unfold eepromWrites
  rw [List.filterMap_append]

theorem byteWrites_append (l1 : List Nat) :
    ∀ (a : Nat) (l2 : List Nat), a < 4294967296 →
      byteWrites a (l1 ++ l2)
        = byteWrites a l1 ++ byteWrites ((a + l1.length) % 4294967296) l2 := by
  induction l1 with
  | nil =>
    intro a l2 ha
    have h : (a + 0) % 4294967296 = a := by omega
    simp only [List.nil_append, byteWrites, List.length_nil, h]
  | cons b bs ih =>
    intro a l2 ha
    have h : ((a + 1) % 4294967296 + bs.length) % 4294967296
        = (a + (bs.length + 1)) % 4294967296 := by omega
    have hm : (a + 1) % 4294967296 < 4294967296 := Nat.mod_lt _ (by omega)
    rw [List.cons_append, List.length_cons]
    show (a, b) :: byteWrites ((a + 1) % 4294967296) (bs ++ l2)
      = ((a, b) :: byteWrites ((a + 1) % 4294967296) bs)
        ++ byteWrites ((a + (bs.length + 1)) % 4294967296) l2
    rw [ih _ l2 hm, h, List.cons_append]

/-- The target of one pass of the byte loop: the flash in the WriteFlash state, the EEPROM
in every other state. -/
theorem writeByte_writes (k : Consts) (data : Nat → Nat) (sr : Prog × Nat) (i : Nat) :
    (sr.1.prog_state = k.PROG_STATE_WRITEFLASH →
      flashWrites (writeByte k data sr i).1.calls
        = flashWrites sr.1.calls ++ [(sr.1.prog_address, data i)] ∧
      eepromWrites (writeByte k data sr i).1.calls = eepromWrites sr.1.calls) ∧
    (sr.1.prog_state ≠ k.PROG_STATE_WRITEFLASH →
      eepromWrites (writeByte k data sr i).1.calls
        = eepromWrites sr.1.calls ++ [(sr.1.prog_address, data i)] ∧
      flashWrites (writeByte k data sr i).1.calls = flashWrites sr.1.calls) := by
  obtain ⟨e1, _⟩ := writeByte_effect k data sr i
  obtain ⟨s1, _⟩ := storeByte_effect k sr.1 (data i)
  rw [e1, s1]
  constructor
  · intro hst
    rw [if_pos hst]
    split_ifs <;> simp [flashWrites, eepromWrites]
  · intro hst
    rw [if_neg hst]
    split_ifs <;> simp [flashWrites, eepromWrites]

theorem byteWrites_length (l : List Nat) : ∀ a : Nat, (byteWrites a l).length = l.length := by
  induction l with
  | nil => intro a; rfl
  | cons b bs ih => intro a; simp only [byteWrites, List.length_cons, ih]

/-- The bytes of one packet that does not exceed the remaining count go to the target of
the operation, at consecutive addresses from the cursor on. -/
theorem writeLoop_writes (k : Consts) (hk : k.WellFormed) (data : Nat → Nat) (len : Nat) :
    ∀ (s : Prog) (rv : Nat), len ≤ s.prog_nbytes → s.prog_nbytes < 65536 →
      s.prog_address < 4294967296 →
      (s.prog_state = k.PROG_STATE_WRITEFLASH →
        flashWrites ((List.range len).foldl (writeByte k data) (s, rv)).1.calls
          = flashWrites s.calls ++ byteWrites s.prog_address ((List.range len).map data) ∧
        eepromWrites ((List.range len).foldl (writeByte k data) (s, rv)).1.calls
          = eepromWrites s.calls) ∧
      (s.prog_state = k.PROG_STATE_WRITEEEPROM →
        eepromWrites ((List.range len).foldl (writeByte k data) (s, rv)).1.calls
          = eepromWrites s.calls ++ byteWrites s.prog_address ((List.range len).map data) ∧
        flashWrites ((List.range len).foldl (writeByte k data) (s, rv)).1.calls
          = flashWrites s.calls) := by
  induction len with
  | zero =>
    intro s rv _ _ _
    simp only [List.range_zero, List.foldl_nil, List.map_nil, byteWrites, List.append_nil,
      and_self, implies_true]
  | succ len ih =>
    intro s rv hle hn ha
    obtain ⟨ihf, ihe⟩ := ih s rv (by omega) hn ha
    obtain ⟨_, f2, _, _, f5, _⟩ := writeLoop_fields k data len s rv (by omega) hn ha
    rw [if_neg (by omega)] at f5
    obtain ⟨wf, we⟩ := writeByte_writes k data
      ((List.range len).foldl (writeByte k data) (s, rv)) len
    rw [List.range_succ, List.foldl_append, List.foldl_cons, List.foldl_nil, List.map_append,
      List.map_cons, List.map_nil, byteWrites_append _ _ _ ha, List.length_map,
      List.length_range]
    constructor
    · intro hst
      obtain ⟨w1, w2⟩ := wf (by rw [f5]; exact hst)
      rw [w1, w2, (ihf hst).1, (ihf hst).2, f2, List.append_assoc]
      exact ⟨rfl, rfl⟩
    · intro hst
      obtain ⟨w1, w2⟩ := we (by rw [f5, hst]; exact k.state_ne hk 4 1 (by decide))
      rw [w1, w2, (ihe hst).1, (ihe hst).2, f2, List.append_assoc]
      exact ⟨rfl, rfl⟩

/-- C23, for a packet that does not exceed the remaining count.  In the WriteFlash or
WriteEeprom state with `len ≤ r`, `usbFunctionWrite` writes exactly the `len` bytes of the
packet to the target of the operation, at the cursor and the addresses after it, and nothing
to the other target; the cursor advances by `len` and the remaining count decreases by
`len`. -/
theorem write_packet_within_remaining (k : Consts) (s : Prog) (data : Nat → Nat) (len : Nat)
    (hk : k.WellFormed)
    (hst : s.prog_state = k.PROG_STATE_WRITEFLASH ∨ s.prog_state = k.PROG_STATE_WRITEEEPROM)
    (hle : len ≤ s.prog_nbytes) (hn : s.prog_nbytes < 65536)
    (ha : s.prog_address < 4294967296) :
    (usbFunctionWrite k s data len).2.prog_nbytes = s.prog_nbytes - len ∧
    (usbFunctionWrite k s data len).2.prog_address = (s.prog_address + len) % 4294967296 ∧
    (byteWrites s.prog_address ((List.range len).map data)).length = len ∧
    (s.prog_state = k.PROG_STATE_WRITEFLASH →
      flashWrites (usbFunctionWrite k s data len).2.calls
        = flashWrites s.calls ++ byteWrites s.prog_address ((List.range len).map data) ∧
      eepromWrites (usbFunctionWrite k s data len).2.calls = eepromWrites s.calls) ∧
    (s.prog_state = k.PROG_STATE_WRITEEEPROM →
      eepromWrites (usbFunctionWrite k s data len).2.calls
        = eepromWrites s.calls ++ byteWrites s.prog_address ((List.range len).map data) ∧
      flashWrites (usbFunctionWrite k s data len).2.calls = flashWrites s.calls) := by
  rw [usbFunctionWrite_loop k s data len hk hst]
  obtain ⟨f1, f2, _, _, _, _⟩ := writeLoop_fields k data len s 0 hle hn ha
  obtain ⟨h1, h2⟩ := writeLoop_writes k hk data len s 0 hle hn ha
  refine ⟨f1, f2, ?_, h1, h2⟩
  rw [byteWrites_length, List.length_map, List.length_range]

theorem write_packet_within_remaining_witness :
    usbasp_h.WellFormed ∧
    (usbFunctionWrite usbasp_h
      (usbFunctionSetup usbasp_h Env.sample (Prog.boot usbasp_h 96 352)
        (packet [0, 6, 0x10, 0x00, 0, 0, 5, 0])).2
      (packet [7, 8, 9]) 3).2.prog_nbytes = 5 - 3 :=
  ⟨by decide,
    (write_packet_within_remaining usbasp_h
      (usbFunctionSetup usbasp_h Env.sample (Prog.boot usbasp_h 96 352)
        (packet [0, 6, 0x10, 0x00, 0, 0, 5, 0])).2
      (packet [7, 8, 9]) 3 (by decide) (Or.inl (by decide)) (by decide) (by decide)
      (by decide)).1⟩

/-- C23, at a concrete input.  After reset a write-flash command announces 1 byte at the
address `0x10` (page size 0, no block flag).  A packet of 2 bytes then gets its first byte
written to the flash, which brings the remaining count to 0 and the operation to Idle; the
loop goes on all the same, and as the operation is no more WriteFlash the second byte is
written to the EEPROM at `0x11`.  The cursor advances by 2, not by `min(2, 1) = 1`, and the
remaining count wraps to `65535`. -/
theorem write_beyond_remaining_goes_to_eeprom :
    (usbFunctionSetup usbasp_h Env.sample (Prog.boot usbasp_h 96 352)
      (packet [0, 6, 0x10, 0x00, 0, 0, 1, 0])).2.prog_state
      = usbasp_h.PROG_STATE_WRITEFLASH ∧
    (usbFunctionSetup usbasp_h Env.sample (Prog.boot usbasp_h 96 352)
      (packet [0, 6, 0x10, 0x00, 0, 0, 1, 0])).2.prog_nbytes = 1 ∧
    (usbFunctionWrite usbasp_h
      (usbFunctionSetup usbasp_h Env.sample (Prog.boot usbasp_h 96 352)
        (packet [0, 6, 0x10, 0x00, 0, 0, 1, 0])).2
      (packet [0xAA, 0xBB]) 2).2.calls
      = [Call.ispWriteFlash 0x10 0xAA 1, Call.ispWriteEEPROM 0x11 0xBB] ∧
    (usbFunctionWrite usbasp_h
      (usbFunctionSetup usbasp_h Env.sample (Prog.boot usbasp_h 96 352)
        (packet [0, 6, 0x10, 0x00, 0, 0, 1, 0])).2
      (packet [0xAA, 0xBB]) 2).2.prog_address = 0x12 ∧
    (usbFunctionWrite usbasp_h
      (usbFunctionSetup usbasp_h Env.sample (Prog.boot usbasp_h 96 352)
        (packet [0, 6, 0x10, 0x00, 0, 0, 1, 0])).2
      (packet [0xAA, 0xBB]) 2).2.prog_nbytes = 65535 ∧
    (usbFunctionWrite usbasp_h
      (usbFunctionSetup usbasp_h Env.sample (Prog.boot usbasp_h 96 352)
        (packet [0, 6, 0x10, 0x00, 0, 0, 1, 0])).2
      (packet [0xAA, 0xBB]) 2).1 = 1 := by
  decide

/-- The same in the WriteEeprom state: after a write-EEPROM command that announces 1 byte, a
packet of 2 bytes gets both bytes written to the EEPROM. -/
theorem write_beyond_remaining_eeprom :
    (usbFunctionWrite usbasp_h
      (usbFunctionSetup usbasp_h Env.sample (Prog.boot usbasp_h 96 352)
        (packet [0, 8, 0x10, 0x00, 0, 0, 1, 0])).2
      (packet [0xAA, 0xBB]) 2).2.calls
      = [Call.ispWriteEEPROM 0x10 0xAA, Call.ispWriteEEPROM 0x11 0xBB] := by
  decide

/-! ## C27: the remaining count of the UartTx and WriteTpi states -/

theorem sub16_int (r len : Nat) (hr : r < 65536) (hlen : len < 256) :
    ((sub16 r len : Nat) : Int) = ((r : Int) - (len : Int)) % 65536 := by
  unfold sub16
  omega

theorem sub16_eq_zero_iff (r len : Nat) (hr : r < 65536) (hlen : len < 256) :
    sub16 r len = 0 ↔ len = r := by
  unfold sub16
  omega

/-- The UART-TX branch of `usbFunctionWrite` for a packet with bytes that brings the
remaining count to 0. -/
theorem usbFunctionWrite_uart_tx_done (k : Consts) (s : Prog) (data : Nat → Nat) (len : Nat)
    (hst : s.prog_state = k.PROG_STATE_UART_TX) (h0 : sub16 s.prog_nbytes len = 0)
    (hl : len ≠ 0) :
    usbFunctionWrite k s data len
      = (1, { s with uart := uart_putsn k s.uart data len,
                     prog_nbytes := sub16 s.prog_nbytes len,
                     prog_state := k.PROG_STATE_IDLE }) := by
  rw [usbFunctionWrite, if_pos hst]
  simp only [hl, ne_eq, not_false_eq_true, if_true, h0, Nat.le_refl]

/-- The UART-TX branch of `usbFunctionWrite` for a packet with bytes that leaves a remaining
count other than 0. -/
theorem usbFunctionWrite_uart_tx_more (k : Consts) (s : Prog) (data : Nat → Nat) (len : Nat)
    (hst : s.prog_state = k.PROG_STATE_UART_TX) (h0 : sub16 s.prog_nbytes len ≠ 0)
    (hl : len ≠ 0) :
    usbFunctionWrite k s data len
      = (0, { s with uart := uart_putsn k s.uart data len,
                     prog_nbytes := sub16 s.prog_nbytes len }) := by
  rw [usbFunctionWrite, if_pos hst]
  simp only [hl, ne_eq, not_false_eq_true, if_true, Nat.le_zero_eq, h0, if_false]

/-- The UART-TX branch of `usbFunctionWrite` for a packet of no byte that brings the
remaining count to 0. -/
theorem usbFunctionWrite_uart_tx_zero_done (k : Consts) (s : Prog) (data : Nat → Nat)
    (hst : s.prog_state = k.PROG_STATE_UART_TX) (h0 : sub16 s.prog_nbytes 0 = 0) :
    usbFunctionWrite k s data 0
      = (1, { s with prog_nbytes := sub16 s.prog_nbytes 0,
                     prog_state := k.PROG_STATE_IDLE }) := by
  rw [usbFunctionWrite, if_pos hst]
  simp only [ne_eq, not_true_eq_false, if_false, h0, Nat.le_refl, if_true]

/-- The UART-TX branch of `usbFunctionWrite` for a packet of no byte that leaves a remaining
count other than 0. -/
theorem usbFunctionWrite_uart_tx_zero_more (k : Consts) (s : Prog) (data : Nat → Nat)
    (hst : s.prog_state = k.PROG_STATE_UART_TX) (h0 : sub16 s.prog_nbytes 0 ≠ 0) :
    usbFunctionWrite k s data 0 = (0, { s with prog_nbytes := sub16 s.prog_nbytes 0 }) := by
  rw [usbFunctionWrite, if_pos hst]
  simp only [ne_eq, not_true_eq_false, if_false, Nat.le_zero_eq, h0]

/-- The fields the UART-TX branch of `usbFunctionWrite` decides. -/
theorem usbFunctionWrite_uart_tx_fields (k : Consts) (s : Prog) (data : Nat → Nat) (len : Nat)
    (hst : s.prog_state = k.PROG_STATE_UART_TX) :
    (usbFunctionWrite k s data len).2.prog_nbytes = sub16 s.prog_nbytes len ∧
    (usbFunctionWrite k s data len).1 = (if sub16 s.prog_nbytes len = 0 then 1 else 0) ∧
    (usbFunctionWrite k s data len).2.prog_state
      = (if sub16 s.prog_nbytes len = 0 then k.PROG_STATE_IDLE else s.prog_state) ∧
    (usbFunctionWrite k s data len).2.prog_address = s.prog_address := by
  by_cases hl : len = 0
  · subst hl
    by_cases h0 : sub16 s.prog_nbytes 0 = 0
    · rw [usbFunctionWrite_uart_tx_zero_done k s data hst h0, if_pos h0, if_pos h0, pair_fst,
        pair_snd]
      exact ⟨rfl, rfl, rfl, rfl⟩
    · rw [usbFunctionWrite_uart_tx_zero_more k s data hst h0, if_neg h0, if_neg h0, pair_fst,
        pair_snd]
      exact ⟨rfl, rfl, rfl, rfl⟩
  · by_cases h0 : sub16 s.prog_nbytes len = 0
    · rw [usbFunctionWrite_uart_tx_done k s data len hst h0 hl, if_pos h0, if_pos h0, pair_fst,
        pair_snd]
      exact ⟨rfl, rfl, rfl, rfl⟩
    · rw [usbFunctionWrite_uart_tx_more k s data len hst h0 hl, if_neg h0, if_neg h0, pair_fst,
        pair_snd]
      exact ⟨rfl, rfl, rfl, rfl⟩

/-- The fields the TPI branch of `usbFunctionWrite` decides. -/
theorem usbFunctionWrite_tpi_fields (k : Consts) (s : Prog) (data : Nat → Nat) (len : Nat)
    (hk : k.WellFormed) (hst : s.prog_state = k.PROG_STATE_TPI_WRITE) :
    (usbFunctionWrite k s data len).2.prog_nbytes = sub16 s.prog_nbytes len ∧
    (usbFunctionWrite k s data len).1 = (if sub16 s.prog_nbytes len = 0 then 1 else 0) ∧
    (usbFunctionWrite k s data len).2.prog_state
      = (if sub16 s.prog_nbytes len = 0 then k.PROG_STATE_IDLE else s.prog_state) ∧
    (usbFunctionWrite k s data len).2.prog_address = (s.prog_address + len) % 4294967296 := by
  have n1 : s.prog_state ≠ k.PROG_STATE_UART_TX := by
    rw [hst]; exact k.state_ne hk 6 8 (by decide)
  unfold usbFunctionWrite
  rw [if_neg n1, if_neg (by rw [hst]; tauto), if_pos hst]
  by_cases h0 : sub16 s.prog_nbytes len = 0 <;> simp [h0, Prog.call]

/-- C27.  In the UartTx and WriteTpi states, for a remaining count `r` that fits the 16-bit
`unsigned int` and a packet length that fits the `uchar` parameter: after `usbFunctionWrite`
the remaining count is `(r - len) mod 2^16`; if `r < len` the function returns 0 and the
operation keeps its state, which is not Idle, with a remaining count that is not 0; the
function returns 1 exactly when `len = r`, and the operation is Idle afterwards exactly
when `len = r`. -/
theorem remaining_wraps_below_zero (k : Consts) (s : Prog) (data : Nat → Nat) (len : Nat)
    (hk : k.WellFormed)
    (hst : s.prog_state = k.PROG_STATE_UART_TX ∨ s.prog_state = k.PROG_STATE_TPI_WRITE)
    (hr : s.prog_nbytes < 65536) (hlen : len < 256) :
    (((usbFunctionWrite k s data len).2.prog_nbytes : Nat) : Int)
      = ((s.prog_nbytes : Int) - (len : Int)) % 65536 ∧
    (s.prog_nbytes < len →
      (usbFunctionWrite k s data len).1 = 0 ∧
      (usbFunctionWrite k s data len).2.prog_state = s.prog_state ∧
      (usbFunctionWrite k s data len).2.prog_state ≠ k.PROG_STATE_IDLE ∧
      (usbFunctionWrite k s data len).2.prog_nbytes = s.prog_nbytes + 65536 - len) ∧
    ((usbFunctionWrite k s data len).1 = 1 ↔ len = s.prog_nbytes) ∧
    ((usbFunctionWrite k s data len).2.prog_state = k.PROG_STATE_IDLE ↔
      len = s.prog_nbytes) := by
  have hf : (usbFunctionWrite k s data len).2.prog_nbytes = sub16 s.prog_nbytes len ∧
      (usbFunctionWrite k s data len).1 = (if sub16 s.prog_nbytes len = 0 then 1 else 0) ∧
      (usbFunctionWrite k s data len).2.prog_state
        = (if sub16 s.prog_nbytes len = 0 then k.PROG_STATE_IDLE else s.prog_state) := by
    rcases hst with h | h
    · have := usbFunctionWrite_uart_tx_fields k s data len h
      exact ⟨this.1, this.2.1, this.2.2.1⟩
    · have := usbFunctionWrite_tpi_fields k s data len hk h
      exact ⟨this.1, this.2.1, this.2.2.1⟩
  have hidle : s.prog_state ≠ k.PROG_STATE_IDLE := by
    rcases hst with h | h
    · rw [h]; exact k.state_ne hk 8 0 (by decide)
    · rw [h]; exact k.state_ne hk 6 0 (by decide)
  obtain ⟨h1, h2, h3⟩ := hf
  have hz := sub16_eq_zero_iff s.prog_nbytes len hr hlen
  refine ⟨?_, ?_, ?_, ?_⟩
  · rw [h1]; exact sub16_int _ _ hr hlen
  · intro hlt
    have hne : sub16 s.prog_nbytes len ≠ 0 := by rw [Ne, hz]; omega
    rw [h1, h2, h3, if_neg hne, if_neg hne]
    refine ⟨rfl, rfl, hidle, ?_⟩
    unfold sub16
    omega
  · rw [h2, ← hz]
    by_cases h0 : sub16 s.prog_nbytes len = 0
    · rw [if_pos h0]; exact ⟨fun _ => h0, fun _ => rfl⟩
    · rw [if_neg h0]; exact ⟨fun h => absurd h (by decide), fun h => absurd h h0⟩
  · rw [h3, ← hz]
    by_cases h0 : sub16 s.prog_nbytes len = 0
    · rw [if_pos h0]; exact ⟨fun _ => h0, fun _ => rfl⟩
    · rw [if_neg h0]; exact ⟨fun h => absurd h hidle, fun h => absurd h h0⟩

theorem remaining_wraps_below_zero_witness :
    usbasp_h.WellFormed ∧
    (usbFunctionSetup usbasp_h Env.sample (Prog.boot usbasp_h 96 352)
      (packet [0, 16, 0x10, 0x00, 0, 0, 3, 0])).2.prog_nbytes < 65536 ∧
    (usbFunctionWrite usbasp_h
      (usbFunctionSetup usbasp_h Env.sample (Prog.boot usbasp_h 96 352)
        (packet [0, 16, 0x10, 0x00, 0, 0, 3, 0])).2
      (packet [1, 2, 3, 4, 5]) 5).1 = 0 :=
  ⟨by decide, by decide,
    ((remaining_wraps_below_zero usbasp_h
      (usbFunctionSetup usbasp_h Env.sample (Prog.boot usbasp_h 96 352)
        (packet [0, 16, 0x10, 0x00, 0, 0, 3, 0])).2
      (packet [1, 2, 3, 4, 5]) 5 (by decide) (Or.inr (by decide)) (by decide)
      (by decide)).2.1 (by decide)).1⟩

/-! ## C24: a write operation whose packets sum to the remaining count -/

theorem sub16_le (r len : Nat) (hr : r < 65536) (hle : len ≤ r) : sub16 r len = r - len := by
  unfold sub16
  omega

/-- One packet of a write operation that does not exceed the remaining count. -/
theorem usbFunctionWrite_within (k : Consts) (s : Prog) (data : Nat → Nat) (len : Nat)
    (hk : k.WellFormed)
    (hst : s.prog_state = k.PROG_STATE_WRITEFLASH ∨ s.prog_state = k.PROG_STATE_WRITEEEPROM ∨
      s.prog_state = k.PROG_STATE_TPI_WRITE)
    (h1 : 1 ≤ len) (hle : len ≤ s.prog_nbytes) (hn : s.prog_nbytes < 65536)
    (ha : s.prog_address < 4294967296) :
    (usbFunctionWrite k s data len).1 = (if len = s.prog_nbytes then 1 else 0) ∧
    (usbFunctionWrite k s data len).2.prog_state
      = (if len = s.prog_nbytes then k.PROG_STATE_IDLE else s.prog_state) ∧
    (usbFunctionWrite k s data len).2.prog_nbytes = s.prog_nbytes - len ∧
    (usbFunctionWrite k s data len).2.prog_address = (s.prog_address + len) % 4294967296 := by
  have hloop : s.prog_state = k.PROG_STATE_WRITEFLASH ∨
      s.prog_state = k.PROG_STATE_WRITEEEPROM →
      (usbFunctionWrite k s data len).1 = (if len = s.prog_nbytes then 1 else 0) ∧
      (usbFunctionWrite k s data len).2.prog_state
        = (if len = s.prog_nbytes then k.PROG_STATE_IDLE else s.prog_state) ∧
      (usbFunctionWrite k s data len).2.prog_nbytes = s.prog_nbytes - len ∧
      (usbFunctionWrite k s data len).2.prog_address
        = (s.prog_address + len) % 4294967296 := by
    intro h
    rw [usbFunctionWrite_loop k s data len hk h]
    obtain ⟨w1, w2, _, _, w5, w6⟩ := writeLoop_fields k data len s 0 hle hn ha
    have hne : len ≠ 0 := by omega
    simp only [ne_eq, hne, not_false_eq_true, true_and] at w5 w6
    exact ⟨w6, w5, w1, w2⟩
  rcases hst with h | h | h
  · exact hloop (Or.inl h)
  · exact hloop (Or.inr h)
  · obtain ⟨t1, t2, t3, t4⟩ := usbFunctionWrite_tpi_fields k s data len hk h
    have hs := sub16_le s.prog_nbytes len hn hle
    have hz : sub16 s.prog_nbytes len = 0 ↔ len = s.prog_nbytes := by rw [hs]; omega
    rw [t1, t2, t3, t4]
    by_cases he : len = s.prog_nbytes
    · rw [if_pos (hz.mpr he), if_pos (hz.mpr he), if_pos he, if_pos he]
      exact ⟨rfl, rfl, hs, rfl⟩
    · rw [if_neg (fun c => he (hz.mp c)), if_neg (fun c => he (hz.mp c)), if_neg he, if_neg he]
      exact ⟨rfl, rfl, hs, rfl⟩

/-- The packets of a write operation, when their lengths sum to the remaining count. -/
theorem writePackets_complete (k : Consts) (hk : k.WellFormed)
    (ps : List ((Nat → Nat) × Nat)) :
    ∀ (s : Prog),
      (s.prog_state = k.PROG_STATE_WRITEFLASH ∨ s.prog_state = k.PROG_STATE_WRITEEEPROM ∨
        s.prog_state = k.PROG_STATE_TPI_WRITE) →
      1 ≤ s.prog_nbytes → s.prog_nbytes < 65536 → s.prog_address < 4294967296 →
      (∀ p ∈ ps, 1 ≤ p.2) → (ps.map fun p => p.2).sum = s.prog_nbytes →
      writePacketsRets k s ps = List.replicate (ps.length - 1) 0 ++ [1] ∧
      (∀ m, m < ps.length → (writePackets k s (ps.take m)).prog_state = s.prog_state) ∧
      (writePackets k s ps).prog_state = k.PROG_STATE_IDLE ∧
      (writePackets k s ps).prog_nbytes = 0 ∧
      (writePackets k s ps).prog_address
        = (s.prog_address + s.prog_nbytes) % 4294967296 := by
  induction ps with
  | nil =>
    intro s _ h1 _ _ _ hsum
    simp only [List.map_nil, List.sum_nil] at hsum
    omega
  | cons p ps ih =>
    intro s hst h1 hn ha hlen hsum
    simp only [List.map_cons, List.sum_cons] at hsum
    have hp1 : 1 ≤ p.2 := hlen p (List.mem_cons_self _ _)
    obtain ⟨w1, w2, w3, w4⟩ :=
      usbFunctionWrite_within k s p.1 p.2 hk hst hp1 (by omega) hn ha
    by_cases he : p.2 = s.prog_nbytes
    · -- the last packet
      have hnil : ps = [] := by
        cases ps with
        | nil => rfl
        | cons q qs =>
          have hq : 1 ≤ q.2 := hlen q (List.mem_cons_of_mem _ (List.mem_cons_self _ _))
          simp only [List.map_cons, List.sum_cons] at hsum
          omega
      subst hnil
      rw [if_pos he] at w1 w2
      refine ⟨?_, ?_, ?_, ?_, ?_⟩
      · simp only [writePacketsRets, w1, List.length_singleton, Nat.sub_self,
          List.replicate_zero, List.nil_append]
      · intro m hm
        have hm0 : m = 0 := by simpa using hm
        subst hm0
        rfl
      · simpa only [writePackets] using w2
      · simp only [writePackets, w3]; omega
      · simp only [writePackets]
        rw [w4, he]
    · -- a packet before the last
      rw [if_neg he] at w1 w2
      have hst2 : (usbFunctionWrite k s p.1 p.2).2.prog_state = k.PROG_STATE_WRITEFLASH ∨
          (usbFunctionWrite k s p.1 p.2).2.prog_state = k.PROG_STATE_WRITEEEPROM ∨
          (usbFunctionWrite k s p.1 p.2).2.prog_state = k.PROG_STATE_TPI_WRITE := by
        rw [w2]; exact hst
      obtain ⟨r1, r2, r3, r4, r5⟩ := ih (usbFunctionWrite k s p.1 p.2).2 hst2
        (by rw [w3]; omega) (by rw [w3]; omega) (by rw [w4]; omega)
        (fun q hq => hlen q (List.mem_cons_of_mem _ hq)) (by rw [w3]; omega)
      have hpos : 1 ≤ ps.length := by
        cases ps with
        | nil => simp only [List.map_nil, List.sum_nil] at hsum; omega
        | cons q qs => simp
      refine ⟨?_, ?_, ?_, ?_, ?_⟩
      · simp only [writePacketsRets, w1, r1, List.length_cons, Nat.add_sub_cancel]
        have hl : ps.length = (ps.length - 1) + 1 := by omega
        nth_rewrite 2 [hl]
        rw [List.replicate_succ, List.cons_append]
      · intro m hm
        cases m with
        | zero => rfl
        | succ m =>
          simp only [List.take_succ_cons, writePackets]
          rw [r2 m (by simpa using hm), w2]
      · simpa only [writePackets] using r3
      · simpa only [writePackets] using r4
      · simp only [writePackets, r5, w3, w4]
        omega

/-- C24.  For every write operation in the WriteFlash, WriteEeprom or WriteTpi state with a
remaining count `n` of at least 1 (a 16-bit value; the cursor a 32-bit value) and every
sequence of packets with lengths between 1 and 8 that sum to `n`: `usbFunctionWrite`
returns 0 for every packet but the last and 1 for the last; before each packet the operation
is still in its write state and after the last one it is Idle; the remaining count is 0 at
the end and the cursor has advanced by `n` on the 32-bit `unsigned long`. -/
theorem write_operation_completes (k : Consts) (s : Prog) (ps : List ((Nat → Nat) × Nat))
    (n : Nat) (hk : k.WellFormed)
    (hst : s.prog_state = k.PROG_STATE_WRITEFLASH ∨ s.prog_state = k.PROG_STATE_WRITEEEPROM ∨
      s.prog_state = k.PROG_STATE_TPI_WRITE)
    (hn : s.prog_nbytes = n) (hn1 : 1 ≤ n) (hn16 : n < 65536)
    (ha : s.prog_address < 4294967296)
    (hlen : ∀ p ∈ ps, 1 ≤ p.2 ∧ p.2 ≤ 8) (hsum : (ps.map fun p => p.2).sum = n) :
    writePacketsRets k s ps = List.replicate (ps.length - 1) 0 ++ [1] ∧
    (∀ m, m < ps.length → (writePackets k s (ps.take m)).prog_state = s.prog_state) ∧
    (writePackets k s ps).prog_state = k.PROG_STATE_IDLE ∧
    (writePackets k s ps).prog_nbytes = 0 ∧
    (writePackets k s ps).prog_address = (s.prog_address + n) % 4294967296 := by
  subst hn
  exact writePackets_complete k hk ps s hst hn1 hn16 ha (fun p hp => (hlen p hp).1) hsum

theorem write_operation_completes_witness :
    usbasp_h.WellFormed ∧
    writePacketsRets usbasp_h
      (usbFunctionSetup usbasp_h Env.sample (Prog.boot usbasp_h 96 352)
        (packet [0, 8, 0x10, 0x00, 0, 0, 11, 0])).2
      [(packet [1, 2, 3, 4, 5, 6, 7, 8], 8), (packet [9, 10, 11], 3)] = [0, 1] :=
  ⟨by decide,
    (write_operation_completes usbasp_h
      (usbFunctionSetup usbasp_h Env.sample (Prog.boot usbasp_h 96 352)
        (packet [0, 8, 0x10, 0x00, 0, 0, 11, 0])).2
      [(packet [1, 2, 3, 4, 5, 6, 7, 8], 8), (packet [9, 10, 11], 3)] 11 (by decide)
      (Or.inr (Or.inl (by decide))) (by decide) (by decide) (by decide) (by decide)
      (by decide) (by decide)).1⟩

/-! ## C25: the calls of a write-EEPROM operation -/

theorem eepromCalls_append (l1 : List Nat) :
    ∀ (a : Nat) (l2 : List Nat), a < 4294967296 →
      eepromCalls a (l1 ++ l2)
        = eepromCalls a l1 ++ eepromCalls ((a + l1.length) % 4294967296) l2 := by
  induction l1 with
  | nil =>
    intro a l2 ha
    have h : (a + 0) % 4294967296 = a := by omega
    simp only [List.nil_append, eepromCalls, List.length_nil, h]
  | cons b bs ih =>
    intro a l2 ha
    have h : ((a + 1) % 4294967296 + bs.length) % 4294967296
        = (a + (bs.length + 1)) % 4294967296 := by omega
    have hm : (a + 1) % 4294967296 < 4294967296 := Nat.mod_lt _ (by omega)
    rw [List.cons_append, List.length_cons]
    show Call.ispWriteEEPROM a b :: eepromCalls ((a + 1) % 4294967296) (bs ++ l2)
      = (Call.ispWriteEEPROM a b :: eepromCalls ((a + 1) % 4294967296) bs)
        ++ eepromCalls ((a + (bs.length + 1)) % 4294967296) l2
    rw [ih _ l2 hm, h, List.cons_append]

theorem eepromCalls_length (l : List Nat) : ∀ a : Nat, (eepromCalls a l).length = l.length := by
  induction l with
  | nil => intro a; rfl
  | cons b bs ih => intro a; simp only [eepromCalls, List.length_cons, ih]

/-- The call number `i` of `eepromCalls a l` writes the byte number `i` at `a + i`. -/
theorem eepromCalls_getElem (l : List Nat) :
    ∀ (a i : Nat), a < 4294967296 → i < l.length →
      (eepromCalls a l)[i]?
        = some (Call.ispWriteEEPROM ((a + i) % 4294967296) (l.getD i 0)) := by
  induction l with
  | nil => intro a i _ hi; simp at hi
  | cons b bs ih =>
    intro a i ha hi
    cases i with
    | zero =>
      have h : (a + 0) % 4294967296 = a := by omega
      simp only [eepromCalls, List.getElem?_cons_zero, List.getD_cons_zero, h]
    | succ i =>
      have h : ((a + 1) % 4294967296 + i) % 4294967296 = (a + (i + 1)) % 4294967296 := by
        omega
      have hm : (a + 1) % 4294967296 < 4294967296 := Nat.mod_lt _ (by omega)
      simp only [eepromCalls, List.getElem?_cons_succ, List.getD_cons_succ]
      rw [ih _ i hm (by simpa using hi), h]

theorem flushCount_eepromCalls (l : List Nat) : ∀ a : Nat, flushCount (eepromCalls a l) = 0 := by
  induction l with
  | nil => intro a; rfl
  | cons b bs ih => intro a; simp only [eepromCalls, flushCount, ih]

theorem flashWrites_eepromCalls (l : List Nat) :
    ∀ a : Nat, flashWrites (eepromCalls a l) = [] := by
  induction l with
  | nil => intro a; rfl
  | cons b bs ih =>
    intro a
    have h := ih ((a + 1) % 4294967296)
    unfold flashWrites at h ⊢
    simp only [eepromCalls, List.filterMap_cons, h]

theorem packetBytes_length (ps : List ((Nat → Nat) × Nat)) :
    (packetBytes ps).length = (ps.map fun p => p.2).sum := by
  induction ps with
  | nil => rfl
  | cons p ps ih =>
    simp only [packetBytes, List.length_append, List.length_map, List.length_range, ih,
      List.map_cons, List.sum_cons]

/-- One byte of a write-EEPROM operation with no block flag set: one `ispWriteEEPROM`
call at the cursor. -/
theorem writeByte_eeprom_calls (k : Consts) (data : Nat → Nat) (sr : Prog × Nat) (i : Nat)
    (hst : sr.1.prog_state ≠ k.PROG_STATE_WRITEFLASH)
    (hbf : sr.1.prog_blockflags &&& k.PROG_BLOCKFLAG_LAST = 0) :
    (writeByte k data sr i).1.calls
      = sr.1.calls ++ [Call.ispWriteEEPROM sr.1.prog_address (data i)] := by
  obtain ⟨e1, _⟩ := writeByte_effect k data sr i
  obtain ⟨s1, _⟩ := storeByte_effect k sr.1 (data i)
  rw [e1, s1, if_neg hst, if_neg (fun h => h.2.1 hbf), List.append_nil]

/-- The bytes of one packet of a write-EEPROM operation. -/
theorem writeLoop_eeprom_calls (k : Consts) (hk : k.WellFormed) (data : Nat → Nat)
    (len : Nat) :
    ∀ (s : Prog) (rv : Nat), s.prog_state = k.PROG_STATE_WRITEEEPROM →
      s.prog_blockflags &&& k.PROG_BLOCKFLAG_LAST = 0 →
      len ≤ s.prog_nbytes → s.prog_nbytes < 65536 → s.prog_address < 4294967296 →
      ((List.range len).foldl (writeByte k data) (s, rv)).1.calls
        = s.calls ++ eepromCalls s.prog_address ((List.range len).map data) := by
  induction len with
  | zero =>
    intro s rv _ _ _ _ _
    simp only [List.range_zero, List.foldl_nil, List.map_nil, eepromCalls, List.append_nil]
  | succ len ih =>
    intro s rv hst hbf hle hn ha
    have h := ih s rv hst hbf (by omega) hn ha
    obtain ⟨_, f2, _, f4, f5, _⟩ := writeLoop_fields k data len s rv (by omega) hn ha
    rw [if_neg (by omega)] at f5
    have hne : ((List.range len).foldl (writeByte k data) (s, rv)).1.prog_state
        ≠ k.PROG_STATE_WRITEFLASH := by
      rw [f5, hst]; exact k.state_ne hk 4 1 (by decide)
    rw [List.range_succ, List.foldl_append, List.foldl_cons, List.foldl_nil, List.map_append,
      List.map_cons, List.map_nil, eepromCalls_append _ _ _ ha, List.length_map,
      List.length_range]
    have hb := writeByte_eeprom_calls k data
      ((List.range len).foldl (writeByte k data) (s, rv)) len hne (by rw [f4]; exact hbf)
    rw [hb, h, f2, List.append_assoc]
    rfl

/-- A packet of no byte leaves a write-flash or write-EEPROM operation as it is. -/
theorem usbFunctionWrite_loop_zero (k : Consts) (s : Prog) (data : Nat → Nat)
    (hk : k.WellFormed)
    (hst : s.prog_state = k.PROG_STATE_WRITEFLASH ∨ s.prog_state = k.PROG_STATE_WRITEEEPROM) :
    (usbFunctionWrite k s data 0).2 = s := by
  rw [usbFunctionWrite_loop k s data 0 hk hst]
  rfl

theorem packetBytes_zero (ps : List ((Nat → Nat) × Nat)) (h : (ps.map fun p => p.2).sum = 0) :
    packetBytes ps = [] := by
  have hl := packetBytes_length ps
  rw [h] at hl
  exact List.length_eq_zero.mp hl

/-- The packets of a write-EEPROM operation with no block flag set, when their lengths
sum to the remaining count. -/
theorem writePackets_eeprom_calls (k : Consts) (hk : k.WellFormed)
    (ps : List ((Nat → Nat) × Nat)) :
    ∀ (s : Prog), s.prog_state = k.PROG_STATE_WRITEEEPROM →
      s.prog_blockflags &&& k.PROG_BLOCKFLAG_LAST = 0 →
      s.prog_nbytes < 65536 → s.prog_address < 4294967296 →
      (ps.map fun p => p.2).sum = s.prog_nbytes →
      (writePackets k s ps).calls = s.calls ++ eepromCalls s.prog_address (packetBytes ps) := by
  induction ps with
  | nil =>
    intro s _ _ _ _ _
    simp only [writePackets, packetBytes, eepromCalls, List.append_nil]
  | cons p ps ih =>
    intro s hst hbf hn ha hsum
    simp only [List.map_cons, List.sum_cons] at hsum
    have hloop := usbFunctionWrite_loop k s p.1 p.2 hk (Or.inr hst)
    have hc := writeLoop_eeprom_calls k hk p.1 p.2 s 0 hst hbf (by omega) hn ha
    obtain ⟨f1, f2, _, f4, f5, _⟩ := writeLoop_fields k p.1 p.2 s 0 (by omega) hn ha
    simp only [writePackets, packetBytes]
    rw [eepromCalls_append _ _ _ ha, List.length_map, List.length_range, hloop]
    dsimp only
    by_cases he : p.2 ≠ 0 ∧ p.2 = s.prog_nbytes
    · -- the operation ends with this packet
      rw [if_pos he] at f5
      have hz : (ps.map fun p => p.2).sum = 0 := by omega
      rw [writePackets_idle_zero k hk ps _ f5 hz, packetBytes_zero ps hz, hc]
      simp only [eepromCalls, List.append_nil]
    · rw [if_neg he] at f5
      rw [ih _ (by rw [f5]; exact hst) (by rw [f4]; exact hbf) (by rw [f1]; omega)
        (by rw [f2]; omega) (by rw [f1]; omega), hc, f2, List.append_assoc]

/-- What holds of C25.  For every write-EEPROM command (length bytes `data[6]`, `data[7]`,
a 32-bit cursor), whatever page size, block flags and page counter earlier commands left,
and for packets whose lengths sum to the announced length `n`: the packets append to the
trace exactly the calls `ispWriteEEPROM(c + i, b_i)` for `i = 0..n-1` in order, where `c` is
the cursor the command sets, the address is counted on the 32-bit cursor and `b_i` are the
bytes of the packets in order; no `ispWriteFlash` and no `ispFlushPage` call is added.  The
cursor `c` is the latched long address in long-address mode, and the command's address
`data[2] + 256 * data[3]` in short-address mode for addresses below `0x8000`. -/
theorem write_eeprom_calls (k : Consts) (env : Env) (s : Prog) (cmd : Nat → Nat)
    (ps : List ((Nat → Nat) × Nat)) (hk : k.WellFormed)
    (hop : cmd 1 = k.USBASP_FUNC_WRITEEEPROM) (h6 : cmd 6 < 256) (h7 : cmd 7 < 256)
    (hn1 : 1 ≤ cmdLen cmd) (ha : s.prog_address < 4294967296)
    (hsum : (ps.map fun p => p.2).sum = cmdLen cmd) :
    (writePackets k (usbFunctionSetup k env s cmd).2 ps).calls
      = s.calls ++ eepromCalls (usbFunctionSetup k env s cmd).2.prog_address (packetBytes ps) ∧
    (packetBytes ps).length = cmdLen cmd ∧
    (∀ i, i < cmdLen cmd →
      (eepromCalls (usbFunctionSetup k env s cmd).2.prog_address (packetBytes ps))[i]?
        = some (Call.ispWriteEEPROM
            (((usbFunctionSetup k env s cmd).2.prog_address + i) % 4294967296)
            ((packetBytes ps).getD i 0))) ∧
    flashWrites (writePackets k (usbFunctionSetup k env s cmd).2 ps).calls
      = flashWrites s.calls ∧
    flushCount (writePackets k (usbFunctionSetup k env s cmd).2 ps).calls
      = flushCount s.calls ∧
    (s.prog_address_newmode ≠ 0 →
      (usbFunctionSetup k env s cmd).2.prog_address = s.prog_address) ∧
    (s.prog_address_newmode = 0 → cmd 2 < 256 → cmd 3 < 128 →
      (usbFunctionSetup k env s cmd).2.prog_address = cmd 2 + 256 * cmd 3) := by
  have hset := usbFunctionSetup_WRITEEEPROM k env s cmd hk hop
  have hw : word16 (cmd 7) (cmd 6) = cmdLen cmd := by
    rw [word16_eq _ _ h7 h6]; unfold cmdLen; omega
  have hst : (usbFunctionSetup k env s cmd).2.prog_state = k.PROG_STATE_WRITEEEPROM := by
    rw [hset]; rfl
  have hbf : (usbFunctionSetup k env s cmd).2.prog_blockflags = 0 := by
    rw [hset]; rfl
  have hnb : (usbFunctionSetup k env s cmd).2.prog_nbytes = cmdLen cmd := by
    rw [hset, ← hw]; rfl
  have hcalls : (usbFunctionSetup k env s cmd).2.calls = s.calls := by
    rw [hset]; unfold setup_WRITEEEPROM; dsimp only; split <;> rfl
  have haddr : (usbFunctionSetup k env s cmd).2.prog_address
      = (if s.prog_address_newmode = 0 then intToULong (word16 (cmd 3) (cmd 2))
          else s.prog_address) := by
    rw [hset]; unfold setup_WRITEEEPROM; dsimp only; split <;> rfl
  have hlt : cmdLen cmd < 65536 := by unfold cmdLen; omega
  have ha2 : (usbFunctionSetup k env s cmd).2.prog_address < 4294967296 := by
    rw [haddr]
    split
    · have : word16 (cmd 3) (cmd 2) < 65536 := by unfold word16; omega
      unfold intToULong
      split <;> omega
    · exact ha
  have hmain := writePackets_eeprom_calls k hk ps (usbFunctionSetup k env s cmd).2 hst
    (by rw [hbf]; exact Nat.zero_and _) (by rw [hnb]; exact hlt) ha2 (by rw [hnb]; exact hsum)
  rw [hcalls] at hmain
  have hlen : (packetBytes ps).length = cmdLen cmd := by rw [packetBytes_length, hsum]
  refine ⟨hmain, hlen, ?_, ?_, ?_, ?_, ?_⟩
  · intro i hi
    exact eepromCalls_getElem _ _ i ha2 (by rw [hlen]; exact hi)
  · rw [hmain]
    have h := flashWrites_eepromCalls (packetBytes ps)
      (usbFunctionSetup k env s cmd).2.prog_address
    unfold flashWrites at h ⊢
    rw [List.filterMap_append, h, List.append_nil]
  · rw [hmain, flushCount_append, flushCount_eepromCalls]
    rfl
  · intro hl
    rw [haddr, if_neg hl]
  · intro hl h2 h3
    rw [haddr, if_pos hl, intToULong_word16_low _ _ h2 h3]

theorem write_eeprom_calls_witness :
    usbasp_h.WellFormed ∧
    (writePackets usbasp_h
      (usbFunctionSetup usbasp_h Env.sample (Prog.boot usbasp_h 96 352)
        (packet [0, 8, 0x10, 0x00, 0, 0, 3, 0])).2
      [(packet [7, 8], 2), (packet [9], 1)]).calls
      = [Call.ispWriteEEPROM 0x10 7, Call.ispWriteEEPROM 0x11 8, Call.ispWriteEEPROM 0x12 9] :=
  ⟨by decide,
    (write_eeprom_calls usbasp_h Env.sample (Prog.boot usbasp_h 96 352)
      (packet [0, 8, 0x10, 0x00, 0, 0, 3, 0]) [(packet [7, 8], 2), (packet [9], 1)]
      (by decide) (by decide) (by decide) (by decide) (by decide) (by decide)
      (by decide)).1⟩

/-- One byte of a paged write-flash operation: the page bookkeeping goes on, unless this is
the last byte of a command that carries the last-block flag, which ends the transfer. -/
theorem writeByte_paged (k : Consts) (P base j : Nat) (sr : Prog × Nat) (data : Nat → Nat)
    (i : Nat) (hP1 : 1 ≤ P) (hP : P ≤ 255)
    (hst : sr.1.prog_state = k.PROG_STATE_WRITEFLASH) (hinv : PageInv P base j sr.1)
    (hn1 : 1 ≤ sr.1.prog_nbytes) (hn : sr.1.prog_nbytes < 65536) :
    ((sr.1.prog_nbytes ≠ 1 ∨ sr.1.prog_blockflags &&& k.PROG_BLOCKFLAG_LAST = 0) →
      PageInv P base (j + 1) (writeByte k data sr i).1) ∧
    (sr.1.prog_nbytes = 1 → sr.1.prog_blockflags &&& k.PROG_BLOCKFLAG_LAST ≠ 0 →
      ∃ q r, j + 1 = q * P + r ∧ r < P ∧
        flushCount (writeByte k data sr i).1.calls
          = base + q + (if 0 < r then 1 else 0)) := by
  obtain ⟨hps, q, hq, hjq, hc1, hcP⟩ := hinv
  obtain ⟨e1, e2⟩ := writeByte_effect k data sr i
  obtain ⟨s1, s2⟩ := storeByte_effect k sr.1 (data i)
  have w3 := (writeByte_fields k data sr i).2.2.1
  have hps0 : sr.1.prog_pagesize ≠ 0 := by omega
  have hdec8 : dec8 sr.1.prog_pagecounter = sr.1.prog_pagecounter - 1 := by
    unfold dec8; omega
  have hdec16 : dec16 sr.1.prog_nbytes = sr.1.prog_nbytes - 1 := dec16_pos _ hn1 hn
  have hPmod : P % 256 = P := by omega
  have hz : sr.1.prog_nbytes - 1 = 0 ↔ sr.1.prog_nbytes = 1 := by omega
  rw [if_pos hst, if_neg hps0] at s1
  rw [if_pos ⟨hst, hps0⟩, hps, hPmod] at s2
  rw [s2, hps, hdec16] at e1
  rw [s2] at e2
  rw [s1] at e1
  unfold PageInv
  rw [w3, e2]
  by_cases hc : sr.1.prog_pagecounter = 1
  · -- the page is full: flush and reload the counter
    have hd0 : dec8 sr.1.prog_pagecounter = 0 := by rw [hdec8, hc]
    rw [if_pos hd0] at e1 ⊢
    rw [if_pos hd0, if_neg (fun h => h.2.2 rfl), List.append_nil] at e1
    have hcount : flushCount (writeByte k data sr i).1.calls = base + (q + 1) := by
      rw [e1, flushCount_append]
      simp only [flushCount, hq]
      omega
    have hmul : (q + 1) * P = q * P + P := Nat.succ_mul q P
    constructor
    · intro _
      exact ⟨hps, q + 1, hcount, by omega, hP1, Nat.le_refl _⟩
    · intro _ _
      exact ⟨q + 1, 0, by omega, by omega, by rw [hcount]; simp⟩
  · -- the page is not full yet
    have hd0 : dec8 sr.1.prog_pagecounter ≠ 0 := by rw [hdec8]; omega
    have hne : sr.1.prog_pagecounter - 1 ≠ P := by omega
    rw [if_neg hd0] at e1 ⊢
    rw [if_neg hd0, hdec8] at e1
    rw [hdec8]
    constructor
    · intro hor
      have hnf : ¬ (sr.1.prog_nbytes - 1 = 0 ∧
          sr.1.prog_blockflags &&& k.PROG_BLOCKFLAG_LAST ≠ 0 ∧
          sr.1.prog_pagecounter - 1 ≠ P) := by
        intro h
        rcases hor with h1 | h1
        · exact h1 (hz.mp h.1)
        · exact h.2.1 h1
      rw [if_neg hnf, List.append_nil] at e1
      have hcount : flushCount (writeByte k data sr i).1.calls = base + q := by
        rw [e1, flushCount_append]
        simp only [flushCount, hq]
        omega
      exact ⟨hps, q, hcount, by omega, by omega, by omega⟩
    · intro h1 hfl
      rw [if_pos ⟨hz.mpr h1, hfl, hne⟩] at e1
      have hcount : flushCount (writeByte k data sr i).1.calls = base + q + 1 := by
        rw [e1, flushCount_append, flushCount_append]
        simp only [flushCount, hq]
      refine ⟨q, P - (sr.1.prog_pagecounter - 1), by omega, by omega, ?_⟩
      rw [hcount, if_pos (by omega)]

/-- The bytes of one packet of a paged write-flash operation. -/
theorem writeLoop_paged (k : Consts) (P base : Nat) (data : Nat → Nat)
    (hP1 : 1 ≤ P) (hP : P ≤ 255) (len : Nat) :
    ∀ (j : Nat) (s : Prog) (rv : Nat), s.prog_state = k.PROG_STATE_WRITEFLASH →
      PageInv P base j s → len ≤ s.prog_nbytes → s.prog_nbytes < 65536 →
      ((len ≠ s.prog_nbytes ∨ len = 0 ∨ s.prog_blockflags &&& k.PROG_BLOCKFLAG_LAST = 0) →
        PageInv P base (j + len) ((List.range len).foldl (writeByte k data) (s, rv)).1) ∧
      (len = s.prog_nbytes → len ≠ 0 → s.prog_blockflags &&& k.PROG_BLOCKFLAG_LAST ≠ 0 →
        ∃ q r, j + len = q * P + r ∧ r < P ∧
          flushCount ((List.range len).foldl (writeByte k data) (s, rv)).1.calls
            = base + q + (if 0 < r then 1 else 0)) := by
  induction len with
  | zero =>
    intro j s rv _ hinv _ _
    constructor
    · intro _; exact hinv
    · intro _ h; exact absurd rfl h
  | succ len ih =>
    intro j s rv hst hinv hle hn
    have h3 : len + 1 = s.prog_nbytes → s.prog_nbytes - len = 1 := by omega
    have h4 : len + 1 ≠ s.prog_nbytes → s.prog_nbytes - len ≠ 1 := by omega
    have h5 : 1 ≤ s.prog_nbytes - len := by omega
    have h6 : s.prog_nbytes - len < 65536 := by omega
    have h1 := (ih j s rv hst hinv (by omega) hn).1 (Or.inl (by omega))
    obtain ⟨f1, _, f4, f5, _⟩ := writeLoop_fields0 k data len s rv (by omega) hn
    rw [if_neg (by omega)] at f5
    rw [List.range_succ, List.foldl_append, List.foldl_cons, List.foldl_nil]
    obtain ⟨b1, b2⟩ := writeByte_paged k P base (j + len)
      ((List.range len).foldl (writeByte k data) (s, rv)) data len hP1 hP
      (by rw [f5]; exact hst) h1 (by rw [f1]; exact h5) (by rw [f1]; exact h6)
    rw [f1, f4] at b1 b2
    have hj : j + (len + 1) = j + len + 1 := rfl
    rw [hj]
    constructor
    · intro hor
      refine b1 ?_
      rcases hor with h | h | h
      · exact Or.inl (h4 h)
      · exact absurd h (Nat.succ_ne_zero len)
      · exact Or.inr h
    · intro he _ hfl
      obtain ⟨q, r, e1, e2, e3⟩ := b2 (h3 he) hfl
      exact ⟨q, r, e1, e2, e3⟩


/-- The packets of one command of a paged write-flash transfer. -/
theorem writePackets_paged (k : Consts) (P base : Nat) (hk : k.WellFormed)
    (hP1 : 1 ≤ P) (hP : P ≤ 255) (ps : List ((Nat → Nat) × Nat)) :
    ∀ (j : Nat) (s : Prog), s.prog_state = k.PROG_STATE_WRITEFLASH →
      PageInv P base j s → s.prog_nbytes < 65536 →
      (ps.map fun p => p.2).sum = s.prog_nbytes →
      ((s.prog_blockflags &&& k.PROG_BLOCKFLAG_LAST = 0 ∨ s.prog_nbytes = 0) →
        PageInv P base (j + s.prog_nbytes) (writePackets k s ps)) ∧
      (s.prog_blockflags &&& k.PROG_BLOCKFLAG_LAST ≠ 0 → 1 ≤ s.prog_nbytes →
        ∃ q r, j + s.prog_nbytes = q * P + r ∧ r < P ∧
          flushCount (writePackets k s ps).calls = base + q + (if 0 < r then 1 else 0)) := by
  induction ps with
  | nil =>
    intro j s _ hinv _ hsum
    simp only [List.map_nil, List.sum_nil] at hsum
    constructor
    · intro _
      rw [← hsum]
      exact hinv
    · intro _ h1
      omega
  | cons p ps ih =>
    intro j s hst hinv hn hsum
    simp only [List.map_cons, List.sum_cons] at hsum
    have hle : p.2 ≤ s.prog_nbytes := by omega
    have hrest : (ps.map fun p => p.2).sum = s.prog_nbytes - p.2 := by omega
    have hadd : j + p.2 + (s.prog_nbytes - p.2) = j + s.prog_nbytes := by omega
    have hlt : s.prog_nbytes - p.2 < 65536 := by omega
    have hz : p.2 = s.prog_nbytes → (ps.map fun p => p.2).sum = 0 := by omega
    have hpos : ¬ (p.2 ≠ 0 ∧ p.2 = s.prog_nbytes) → 1 ≤ s.prog_nbytes →
        1 ≤ s.prog_nbytes - p.2 := by omega
    have hzero : s.prog_nbytes = 0 → s.prog_nbytes - p.2 = 0 := by omega
    have hloop := usbFunctionWrite_loop k s p.1 p.2 hk (Or.inl hst)
    obtain ⟨f1, _, f4, f5, _⟩ := writeLoop_fields0 k p.1 p.2 s 0 hle hn
    obtain ⟨l1, l2⟩ := writeLoop_paged k P base p.1 hP1 hP p.2 j s 0 hst hinv hle hn
    simp only [writePackets]
    rw [hloop]
    dsimp only
    by_cases he : p.2 ≠ 0 ∧ p.2 = s.prog_nbytes
    · -- the command ends with this packet
      rw [if_pos he] at f5
      rw [writePackets_idle_zero k hk ps _ f5 (hz he.2)]
      have hj : j + s.prog_nbytes = j + p.2 := by rw [he.2]
      rw [hj]
      constructor
      · intro hor
        refine l1 (Or.inr (Or.inr ?_))
        rcases hor with h | h
        · exact h
        · exact absurd (he.2.trans h) he.1
      · intro hfl _
        exact l2 he.2 he.1 hfl
    · rw [if_neg he] at f5
      have hcase : p.2 ≠ s.prog_nbytes ∨ p.2 = 0 := by
        by_cases h0 : p.2 = 0
        · exact Or.inr h0
        · exact Or.inl (fun h => he ⟨h0, h⟩)
      have hinv1 := l1 (by
        rcases hcase with h | h
        · exact Or.inl h
        · exact Or.inr (Or.inl h))
      obtain ⟨r1, r2⟩ := ih (j + p.2) _ (by rw [f5]; exact hst) hinv1
        (by rw [f1]; exact hlt) (by rw [f1]; exact hrest)
      rw [f1, f4, hadd] at r1 r2
      constructor
      · intro hor
        refine r1 ?_
        rcases hor with h | h
        · exact Or.inl h
        · exact Or.inr (hzero h)
      · intro hfl h1
        exact r2 hfl (hpos he h1)

/-- What a write-flash command of a paged transfer sets up. -/
theorem usbFunctionSetup_flash_block (k : Consts) (env : Env) (s : Prog) (P : Nat)
    (c : (Nat → Nat) × List ((Nat → Nat) × Nat)) (hk : k.WellFormed) (hP : P ≤ 255)
    (hc : IsFlashBlock k P c) :
    (usbFunctionSetup k env s c.1).2.prog_state = k.PROG_STATE_WRITEFLASH ∧
    (usbFunctionSetup k env s c.1).2.prog_pagesize = P ∧
    (usbFunctionSetup k env s c.1).2.prog_blockflags = blockFlags c.1 ∧
    (usbFunctionSetup k env s c.1).2.prog_nbytes = cmdLen c.1 ∧
    (usbFunctionSetup k env s c.1).2.calls = s.calls ∧
    (usbFunctionSetup k env s c.1).2.prog_pagecounter
      = (if blockFlags c.1 &&& k.PROG_BLOCKFLAG_FIRST ≠ 0 then P else s.prog_pagecounter) ∧
    cmdLen c.1 < 65536 := by
  obtain ⟨hop, h4, h5, h6, h7, _⟩ := hc
  have hsize : (P + ((c.1 5 &&& 0xF0) <<< 4) % 65536) % 65536 = P := by
    rw [and_0xF0_of_lt_16 _ h5]
    simp only [Nat.zero_shiftLeft, Nat.zero_mod, Nat.add_zero]
    omega
  have hw : word16 (c.1 7) (c.1 6) = cmdLen c.1 := by
    rw [word16_eq _ _ h7 h6]; unfold cmdLen; omega
  have hPmod : P % 256 = P := by omega
  have hlt : cmdLen c.1 < 65536 := by unfold cmdLen; omega
  rw [usbFunctionSetup_WRITEFLASH k env s c.1 hk hop]
  unfold blockFlags setup_WRITEFLASH
  by_cases hm : s.prog_address_newmode = 0
  · by_cases hf : c.1 5 &&& 0x0F &&& k.PROG_BLOCKFLAG_FIRST = 0
    · simp only [hm, hf, h4, hsize, hw, hPmod, if_true, if_false, ne_eq, not_true_eq_false,
        and_self, hlt]
    · simp only [hm, hf, h4, hsize, hw, hPmod, if_true, if_false, ne_eq, not_false_eq_true,
        and_self, hlt]
  · by_cases hf : c.1 5 &&& 0x0F &&& k.PROG_BLOCKFLAG_FIRST = 0
    · simp only [hm, hf, h4, hsize, hw, hPmod, if_true, if_false, ne_eq, not_true_eq_false,
        and_self, hlt]
    · simp only [hm, hf, h4, hsize, hw, hPmod, if_true, if_false, ne_eq, not_false_eq_true,
        and_self, hlt]


/-- The page bookkeeping gives the number of flushes: one for each full page. -/
theorem PageInv.count (P base j : Nat) (s : Prog) (hP1 : 1 ≤ P) (h : PageInv P base j s) :
    flushCount s.calls = base + j / P := by
  obtain ⟨_, q, hq, hjq, hc1, hcP⟩ := h
  have hu := (Nat.div_mod_unique (show 0 < P by omega)).mpr
    ⟨show (P - s.prog_pagecounter) + P * q = j by rw [Nat.mul_comm]; omega,
     show P - s.prog_pagecounter < P by omega⟩
  rw [hq, hu.1]

/-- The first command of a paged transfer: it reloads the page counter. -/
theorem writeCommand_first (k : Consts) (env : Env) (s : Prog) (P : Nat)
    (c : (Nat → Nat) × List ((Nat → Nat) × Nat)) (hk : k.WellFormed)
    (hP1 : 1 ≤ P) (hP : P ≤ 255) (hc : IsFlashBlock k P c)
    (hf : blockFlags c.1 &&& k.PROG_BLOCKFLAG_FIRST ≠ 0)
    (hl : blockFlags c.1 &&& k.PROG_BLOCKFLAG_LAST = 0) :
    PageInv P (flushCount s.calls) (cmdLen c.1)
      (writePackets k (usbFunctionSetup k env s c.1).2 c.2) := by
  obtain ⟨e1, e2, e3, e4, e5, e6, e7⟩ := usbFunctionSetup_flash_block k env s P c hk hP hc
  rw [if_pos hf] at e6
  have hinv : PageInv P (flushCount s.calls) 0 (usbFunctionSetup k env s c.1).2 := by
    refine ⟨e2, 0, by rw [e5]; rfl, ?_, ?_, ?_⟩
    · rw [e6]; omega
    · rw [e6]; exact hP1
    · rw [e6]
  have h := (writePackets_paged k P (flushCount s.calls) hk hP1 hP c.2 0 _ e1 hinv
    (by rw [e4]; exact e7) (by rw [e4]; exact hc.2.2.2.2.2)).1 (Or.inl (by rw [e3]; exact hl))
  rw [e4, Nat.zero_add] at h
  exact h

/-- A later command of a paged transfer that is not the last: the page counter carries
over, and no flush is forced at its end. -/
theorem writeCommand_carry (k : Consts) (env : Env) (s : Prog) (P base j : Nat)
    (c : (Nat → Nat) × List ((Nat → Nat) × Nat)) (hk : k.WellFormed)
    (hP1 : 1 ≤ P) (hP : P ≤ 255) (hc : IsFlashBlock k P c)
    (hf : blockFlags c.1 &&& k.PROG_BLOCKFLAG_FIRST = 0)
    (hl : blockFlags c.1 &&& k.PROG_BLOCKFLAG_LAST = 0) (hinv : PageInv P base j s) :
    PageInv P base (j + cmdLen c.1)
      (writePackets k (usbFunctionSetup k env s c.1).2 c.2) := by
  obtain ⟨e1, e2, e3, e4, e5, e6, e7⟩ := usbFunctionSetup_flash_block k env s P c hk hP hc
  rw [if_neg (by rw [hf]; exact fun h => h rfl)] at e6
  obtain ⟨_, q, hq, hjq, hc1, hcP⟩ := hinv
  have hinv1 : PageInv P base j (usbFunctionSetup k env s c.1).2 :=
    ⟨e2, q, by rw [e5]; exact hq, by rw [e6]; exact hjq, by rw [e6]; exact hc1,
      by rw [e6]; exact hcP⟩
  have h := (writePackets_paged k P base hk hP1 hP c.2 j _ e1 hinv1
    (by rw [e4]; exact e7) (by rw [e4]; exact hc.2.2.2.2.2)).1 (Or.inl (by rw [e3]; exact hl))
  rw [e4] at h
  exact h

/-- The last command of a paged transfer, with at least one byte: a page that is not full
at its end is flushed. -/
theorem writeCommand_last (k : Consts) (env : Env) (s : Prog) (P base j : Nat)
    (c : (Nat → Nat) × List ((Nat → Nat) × Nat)) (hk : k.WellFormed)
    (hP1 : 1 ≤ P) (hP : P ≤ 255) (hc : IsFlashBlock k P c)
    (hf : blockFlags c.1 &&& k.PROG_BLOCKFLAG_FIRST = 0)
    (hl : blockFlags c.1 &&& k.PROG_BLOCKFLAG_LAST ≠ 0) (hn1 : 1 ≤ cmdLen c.1)
    (hinv : PageInv P base j s) :
    flushCount (writePackets k (usbFunctionSetup k env s c.1).2 c.2).calls
      = base + (j + cmdLen c.1) / P + (if 0 < (j + cmdLen c.1) % P then 1 else 0) := by
  obtain ⟨e1, e2, e3, e4, e5, e6, e7⟩ := usbFunctionSetup_flash_block k env s P c hk hP hc
  rw [if_neg (by rw [hf]; exact fun h => h rfl)] at e6
  obtain ⟨_, q, hq, hjq, hc1, hcP⟩ := hinv
  have hinv1 : PageInv P base j (usbFunctionSetup k env s c.1).2 :=
    ⟨e2, q, by rw [e5]; exact hq, by rw [e6]; exact hjq, by rw [e6]; exact hc1,
      by rw [e6]; exact hcP⟩
  have h := (writePackets_paged k P base hk hP1 hP c.2 j _ e1 hinv1
    (by rw [e4]; exact e7) (by rw [e4]; exact hc.2.2.2.2.2)).2 (by rw [e3]; exact hl)
    (by rw [e4]; exact hn1)
  rw [e4] at h
  obtain ⟨q', r', h1, h2, h3⟩ := h
  have hu := (Nat.div_mod_unique (show 0 < P by omega)).mpr
    ⟨show r' + P * q' = j + cmdLen c.1 by rw [Nat.mul_comm]; omega, h2⟩
  rw [h3, hu.1, hu.2]

theorem writeCommands_append (k : Consts) (env : Env)
    (l1 : List ((Nat → Nat) × List ((Nat → Nat) × Nat))) :
    ∀ (s : Prog) (l2 : List ((Nat → Nat) × List ((Nat → Nat) × Nat))),
      writeCommands k env s (l1 ++ l2) = writeCommands k env (writeCommands k env s l1) l2 := by
  induction l1 with
  | nil => intro s l2; rfl
  | cons c cs ih =>
    intro s l2
    simp only [List.cons_append, writeCommands]
    exact ih _ l2

theorem totalLen_append (l1 l2 : List ((Nat → Nat) × List ((Nat → Nat) × Nat))) :
    totalLen (l1 ++ l2) = totalLen l1 + totalLen l2 := by
  induction l1 with
  | nil => simp only [List.nil_append, totalLen, Nat.zero_add]
  | cons c cs ih =>
    show cmdLen c.1 + totalLen (cs ++ l2) = cmdLen c.1 + totalLen cs + totalLen l2
    rw [ih]
    omega

/-- The commands between the first and the last of a paged transfer. -/
theorem writeCommands_carry (k : Consts) (env : Env) (P base : Nat) (hk : k.WellFormed)
    (hP1 : 1 ≤ P) (hP : P ≤ 255) (mid : List ((Nat → Nat) × List ((Nat → Nat) × Nat))) :
    ∀ (s : Prog) (j : Nat), PageInv P base j s →
      (∀ c ∈ mid, IsFlashBlock k P c ∧ blockFlags c.1 &&& k.PROG_BLOCKFLAG_FIRST = 0 ∧
        blockFlags c.1 &&& k.PROG_BLOCKFLAG_LAST = 0) →
      PageInv P base (j + totalLen mid) (writeCommands k env s mid) := by
  induction mid with
  | nil => intro s j h _; exact h
  | cons c cs ih =>
    intro s j h hmid
    obtain ⟨hc, hf, hl⟩ := hmid c (List.mem_cons_self _ _)
    have h1 := writeCommand_carry k env s P base j c hk hP1 hP hc hf hl h
    have h2 := ih _ _ h1 (fun d hd => hmid d (List.mem_cons_of_mem _ hd))
    simp only [writeCommands, totalLen]
    rw [← Nat.add_assoc]
    exact h2

/-- C26 as amended.  For every page size `P` in 1..255 and every transfer split over a
first write-flash command, any number of middle commands and a last command, all with the
page size `P`, of which only the first carries the first-block flag and only the last the
last-block flag, the last command announcing at least one byte, and each command's bytes
delivered in packets summing to its length: the page counter carries over between the
commands.  After the first command and after each middle command the number of
`ispFlushPage` calls added is the number of full pages written so far, so no flush is
forced at the end of a non-last command; over the whole transfer of `N = P * q + r` bytes,
`r < P`, exactly `q` flushes are added, plus one if and only if `r > 0`. -/
theorem paged_transfer_over_commands (k : Consts) (env : Env) (s : Prog) (P : Nat)
    (c0 : (Nat → Nat) × List ((Nat → Nat) × Nat))
    (mid : List ((Nat → Nat) × List ((Nat → Nat) × Nat)))
    (cl : (Nat → Nat) × List ((Nat → Nat) × Nat))
    (hk : k.WellFormed) (hP1 : 1 ≤ P) (hP : P ≤ 255)
    (h0 : IsFlashBlock k P c0)
    (f0 : blockFlags c0.1 &&& k.PROG_BLOCKFLAG_FIRST ≠ 0)
    (l0 : blockFlags c0.1 &&& k.PROG_BLOCKFLAG_LAST = 0)
    (hmid : ∀ c ∈ mid, IsFlashBlock k P c ∧ blockFlags c.1 &&& k.PROG_BLOCKFLAG_FIRST = 0 ∧
      blockFlags c.1 &&& k.PROG_BLOCKFLAG_LAST = 0)
    (hl : IsFlashBlock k P cl)
    (fl : blockFlags cl.1 &&& k.PROG_BLOCKFLAG_FIRST = 0)
    (ll : blockFlags cl.1 &&& k.PROG_BLOCKFLAG_LAST ≠ 0)
    (hn1 : 1 ≤ cmdLen cl.1) :
    (∀ m, m ≤ mid.length →
      flushCount (writeCommands k env s (c0 :: mid.take m)).calls
        = flushCount s.calls + totalLen (c0 :: mid.take m) / P) ∧
    flushCount (writeCommands k env s (c0 :: (mid ++ [cl]))).calls
      = flushCount s.calls + totalLen (c0 :: (mid ++ [cl])) / P
        + (if 0 < totalLen (c0 :: (mid ++ [cl])) % P then 1 else 0) := by
  have h1 := writeCommand_first k env s P c0 hk hP1 hP h0 f0 l0
  constructor
  · intro m _
    have h2 := writeCommands_carry k env P (flushCount s.calls) hk hP1 hP (mid.take m) _ _ h1
      (fun c hc => hmid c (List.mem_of_mem_take hc))
    exact PageInv.count P _ _ _ hP1 h2
  · have h2 := writeCommands_carry k env P (flushCount s.calls) hk hP1 hP mid _ _ h1 hmid
    have h3 := writeCommand_last k env _ P (flushCount s.calls) _ cl hk hP1 hP hl fl ll hn1 h2
    have ht : totalLen (c0 :: (mid ++ [cl])) = cmdLen c0.1 + totalLen mid + cmdLen cl.1 := by
      simp only [totalLen, totalLen_append]
      omega
    rw [ht]
    simp only [writeCommands]
    rw [writeCommands_append]
    exact h3

/-- A page size of 4 and 10 bytes in three commands of 3, 4 and 3 bytes: two full pages
and a rest. -/
theorem paged_transfer_over_commands_witness :
    usbasp_h.WellFormed ∧
    flushCount (writeCommands usbasp_h Env.sample (Prog.boot usbasp_h 96 352)
      ((packet [0, 6, 0, 0, 4, 1, 3, 0], [(packet [1, 2, 3], 3)]) ::
        ([(packet [0, 6, 3, 0, 4, 0, 4, 0], [(packet [4, 5, 6, 7], 4)])] ++
          [(packet [0, 6, 7, 0, 4, 2, 3, 0], [(packet [8, 9], 2), (packet [10], 1)])]))).calls
      = 0 + 10 / 4 + 1 :=
  ⟨by decide,
    (paged_transfer_over_commands usbasp_h Env.sample (Prog.boot usbasp_h 96 352) 4
      (packet [0, 6, 0, 0, 4, 1, 3, 0], [(packet [1, 2, 3], 3)])
      [(packet [0, 6, 3, 0, 4, 0, 4, 0], [(packet [4, 5, 6, 7], 4)])]
      (packet [0, 6, 7, 0, 4, 2, 3, 0], [(packet [8, 9], 2), (packet [10], 1)])
      (by decide) (by decide) (by decide) (by decide) (by decide) (by decide)
      (by decide) (by decide) (by decide) (by decide) (by decide)).2⟩

/-- C26, at a concrete input.  A transfer with page size 4 in two commands: the first, with
the first-block flag, writes 3 bytes; the last, with the last-block flag, announces 0 bytes
and so gets no packet.  The transfer has `4 * 0 + 3` bytes, a rest of 3, but no
`ispFlushPage` call is made: the forced flush is part of the byte loop and a command without
bytes never enters it. -/
theorem empty_last_command_forces_no_flush :
    totalLen [(packet [0, 6, 0, 0, 4, 1, 3, 0], [(packet [1, 2, 3], 3)]),
      (packet [0, 6, 3, 0, 4, 2, 0, 0], [])] = 4 * 0 + 3 ∧
    flushCount (writeCommands usbasp_h Env.sample (Prog.boot usbasp_h 96 352)
      [(packet [0, 6, 0, 0, 4, 1, 3, 0], [(packet [1, 2, 3], 3)]),
        (packet [0, 6, 3, 0, 4, 2, 0, 0], [])]).calls = 0 ∧
    (writeCommands usbasp_h Env.sample (Prog.boot usbasp_h 96 352)
      [(packet [0, 6, 0, 0, 4, 1, 3, 0], [(packet [1, 2, 3], 3)]),
        (packet [0, 6, 3, 0, 4, 2, 0, 0], [])]).prog_pagecounter = 1 := by
  decide

/-! ## C28: the cursors stay inside the backing arrays -/

theorem ringBufferWrite_within (rb : ringBuffer) (mem : Mem) (c buff : Nat)
    (h : rb.Within buff) : (ringBufferWrite rb mem c).1.Within buff := by
  obtain ⟨h1, h2, h3, h4, h5, h6⟩ := h
  unfold ringBufferWrite ringBuffer.Within
  dsimp only
  split <;> omega

theorem ringBufferRead_within (rb : ringBuffer) (mem : Mem) (buff : Nat)
    (h : rb.Within buff) : (ringBufferRead rb mem).2.Within buff := by
  obtain ⟨h1, h2, h3, h4, h5, h6⟩ := h
  unfold ringBufferRead ringBuffer.Within
  dsimp only
  split <;> omega

theorem uart_putc_within (k : Consts) (u : Uart) (c tx_buff rx_buff : Nat)
    (h : u.tx.Within tx_buff ∧ u.rx.Within rx_buff) :
    (uart_putc k u c).2.tx.Within tx_buff ∧ (uart_putc k u c).2.rx.Within rx_buff := by
  unfold uart_putc
  split
  · exact h
  · exact ⟨ringBufferWrite_within u.tx u.mem c tx_buff h.1, h.2⟩

theorem uart_getc_within (u : Uart) (c tx_buff rx_buff : Nat)
    (h : u.tx.Within tx_buff ∧ u.rx.Within rx_buff) :
    (uart_getc u c).2.2.tx.Within tx_buff ∧ (uart_getc u c).2.2.rx.Within rx_buff := by
  unfold uart_getc
  split
  · exact h
  · exact ⟨h.1, ringBufferRead_within u.rx u.mem rx_buff h.2⟩

theorem uart_flush_rx_within (u : Uart) (tx_buff rx_buff : Nat)
    (h : u.tx.Within tx_buff ∧ u.rx.Within rx_buff) :
    (uart_flush_rx u).tx.Within tx_buff ∧ (uart_flush_rx u).rx.Within rx_buff := by
  obtain ⟨h1, a, b, c, d, e, f⟩ := h
  exact ⟨h1, a, b, e, f, e, f⟩

theorem uart_flush_tx_within (u : Uart) (tx_buff rx_buff : Nat)
    (h : u.tx.Within tx_buff ∧ u.rx.Within rx_buff) :
    (uart_flush_tx u).tx.Within tx_buff ∧ (uart_flush_tx u).rx.Within rx_buff := by
  obtain ⟨⟨a, b, c, d, e, f⟩, h2⟩ := h
  exact ⟨⟨a, b, c, d, c, d⟩, h2⟩

theorem uart_config_rings (k : Consts) (u : Uart) (baud par stop bytes : Nat) :
    (uart_config k u baud par stop bytes).tx = (uart_flush_tx u).tx ∧
    (uart_config k u baud par stop bytes).rx = (uart_flush_rx u).rx := by
  unfold uart_config
  exact ⟨rfl, rfl⟩

theorem vector_usart_rxc_wrapped_within (k : Consts) (u : Uart) (udr tx_buff rx_buff : Nat)
    (h : u.tx.Within tx_buff ∧ u.rx.Within rx_buff) :
    (vector_usart_rxc_wrapped k u udr).tx.Within tx_buff ∧
    (vector_usart_rxc_wrapped k u udr).rx.Within rx_buff := by
  unfold vector_usart_rxc_wrapped
  dsimp only
  split
  · exact ⟨h.1, ringBufferWrite_within u.rx u.mem (udr % 256) rx_buff h.2⟩
  · exact h

theorem vector_usart_udre_wrapped_within (k : Consts) (u : Uart) (tx_buff rx_buff : Nat)
    (h : u.tx.Within tx_buff ∧ u.rx.Within rx_buff) :
    (vector_usart_udre_wrapped k u).tx.Within tx_buff ∧
    (vector_usart_udre_wrapped k u).rx.Within rx_buff := by
  unfold vector_usart_udre_wrapped
  split
  · exact ⟨ringBufferRead_within u.tx u.mem tx_buff h.1, h.2⟩
  · exact h

/-- A write into a ring whose write cursor is inside the array changes no byte outside
the array. -/
theorem ringBufferWrite_mem_outside (rb : ringBuffer) (mem : Mem) (c buff a : Nat)
    (h : rb.Within buff) (ha : a < buff ∨ buff + 256 ≤ a) :
    (ringBufferWrite rb mem c).2 a = mem a := by
  obtain ⟨h1, h2, h3, h4, h5, h6⟩ := h
  unfold ringBufferWrite
  dsimp only
  rw [Function.update_noteq]
  omega

/-- C28.  In every state reached from the initial state (both cursors of both rings at the
start of their arrays at `tx_buff` and `rx_buff`) by any sequence of `ringBufferWrite` on a
ring that is not full, `ringBufferRead` on a ring that is not empty, `uart_putc`,
`uart_getc`, `uart_flush_rx`, `uart_flush_tx`, `uart_config`, `uart_disable` and
invocations of the two interrupt handlers (the naked entry points or the wrapped bodies):
each ring still belongs to its 256-byte array and `start <= read < end` and
`start <= write < end` hold for it, so the slot the next read loads and the slot the next
write stores lie inside the array, and a write changes no byte outside the array. -/
theorem cursor_bounds_invariant (k : Consts) (tx_buff rx_buff : Nat) (u : Uart)
    (h : Uart.Run k tx_buff rx_buff u) :
    (u.tx.start = tx_buff ∧ u.tx.end_ = tx_buff + 256 ∧
      u.tx.start ≤ u.tx.read ∧ u.tx.read < u.tx.end_ ∧
      u.tx.start ≤ u.tx.write ∧ u.tx.write < u.tx.end_) ∧
    (u.rx.start = rx_buff ∧ u.rx.end_ = rx_buff + 256 ∧
      u.rx.start ≤ u.rx.read ∧ u.rx.read < u.rx.end_ ∧
      u.rx.start ≤ u.rx.write ∧ u.rx.write < u.rx.end_) ∧
    (∀ c a, (a < tx_buff ∨ tx_buff + 256 ≤ a) → (ringBufferWrite u.tx u.mem c).2 a = u.mem a) ∧
    (∀ c a, (a < rx_buff ∨ rx_buff + 256 ≤ a) →
      (ringBufferWrite u.rx u.mem c).2 a = u.mem a) := by
  have hw : u.tx.Within tx_buff ∧ u.rx.Within rx_buff := by
    induction h with
    | init u h =>
      obtain ⟨h1, h2⟩ := h
      rw [h1, h2]
      simp [ringBuffer.Within, RINGBUFFER_TX_SIZE, RINGBUFFER_RX_SIZE]
    | txWrite u c _ _ ih => exact ⟨ringBufferWrite_within u.tx u.mem c tx_buff ih.1, ih.2⟩
    | txRead u _ _ ih => exact ⟨ringBufferRead_within u.tx u.mem tx_buff ih.1, ih.2⟩
    | rxWrite u c _ _ ih => exact ⟨ih.1, ringBufferWrite_within u.rx u.mem c rx_buff ih.2⟩
    | rxRead u _ _ ih => exact ⟨ih.1, ringBufferRead_within u.rx u.mem rx_buff ih.2⟩
    | putc u c _ ih => exact uart_putc_within k u c tx_buff rx_buff ih
    | getc u c _ ih => exact uart_getc_within u c tx_buff rx_buff ih
    | flush_rx u _ ih => exact uart_flush_rx_within u tx_buff rx_buff ih
    | flush_tx u _ ih => exact uart_flush_tx_within u tx_buff rx_buff ih
    | config u baud par stop bytes _ ih =>
      obtain ⟨e1, e2⟩ := uart_config_rings k u baud par stop bytes
      rw [e1, e2]
      exact ⟨(uart_flush_tx_within u tx_buff rx_buff ih).1,
        (uart_flush_rx_within u tx_buff rx_buff ih).2⟩
    | disable u _ ih => exact ih
    | rxc u udr _ ih =>
      exact vector_usart_rxc_wrapped_within k _ udr tx_buff rx_buff ih
    | udre u _ ih =>
      exact vector_usart_udre_wrapped_within k _ tx_buff rx_buff ih
    | rxcWrapped u udr _ ih =>
      exact vector_usart_rxc_wrapped_within k u udr tx_buff rx_buff ih
    | udreWrapped u _ ih =>
      exact vector_usart_udre_wrapped_within k u tx_buff rx_buff ih
  obtain ⟨⟨a1, a2, a3, a4, a5, a6⟩, ⟨b1, b2, b3, b4, b5, b6⟩⟩ := hw
  refine ⟨⟨a1, a2, by omega, by omega, by omega, by omega⟩,
    ⟨b1, b2, by omega, by omega, by omega, by omega⟩, ?_, ?_⟩
  · intro c a ha
    exact ringBufferWrite_mem_outside u.tx u.mem c tx_buff a ⟨a1, a2, a3, a4, a5, a6⟩ ha
  · intro c a ha
    exact ringBufferWrite_mem_outside u.rx u.mem c rx_buff a ⟨b1, b2, b3, b4, b5, b6⟩ ha

theorem cursor_bounds_invariant_witness :
    Uart.Run usbasp_h 96 352
      (ISR_USART_RXC_vect usbasp_h (uart_putc usbasp_h (Uart.boot 96 352) 65).2 66) ∧
    (ISR_USART_RXC_vect usbasp_h (uart_putc usbasp_h (Uart.boot 96 352) 65).2 66).rx.write
      < (ISR_USART_RXC_vect usbasp_h (uart_putc usbasp_h (Uart.boot 96 352) 65).2 66).rx.end_ :=
  ⟨Uart.Run.rxc _ 66 (Uart.Run.putc _ 65 (Uart.Run.init _ ⟨rfl, rfl⟩)),
    (cursor_bounds_invariant usbasp_h 96 352 _
      (Uart.Run.rxc _ 66 (Uart.Run.putc _ 65 (Uart.Run.init _ ⟨rfl, rfl⟩)))).2.1.2.2.2.2.2⟩

end UsbaspUart
